import Mathlib

/-!
# Library API: models and services

A shallow embedding of the in-memory library service
(`src/library-api/src/models/*.js`, `src/library-api/src/services/*.js`,
`src/library-api/src/routes/*.js`).

Conventions of the embedding

* A JavaScript `Map` is an insertion-ordered association list (`JsMap`).
* A method that can throw returns `Except String _` paired with the service
  state it leaves behind, because a throw does not undo earlier mutations.
* `new Date()` is an explicit argument `now`, in milliseconds since the epoch,
  a clock reading far from the ends of the range of `Date`.
  A date string is represented by the time value `new Date(s)` reads from it
  (`none` for an "Invalid Date").  `setDate` works on local time: the base
  definitions take a process time zone with a constant UTC offset (such as UTC),
  the definitions of `LocalTime` take the zone as an argument.
* Ids are `null`, an integer or a string (`JsId`); other JavaScript values
  (`undefined`, fractions, `NaN`, objects) are not represented.
* A JavaScript number that is not an id or a counter is the rational a finite
  double denotes; `Float64.add` and `Float64.mul` round the exact result to the
  nearest double.  Infinities and `NaN` are not represented.  Counters are
  naturals (the 2^53 precision limit of doubles is not modelled).
* Of the search handler the pagination block is modelled, on the sorted results;
  `page` and `limit` are the numeric defaults or the strings of `req.query`.
  `toLowerCase` is exact on ASCII strings.
-/

namespace LibraryApi

/-! ## JavaScript values -/

/-- An id as it arrives in a payload or is stored on an entity. -/
inductive JsId where
  | null
  | int (n : Int)
  | str (s : String)
  deriving DecidableEq

namespace JsId

/-- Truthiness: `null`, `0` and the empty string are falsy. -/
def truthy : JsId → Bool
  | null => false
  | int n => n != 0
  | str s => s != ""

/-- The expression `v || null`. -/
def orNull (v : JsId) : JsId := if v.truthy then v else null

/-- The test `Number.isInteger(v)`. -/
def isInteger : JsId → Bool
  | int _ => true
  | _ => false

/-- The string that `'...' + v` appends. -/
def toStr : JsId → String
  | null => "null"
  | int n => toString n
  | str s => s

end JsId

/-- The test `haystack.includes(needle)` on strings. -/
def includes (haystack needle : String) : Prop := needle.data <:+: haystack.data

instance (haystack needle : String) : Decidable (includes haystack needle) := by
  unfold includes; infer_instance

/-- The method `errors.join(', ')`. -/
def joinErrors (errors : List String) : String := ", ".intercalate errors

/-- One `if (cond) errors.push(msg)` statement. -/
def pushIf (cond : Bool) (msg : String) : List String := if cond then [msg] else []

/-- The result object of a `validate()` method. -/
structure Validation where
  isValid : Bool
  errors : List String
  deriving DecidableEq

/-- The object `{ isValid: errors.length === 0, errors }`. -/
def Validation.ofErrors (errors : List String) : Validation :=
  { isValid := errors.length == 0, errors := errors }

/-! ## JavaScript `Map` -/

/-- A `Map`: entries in insertion order. -/
abbrev JsMap (κ α : Type) := List (κ × α)

namespace JsMap

variable {κ α : Type} [DecidableEq κ]

/-- The method `map.has(k)`. -/
def has (m : JsMap κ α) (k : κ) : Bool := m.any (fun e => decide (e.1 = k))

/-- The method `map.get(k)`; `none` stands for `undefined`. -/
def get (m : JsMap κ α) (k : κ) : Option α := (m.find? (fun e => decide (e.1 = k))).map Prod.snd

/-- The method `map.set(k, v)`: an existing key keeps its place, a new key goes last. -/
def set : JsMap κ α → κ → α → JsMap κ α
  | [], k, v => [(k, v)]
  | e :: rest, k, v => if e.1 = k then (k, v) :: rest else e :: set rest k v

/-- The method `map.delete(k)`: whether the key was present, and the map left. -/
def delete (m : JsMap κ α) (k : κ) : Bool × JsMap κ α :=
  (has m k, m.filter (fun e => !decide (e.1 = k)))

/-- The method `Array.from(map.values())`. -/
def values (m : JsMap κ α) : List α := m.map Prod.snd

/-- In-place mutation of the first stored object that satisfies `p`
(the object `values().find(p)` returns). -/
def mutateFirst (p : α → Bool) (f : α → α) : JsMap κ α → JsMap κ α
  | [] => []
  | e :: rest => if p e.2 then (e.1, f e.2) :: rest else e :: mutateFirst p f rest

end JsMap

/-! ## JavaScript numbers (IEEE 754 doubles) -/

namespace Float64

/-- The number ⌊log₂ n⌋ of a positive natural number, by halving at most `fuel` times. -/
def log2Fuel : Nat → Nat → Nat
  | 0, _ => 0
  | fuel + 1, n => if n < 2 then 0 else log2Fuel fuel (n / 2) + 1

/-- The number ⌊log₂ n⌋ of a positive natural number (0 for 0). -/
def natLog2 (n : Nat) : Nat := log2Fuel n n

/-- The power 2^k of an integer exponent, as a rational. -/
def pow2 (k : Int) : ℚ :=
  if 0 ≤ k then ((2 ^ k.toNat : Nat) : ℚ) else 1 / ((2 ^ (-k).toNat : Nat) : ℚ)

/-- The binary exponent ⌊log₂ |x|⌋ of a rational other than 0. -/
def floorLog2 (x : ℚ) : Int :=
  let e0 : Int := (natLog2 x.num.natAbs : Int) - (natLog2 x.den : Int)
  if pow2 e0 ≤ |x| then e0 else e0 - 1

/-- The spacing of the doubles around `x`: 2^(e - 52) for the binary exponent `e` of `x`,
which is not taken below -1022 (subnormal numbers). -/
def ulp (x : ℚ) : ℚ := pow2 (max (floorLog2 x) (-1022) - 52)

/-- The integer nearest to `t`, the even one of two at the same distance. -/
def roundHalfEven (t : ℚ) : Int :=
  let f := ⌊t⌋
  if t - f < 1 / 2 then f
  else if 1 / 2 < t - f then f + 1
  else if f % 2 = 0 then f else f + 1

/-- The double nearest to the real number `x` (round to nearest, ties to even).  Overflow to
an infinity is not modelled: a result beyond the largest double stays finite. -/
def round (x : ℚ) : ℚ := if x = 0 then 0 else (roundHalfEven (x / ulp x) : ℚ) * ulp x

/-- The operator `a + b` on numbers. -/
def add (a b : ℚ) : ℚ := round (a + b)

/-- The operator `a * b` on numbers. -/
def mul (a b : ℚ) : ℚ := round (a * b)

end Float64

/-! ## Dates -/

/-- The largest time value a `Date` holds, in milliseconds. -/
def maxTime : Int := 8640000000000000

/-- The constructor `new Date(t)` on a number: a time beyond the range of `Date` gives an
invalid date. -/
def timeClip (t : Int) : Option Int := if -maxTime ≤ t ∧ t ≤ maxTime then some t else none

/-- The method `toISOString()`: the date string, or a `RangeError` on an invalid date. -/
def toISOString (d : Option Int) : Except String (Option Int) :=
  match d with
  | none => Except.error "Invalid time value"
  | some t => Except.ok (some t)

/-! ## Transaction (`models/Transaction.js`) -/

/-- A date string, as the time value `new Date(s)` gives it; `none` is "Invalid Date". -/
abbrev DateString := Option Int

/-- The constant `1000 * 60 * 60 * 24`. -/
def msPerDay : Int := 1000 * 60 * 60 * 24

/-- The fields of a `Transaction` object. -/
structure Transaction where
  transaction_id : Option Nat
  member_id : JsId
  book_id : JsId
  status : String
  borrowed_at : DateString
  returned_at : Option DateString
  due_date : DateString
  fine_amount : ℚ
  notes : String
  deriving DecidableEq

/-- The `data` argument of the `Transaction` constructor; a falsy or absent field is
`none`, `JsId.null`, `""` or `0`. -/
structure TransactionData where
  transaction_id : Option Nat := none
  member_id : JsId := JsId.null
  book_id : JsId := JsId.null
  status : String := ""
  borrowed_at : Option DateString := none
  returned_at : Option DateString := none
  due_date : Option DateString := none
  fine_amount : ℚ := 0
  notes : String := ""

namespace Transaction

/-- The method `calculateDueDate()` in a process whose time zone has a constant UTC offset:
14 days after `borrowed_at`; `toISOString()` throws on an invalid date.  The method for any
time zone is `LocalTime.Transaction.calculateDueDate`. -/
def calculateDueDate (borrowed_at : DateString) : Except String DateString :=
  match borrowed_at with
  | none => Except.error "Invalid time value"
  | some t => Except.ok (some (t + 14 * msPerDay))

/-- The constructor `new Transaction(data)` run at time `now`. -/
def new (now : Int) (data : TransactionData) : Except String Transaction :=
  let borrowed_at : DateString := data.borrowed_at.getD (some now)
  let due : Except String DateString :=
    match data.due_date with
    | some d => Except.ok d
    | none => calculateDueDate borrowed_at
  match due with
  | Except.error e => Except.error e
  | Except.ok due_date =>
    Except.ok
      { transaction_id := data.transaction_id
        member_id := data.member_id.orNull
        book_id := data.book_id.orNull
        status := if data.status = "" then "active" else data.status
        borrowed_at := borrowed_at
        returned_at := data.returned_at
        due_date := due_date
        fine_amount := data.fine_amount
        notes := data.notes }

/-- The method `isValidDate(dateString)`. -/
def isValidDate (d : DateString) : Bool := d.isSome

/-- The method `validate()`. -/
def validate (t : Transaction) : Validation :=
  Validation.ofErrors <|
    pushIf (!t.member_id.truthy || !t.member_id.isInteger) "Valid member ID is required" ++
    pushIf (!t.book_id.truthy || !t.book_id.isInteger) "Valid book ID is required" ++
    pushIf (t.status = "" || !(["active", "returned", "cancelled"].contains t.status))
      "Status must be active, returned, or cancelled" ++
    pushIf (!isValidDate t.borrowed_at) "Invalid borrowed_at date" ++
    pushIf (match t.returned_at with
            | none => false
            | some d => !isValidDate d) "Invalid returned_at date" ++
    pushIf (!isValidDate t.due_date) "Invalid due_date" ++
    pushIf (t.fine_amount ≠ 0 && (t.fine_amount < 0 || t.fine_amount > 1000))
      "Fine amount must be between 0 and 1000"

/-- The method `return()` run at time `now`. -/
def «return» (t : Transaction) (now : Int) : Transaction :=
  { t with status := "returned", returned_at := some (some now) }

/-- The method `isOverdue()` run at time `now`. -/
def isOverdue (t : Transaction) (now : Int) : Bool :=
  if t.status ≠ "active" then false
  else
    match t.due_date with
    | none => false
    | some due => decide (now > due)

/-- The method `calculateDaysOverdue()` run at time `now`: the difference and the quotient
are doubles. -/
def calculateDaysOverdue (t : Transaction) (now : Int) : Int :=
  if !t.isOverdue now then 0
  else
    match t.due_date with
    | none => 0
    | some due =>
      let diffTime : ℚ := Float64.round ((now - due : Int) : ℚ)
      Int.ceil (Float64.round (diffTime / (msPerDay : ℚ)))

/-- The default value of `ratePerDay` in `calculateFine(ratePerDay = 0.50)`. -/
def defaultRatePerDay : ℚ := 1 / 2

/-- The method `calculateFine(ratePerDay)` run at time `now`: the product is a double. -/
def calculateFine (t : Transaction) (now : Int) (ratePerDay : ℚ) : ℚ :=
  if !t.isOverdue now then 0
  else min (Float64.mul (t.calculateDaysOverdue now : ℚ) ratePerDay) 50

end Transaction

/-! ## TransactionService (`services/TransactionService.js`) -/

/-- The fields of a `TransactionService` object. -/
structure TransactionService where
  transactions : JsMap Nat Transaction
  nextTransactionId : Nat

namespace TransactionService

/-- The constructor: an empty map and `nextTransactionId = 1`. -/
def empty : TransactionService := { transactions := [], nextTransactionId := 1 }

/-- The method `createTransaction(transactionData)` run at time `now`.  The counter is
advanced before validation, so a validation failure leaves it advanced. -/
def createTransaction (s : TransactionService) (now : Int) (transactionData : TransactionData) :
    Except String Transaction × TransactionService :=
  match Transaction.new now transactionData with
  | Except.error e => (Except.error e, s)
  | Except.ok t0 =>
    let transaction : Transaction := { t0 with transaction_id := some s.nextTransactionId }
    let s1 : TransactionService := { s with nextTransactionId := s.nextTransactionId + 1 }
    let validation := transaction.validate
    if !validation.isValid then
      (Except.error ("Validation failed: " ++ joinErrors validation.errors), s1)
    else
      (Except.ok transaction,
        { s1 with transactions := JsMap.set s1.transactions s.nextTransactionId transaction })

/-- The method `getTransaction(transactionId)`; `none` stands for `null`. -/
def getTransaction (s : TransactionService) (transactionId : Nat) : Option Transaction :=
  JsMap.get s.transactions transactionId

/-- The method `getAllTransactions()`. -/
def getAllTransactions (s : TransactionService) : List Transaction :=
  JsMap.values s.transactions

/-- The method `getActiveTransactions()`. -/
def getActiveTransactions (s : TransactionService) : List Transaction :=
  (JsMap.values s.transactions).filter (fun t => decide (t.status = "active"))

/-- The method `getOverdueBooks()` run at time `now`. -/
def getOverdueBooks (s : TransactionService) (now : Int) : List Transaction :=
  s.getActiveTransactions.filter (fun transaction => transaction.isOverdue now)

/-- The method `hasActiveBorrow(memberId)`. -/
def hasActiveBorrow (s : TransactionService) (memberId : JsId) : Bool :=
  s.getActiveTransactions.any (fun t => decide (t.member_id = memberId))

/-- The method `isBookCurrentlyBorrowed(bookId)`. -/
def isBookCurrentlyBorrowed (s : TransactionService) (bookId : JsId) : Bool :=
  s.getActiveTransactions.any (fun t => decide (t.book_id = bookId))

/-- The method `borrowBook(memberId, bookId)` run at time `now`. -/
def borrowBook (s : TransactionService) (now : Int) (memberId bookId : JsId) :
    Except String Transaction × TransactionService :=
  if s.hasActiveBorrow memberId then
    (Except.error ("member with id: " ++ memberId.toStr ++ " has already borrowed a book"), s)
  else if s.isBookCurrentlyBorrowed bookId then
    (Except.error ("book with id: " ++ bookId.toStr ++ " is currently borrowed"), s)
  else
    s.createTransaction now { member_id := memberId, book_id := bookId, status := "active" }

/-- The method `returnBook(memberId, bookId)` run at time `now`. -/
def returnBook (s : TransactionService) (now : Int) (memberId bookId : JsId) :
    Except String Transaction × TransactionService :=
  let isMatch : Transaction → Bool :=
    fun t => decide (t.member_id = memberId) && decide (t.book_id = bookId)
  match s.getActiveTransactions.find? isMatch with
  | none =>
    (Except.error ("member with id: " ++ memberId.toStr ++ " has not borrowed book with id: "
      ++ bookId.toStr), s)
  | some activeTransaction =>
    let transactions := JsMap.mutateFirst (fun t => decide (t.status = "active") && isMatch t)
      (fun t => Transaction.«return» t now) s.transactions
    (Except.ok (Transaction.«return» activeTransaction now), { s with transactions := transactions })

/-- The object a successful `borrowBook(m, b)` creates at time `now`. -/
def borrowedRecord (s : TransactionService) (now : Int) (m b : JsId) : Transaction :=
  { transaction_id := some s.nextTransactionId
    member_id := m
    book_id := b
    status := "active"
    borrowed_at := some now
    returned_at := none
    due_date := some (now + 14 * msPerDay)
    fine_amount := 0
    notes := "" }

/-- The ids for which `Transaction.validate` raises no id error. -/
def validIds (m b : JsId) : Bool := m.truthy && m.isInteger && b.truthy && b.isInteger

/-- One call made on the service by a client. -/
inductive Call where
  | borrow (now : Int) (memberId bookId : JsId)
  | giveBack (now : Int) (memberId bookId : JsId)

/-- The state a call leaves behind, whether it returns or throws. -/
def step (s : TransactionService) : Call → TransactionService
  | Call.borrow now m b => (s.borrowBook now m b).2
  | Call.giveBack now m b => (s.returnBook now m b).2

/-- The state reached from `s` by a sequence of calls. -/
def run (s : TransactionService) (calls : List Call) : TransactionService :=
  calls.foldl step s

/-- No two active transactions share a member id, and no two share a book id. -/
def OneActiveEach (s : TransactionService) : Prop :=
  (s.getActiveTransactions.map (fun t => t.member_id)).Nodup ∧
  (s.getActiveTransactions.map (fun t => t.book_id)).Nodup

end TransactionService

/-! ## Due dates in local time

`setDate(getDate() + 14)` reads and writes the calendar date of the process's local time
zone, so the due date depends on the zone's UTC offsets at both ends of the loan. -/

/-- The local time zone of the process, by its UTC offsets in milliseconds: the offset in
force at a UTC time value, and the offset the implementation takes for a local time value. -/
structure TimeZone where
  offsetAtUtc : Int → Int
  offsetAtLocal : Int → Int

namespace TimeZone

/-- The zone UTC. -/
def utc : TimeZone := { offsetAtUtc := fun _ => 0, offsetAtLocal := fun _ => 0 }

/-- A sample zone with a daylight-saving change: the rule of America/New_York in the first
half of 2024 (UTC-5 until 2024-03-10 07:00 UTC, UTC-4 from then on; a local time before
03:00 of that day is read with the offset UTC-5). -/
def newYork2024 : TimeZone :=
  { offsetAtUtc := fun t => if t < 1710054000000 then -18000000 else -14400000
    offsetAtLocal := fun t => if t < 1710039600000 then -18000000 else -14400000 }

/-- The statement `date.setDate(date.getDate() + days)` on the valid date with time value
`t`: the same local wall-clock time `days` calendar days later, as a UTC time value. -/
def setDatePlus (tz : TimeZone) (t : Int) (days : Int) : Option Int :=
  let localTime := t + tz.offsetAtUtc t
  let newDate := localTime + days * msPerDay
  timeClip (newDate - tz.offsetAtLocal newDate)

end TimeZone

namespace LocalTime

/-- The method `Transaction.calculateDueDate()` in the zone `tz`. -/
def Transaction.calculateDueDate (tz : TimeZone) (borrowed_at : DateString) :
    Except String DateString :=
  match borrowed_at with
  | none => Except.error "Invalid time value"
  | some t => toISOString (tz.setDatePlus t 14)

/-- The constructor `new Transaction(data)` run at time `now` in the zone `tz`. -/
def Transaction.new (tz : TimeZone) (now : Int) (data : TransactionData) :
    Except String Transaction :=
  let borrowed_at : DateString := data.borrowed_at.getD (some now)
  let due : Except String DateString :=
    match data.due_date with
    | some d => Except.ok d
    | none => Transaction.calculateDueDate tz borrowed_at
  match due with
  | Except.error e => Except.error e
  | Except.ok due_date =>
    Except.ok
      { transaction_id := data.transaction_id
        member_id := data.member_id.orNull
        book_id := data.book_id.orNull
        status := if data.status = "" then "active" else data.status
        borrowed_at := borrowed_at
        returned_at := data.returned_at
        due_date := due_date
        fine_amount := data.fine_amount
        notes := data.notes }

/-- The method `TransactionService.createTransaction(transactionData)` run at time `now` in
the zone `tz`. -/
def TransactionService.createTransaction (tz : TimeZone) (s : TransactionService) (now : Int)
    (transactionData : TransactionData) : Except String Transaction × TransactionService :=
  match Transaction.new tz now transactionData with
  | Except.error e => (Except.error e, s)
  | Except.ok t0 =>
    let transaction : LibraryApi.Transaction :=
      { t0 with transaction_id := some s.nextTransactionId }
    let s1 : LibraryApi.TransactionService :=
      { s with nextTransactionId := s.nextTransactionId + 1 }
    let validation := transaction.validate
    if !validation.isValid then
      (Except.error ("Validation failed: " ++ joinErrors validation.errors), s1)
    else
      (Except.ok transaction,
        { s1 with transactions := JsMap.set s1.transactions s.nextTransactionId transaction })

/-- The method `TransactionService.borrowBook(memberId, bookId)` run at time `now` in the
zone `tz`. -/
def TransactionService.borrowBook (tz : TimeZone) (s : TransactionService) (now : Int)
    (memberId bookId : JsId) : Except String Transaction × TransactionService :=
  if s.hasActiveBorrow memberId then
    (Except.error ("member with id: " ++ memberId.toStr ++ " has already borrowed a book"), s)
  else if s.isBookCurrentlyBorrowed bookId then
    (Except.error ("book with id: " ++ bookId.toStr ++ " is currently borrowed"), s)
  else
    TransactionService.createTransaction tz s now
      { member_id := memberId, book_id := bookId, status := "active" }

end LocalTime

/-! ## JavaScript strings -/

/-- The characters `\s` matches and `trim()` removes (white space and line terminators),
by code point. -/
def isWhiteSpace (c : Char) : Bool :=
  let n := c.toNat
  (9 ≤ n && n ≤ 13) || n == 32 || n == 160 || n == 5760 || (8192 ≤ n && n ≤ 8202) ||
    n == 8232 || n == 8233 || n == 8239 || n == 8287 || n == 12288 || n == 65279

/-- The property `s.length`: the number of UTF-16 code units. -/
def jsLength (s : String) : Nat :=
  (s.data.map (fun c => if c.toNat < 65536 then 1 else 2)).sum

/-- The method `s.trim()`. -/
def jsTrim (s : String) : String :=
  String.mk ((s.data.dropWhile isWhiteSpace).reverse.dropWhile isWhiteSpace).reverse

/-- The test `/^\d$/` on one character. -/
def isAsciiDigit (c : Char) : Bool := decide (48 ≤ c.toNat) && decide (c.toNat ≤ 57)

/-- The call `parseInt(c)` on a decimal digit `c`. -/
def parseIntDigit (c : Char) : Nat := c.toNat - 48

/-! ## Member (`models/Member.js`) -/

/-- The fields of a `Member` object. -/
structure Member where
  member_id : JsId
  name : String
  age : Int
  has_borrowed : Bool
  deriving DecidableEq

/-- A member payload; `none` is an absent (`undefined`) field. -/
structure MemberData where
  member_id : JsId := JsId.null
  name : Option String := none
  age : Option Int := none
  has_borrowed : Option Bool := none

namespace Member

/-- The constructor `new Member(data)`. -/
def new (data : MemberData) : Member :=
  { member_id := data.member_id.orNull
    name := data.name.getD ""
    age := data.age.getD 0
    has_borrowed := data.has_borrowed.getD false }

/-- The method `validate()`. -/
def validate (m : Member) : Validation :=
  Validation.ofErrors <|
    pushIf (m.name = "" || jsLength (jsTrim m.name) == 0) "Name is required" ++
    pushIf (m.name ≠ "" && decide (jsLength m.name > 100))
      "Name must be 100 characters or less" ++
    pushIf (m.age = 0 || decide (m.age < 12)) "Age must be 12 or older" ++
    pushIf (m.age ≠ 0 && decide (m.age > 120)) "Age must be 120 or younger" ++
    pushIf (m.member_id.truthy && !m.member_id.isInteger) "Member ID must be an integer"

/-- The method `update(data)`: only `name`, `age` and `has_borrowed` are copied. -/
def update (m : Member) (data : MemberData) : Member :=
  { m with
    name := data.name.getD m.name
    age := data.age.getD m.age
    has_borrowed := data.has_borrowed.getD m.has_borrowed }

end Member

/-! ## MemberService (`services/MemberService.js`) -/

/-- The fields of a `MemberService` object. -/
structure MemberService where
  members : JsMap JsId Member
  nextMemberId : Nat
  deriving DecidableEq

namespace MemberService

/-- The constructor: an empty map and `nextMemberId = 1`. -/
def empty : MemberService := { members := [], nextMemberId := 1 }

/-- The method `createMember(memberData)`. -/
def createMember (s : MemberService) (memberData : MemberData) :
    Except String Member × MemberService :=
  if memberData.member_id.truthy && JsMap.has s.members memberData.member_id then
    (Except.error ("member with id: " ++ memberData.member_id.toStr ++ " already exists"), s)
  else
    let member0 := Member.new memberData
    let assigned : Member × MemberService :=
      if !member0.member_id.truthy then
        ({ member0 with member_id := JsId.int s.nextMemberId },
          { s with nextMemberId := s.nextMemberId + 1 })
      else (member0, s)
    let member := assigned.1
    let s1 := assigned.2
    let validation := member.validate
    if !validation.isValid then
      (Except.error ("Validation failed: " ++ joinErrors validation.errors), s1)
    else
      (Except.ok member, { s1 with members := JsMap.set s1.members member.member_id member })

/-- The method `getMember(memberId)`; `none` stands for `null`. -/
def getMember (s : MemberService) (memberId : JsId) : Option Member :=
  JsMap.get s.members memberId

/-- The method `getAllMembers()`. -/
def getAllMembers (s : MemberService) : List Member := JsMap.values s.members

/-- The method `updateMember(memberId, updateData)`; `Except.ok none` stands for `null`.
The stored object is mutated before it is validated. -/
def updateMember (s : MemberService) (memberId : JsId) (updateData : MemberData) :
    Except String (Option Member) × MemberService :=
  match JsMap.get s.members memberId with
  | none => (Except.ok none, s)
  | some member0 =>
    let member := member0.update updateData
    let s1 : MemberService := { s with members := JsMap.set s.members memberId member }
    let validation := member.validate
    if !validation.isValid then
      (Except.error ("Validation failed: " ++ joinErrors validation.errors), s1)
    else (Except.ok (some member), s1)

/-- The method `deleteMember(memberId)`. -/
def deleteMember (s : MemberService) (memberId : JsId) : Bool × MemberService :=
  ((JsMap.delete s.members memberId).1, { s with members := (JsMap.delete s.members memberId).2 })

/-- The method `memberExists(memberId)`. -/
def memberExists (s : MemberService) (memberId : JsId) : Bool := JsMap.has s.members memberId

/-- The state a sequence of `createMember` calls leaves, whether they return or throw. -/
def runCreates (s : MemberService) (payloads : List MemberData) : MemberService :=
  payloads.foldl (fun st d => (st.createMember d).2) s

end MemberService

/-! ## Book (`models/Book.js`) -/

/-- The fields of a `Book` object. -/
structure Book where
  book_id : JsId
  title : String
  author : String
  isbn : String
  is_available : Bool
  category : String
  published_date : Option DateString
  rating : ℚ
  borrowing_count : Int
  popularity_score : ℚ
  reservation_count : Int
  description : String
  pages : Int
  language : String
  deriving DecidableEq

/-- A book payload; `none` is an absent (`undefined`) field. -/
structure BookData where
  book_id : JsId := JsId.null
  title : Option String := none
  author : Option String := none
  isbn : Option String := none
  is_available : Option Bool := none
  category : Option String := none
  published_date : Option DateString := none
  rating : Option ℚ := none
  borrowing_count : Option Int := none
  popularity_score : Option ℚ := none
  reservation_count : Option Int := none
  description : Option String := none
  pages : Option Int := none
  language : Option String := none

/-- The expression `s || fallback` on an optional string. -/
def strOr (s : Option String) (fallback : String) : String :=
  match s with
  | none => fallback
  | some v => if v = "" then fallback else v

namespace Book

/-- The constructor `new Book(data)`. -/
def new (data : BookData) : Book :=
  { book_id := data.book_id.orNull
    title := strOr data.title ""
    author := strOr data.author ""
    isbn := strOr data.isbn ""
    is_available := data.is_available.getD true
    category := strOr data.category "General"
    published_date := data.published_date
    rating := data.rating.getD 0
    borrowing_count := data.borrowing_count.getD 0
    popularity_score := data.popularity_score.getD 0
    reservation_count := data.reservation_count.getD 0
    description := strOr data.description ""
    pages := data.pages.getD 0
    language := strOr data.language "en" }

/-- The character `isbn[i]` of a string without astral characters. -/
def charAt (isbn : String) (i : Nat) : Char := isbn.data.getD i '0'

/-- The method `validateISBN10(isbn)`. -/
def validateISBN10 (isbn : String) : Bool :=
  if !(isbn.data.length == 10 && (isbn.data.take 9).all isAsciiDigit &&
      (isAsciiDigit (charAt isbn 9) || charAt isbn 9 == 'X')) then false
  else
    let sum := (List.range 9).foldl (fun sum i => sum + parseIntDigit (charAt isbn i) * (10 - i)) 0
    let checkDigit := if charAt isbn 9 == 'X' then 10 else parseIntDigit (charAt isbn 9)
    (sum + checkDigit) % 11 == 0

/-- The method `validateISBN13(isbn)`. -/
def validateISBN13 (isbn : String) : Bool :=
  if !(isbn.data.length == 13 && isbn.data.all isAsciiDigit) then false
  else
    let sum := (List.range 12).foldl
      (fun sum i => sum + parseIntDigit (charAt isbn i) * (if i % 2 = 0 then 1 else 3)) 0
    let checkDigit := (10 - (sum % 10)) % 10
    checkDigit == parseIntDigit (charAt isbn 12)

/-- The method `validateISBN(isbn)`. -/
def validateISBN (isbn : String) : Bool :=
  let cleanISBN := String.mk (isbn.data.filter (fun c => !(c == '-' || isWhiteSpace c)))
  if jsLength cleanISBN == 10 then validateISBN10 cleanISBN
  else if jsLength cleanISBN == 13 then validateISBN13 cleanISBN
  else false

/-- The method `validate()`. -/
def validate (b : Book) : Validation :=
  Validation.ofErrors <|
    pushIf (b.title = "" || jsLength (jsTrim b.title) == 0) "Title is required" ++
    pushIf (b.title ≠ "" && decide (jsLength b.title > 200))
      "Title must be 200 characters or less" ++
    pushIf (b.author = "" || jsLength (jsTrim b.author) == 0) "Author is required" ++
    pushIf (b.author ≠ "" && decide (jsLength b.author > 100))
      "Author must be 100 characters or less" ++
    pushIf (b.isbn ≠ "" && !validateISBN b.isbn) "Invalid ISBN format" ++
    pushIf (b.book_id.truthy && !b.book_id.isInteger) "Book ID must be an integer" ++
    pushIf (b.rating ≠ 0 && (decide (b.rating < 0) || decide (b.rating > 5)))
      "Rating must be between 0 and 5" ++
    pushIf (b.pages ≠ 0 && (decide (b.pages < 0) || decide (b.pages > 10000)))
      "Pages must be between 0 and 10000"

end Book

/-! ## BookService (`services/BookService.js`) -/

/-- The fields of a `BookService` object. -/
structure BookService where
  books : JsMap JsId Book
  nextBookId : Nat
  deriving DecidableEq

namespace BookService

/-- The constructor: an empty map and `nextBookId = 1`. -/
def empty : BookService := { books := [], nextBookId := 1 }

/-- The method `createBook(bookData)`. -/
def createBook (s : BookService) (bookData : BookData) : Except String Book × BookService :=
  if bookData.book_id.truthy && JsMap.has s.books bookData.book_id then
    (Except.error ("book with id: " ++ bookData.book_id.toStr ++ " already exists"), s)
  else
    let book0 := Book.new bookData
    let assigned : Book × BookService :=
      if !book0.book_id.truthy then
        ({ book0 with book_id := JsId.int s.nextBookId }, { s with nextBookId := s.nextBookId + 1 })
      else (book0, s)
    let book := assigned.1
    let s1 := assigned.2
    let validation := book.validate
    if !validation.isValid then
      (Except.error ("Validation failed: " ++ joinErrors validation.errors), s1)
    else
      (Except.ok book, { s1 with books := JsMap.set s1.books book.book_id book })

/-- The method `getBook(bookId)`; `none` stands for `null`. -/
def getBook (s : BookService) (bookId : JsId) : Option Book := JsMap.get s.books bookId

/-- The method `getAllBooks()`. -/
def getAllBooks (s : BookService) : List Book := JsMap.values s.books

end BookService

/-! ## Derived scores and updates on Member and Book -/

/-- The method `Member.calculatePriorityScore()`. -/
def Member.calculatePriorityScore (m : Member) : ℚ :=
  let score : ℚ := 1
  let score := if m.age > 18 then score + 1 / 2 else score
  let score := if m.age > 65 then score + 1 / 2 else score
  let score := if m.has_borrowed then score + 1 else score
  min score 10

/-- The method `Book.update(data)`: the thirteen allow-listed fields are copied when given. -/
def Book.update (b : Book) (data : BookData) : Book :=
  { b with
    title := data.title.getD b.title
    author := data.author.getD b.author
    isbn := data.isbn.getD b.isbn
    is_available := data.is_available.getD b.is_available
    category := data.category.getD b.category
    published_date := match data.published_date with
      | some d => some d
      | none => b.published_date
    rating := data.rating.getD b.rating
    borrowing_count := data.borrowing_count.getD b.borrowing_count
    popularity_score := data.popularity_score.getD b.popularity_score
    reservation_count := data.reservation_count.getD b.reservation_count
    description := data.description.getD b.description
    pages := data.pages.getD b.pages
    language := data.language.getD b.language }

/-- The method `BookService.updateBook(bookId, updateData)`; `Except.ok none` stands for
`null`.  The stored object is mutated before it is validated. -/
def BookService.updateBook (s : BookService) (bookId : JsId) (updateData : BookData) :
    Except String (Option Book) × BookService :=
  match JsMap.get s.books bookId with
  | none => (Except.ok none, s)
  | some book0 =>
    let book := book0.update updateData
    let s1 : BookService := { s with books := JsMap.set s.books bookId book }
    let validation := book.validate
    if !validation.isValid then
      (Except.error ("Validation failed: " ++ joinErrors validation.errors), s1)
    else (Except.ok (some book), s1)

/-- The method `BookService.deleteBook(bookId)`. -/
def BookService.deleteBook (s : BookService) (bookId : JsId) : Bool × BookService :=
  ((JsMap.delete s.books bookId).1, { s with books := (JsMap.delete s.books bookId).2 })

/-! ## Reservation (`models/Reservation.js`) -/

/-- The object `group_reservation`; each field is `null` when missing. -/
structure GroupReservation where
  group_id : JsId
  group_size : JsId
  coordinator_member_id : JsId
  deriving DecidableEq

/-- The object `special_requests`, by the truthiness of the two fields that are read. -/
structure SpecialRequests where
  academic_priority : Bool := false
  accessibility_needs : Bool := false
  deriving DecidableEq

/-- The fields of a `Reservation` object that a method reads or writes
(`notification_preferences` and `payment_info` are only stored). -/
structure Reservation where
  reservation_id : String
  member_id : JsId
  book_id : JsId
  reservation_type : String
  status : String
  created_at : DateString
  expires_at : DateString
  preferred_pickup_date : Option DateString
  max_wait_days : Int
  queue_position : Nat
  priority_score : ℚ
  estimated_availability_date : Option DateString
  pickup_window_start : Option DateString
  pickup_window_end : Option DateString
  fee_paid : ℚ
  group_reservation : Option GroupReservation
  special_requests : SpecialRequests
  deriving DecidableEq

/-- The `data` argument of the `Reservation` constructor; a falsy or absent field is `none`,
`JsId.null`, `""` or `0`. -/
structure ReservationData where
  reservation_id : String := ""
  member_id : JsId := JsId.null
  book_id : JsId := JsId.null
  reservation_type : String := ""
  status : String := ""
  created_at : Option DateString := none
  expires_at : Option DateString := none
  preferred_pickup_date : Option DateString := none
  max_wait_days : Int := 0
  queue_position : Nat := 0
  priority_score : ℚ := 0
  estimated_availability_date : Option DateString := none
  pickup_window_start : Option DateString := none
  pickup_window_end : Option DateString := none
  fee_paid : ℚ := 0
  group_reservation : Option GroupReservation := none
  special_requests : Option SpecialRequests := none

namespace Reservation

/-- The method `calculateExpirationDate()` in a process whose time zone has a constant UTC
offset: 14 days after `created_at`; `toISOString()` throws on an invalid date. -/
def calculateExpirationDate (created_at : DateString) : Except String DateString :=
  match created_at with
  | none => Except.error "Invalid time value"
  | some t => Except.ok (some (t + 14 * msPerDay))

/-- The constructor `new Reservation(data)` run at time `now`; `generated` is the string
`generateReservationId()` returns (date stamp and random suffix). -/
def new (now : Int) (generated : String) (data : ReservationData) : Except String Reservation :=
  let created_at : DateString := data.created_at.getD (some now)
  let expires : Except String DateString :=
    match data.expires_at with
    | some d => Except.ok d
    | none => calculateExpirationDate created_at
  match expires with
  | Except.error e => Except.error e
  | Except.ok expires_at =>
    Except.ok
      { reservation_id := if data.reservation_id = "" then generated else data.reservation_id
        member_id := data.member_id.orNull
        book_id := data.book_id.orNull
        reservation_type := if data.reservation_type = "" then "standard" else data.reservation_type
        status := if data.status = "" then "pending" else data.status
        created_at := created_at
        expires_at := expires_at
        preferred_pickup_date := data.preferred_pickup_date
        max_wait_days := if data.max_wait_days = 0 then 14 else data.max_wait_days
        queue_position := data.queue_position
        priority_score := data.priority_score
        estimated_availability_date := data.estimated_availability_date
        pickup_window_start := data.pickup_window_start
        pickup_window_end := data.pickup_window_end
        fee_paid := data.fee_paid
        group_reservation := data.group_reservation
        special_requests := data.special_requests.getD {} }

/-- The method `validateGroupReservation()`. -/
def validateGroupReservation (r : Reservation) : Bool :=
  match r.group_reservation with
  | none => true
  | some g =>
    if !g.group_id.truthy || !(match g.group_id with
        | JsId.str _ => true
        | _ => false) then false
    else if !g.group_size.truthy || !g.group_size.isInteger ||
        (match g.group_size with
          | JsId.int n => decide (n < 2) || decide (n > 10)
          | _ => false) then false
    else if !g.coordinator_member_id.truthy || !g.coordinator_member_id.isInteger then false
    else true

/-- The method `isValidDate(dateString)`. -/
def isValidDate (d : DateString) : Bool := d.isSome

/-- The method `validate()`. -/
def validate (r : Reservation) : Validation :=
  Validation.ofErrors <|
    pushIf (!r.member_id.truthy || !r.member_id.isInteger) "Valid member ID is required" ++
    pushIf (!r.book_id.truthy || !r.book_id.isInteger) "Valid book ID is required" ++
    pushIf (r.reservation_type = "" ||
        !(["standard", "premium", "group"].contains r.reservation_type))
      "Reservation type must be standard, premium, or group" ++
    pushIf (r.status = "" ||
        !(["pending", "confirmed", "queued", "cancelled", "expired"].contains r.status))
      "Invalid reservation status" ++
    pushIf (r.max_wait_days ≠ 0 && (decide (r.max_wait_days < 1) || decide (r.max_wait_days > 30)))
      "Max wait days must be between 1 and 30" ++
    pushIf (r.fee_paid ≠ 0 && (decide (r.fee_paid < 0) || decide (r.fee_paid > 100)))
      "Fee paid must be between 0 and 100" ++
    pushIf (match r.preferred_pickup_date with
            | none => false
            | some d => !isValidDate d) "Invalid preferred pickup date" ++
    pushIf (r.group_reservation.isSome && !r.validateGroupReservation)
      "Invalid group reservation data"

/-- The method `confirm()`. -/
def confirm (r : Reservation) : Reservation := { r with status := "confirmed" }

/-- The method `queue(position)`. -/
def queue (r : Reservation) (position : Nat) : Reservation :=
  { r with status := "queued", queue_position := position }

/-- The method `cancel()`. -/
def cancel (r : Reservation) : Reservation := { r with status := "cancelled" }

/-- The method `expire()`. -/
def expire (r : Reservation) : Reservation := { r with status := "expired" }

/-- The lookup `typeScores[this.reservation_type] || 1`, for a `reservation_type` that does
not name a property every object inherits (such as "constructor"). -/
def typeScore (reservation_type : String) : ℚ :=
  if reservation_type = "standard" then 1
  else if reservation_type = "premium" then 2
  else if reservation_type = "group" then 3 / 2
  else 1

/-- The method `calculatePriorityScore(member)`: the score returned and the reservation with
`priority_score` set to it.  Every `+=` and `*` is an operation on doubles, and the literals
0.3, 0.1 and 0.2 are the doubles nearest to them. -/
def calculatePriorityScore (r : Reservation) (member : Option Member) : ℚ × Reservation :=
  let score : ℚ := 0
  let score := Float64.add score (typeScore r.reservation_type)
  let score := match member with
    | some m =>
      Float64.add score (Float64.mul m.calculatePriorityScore (Float64.round (3 / 10)))
    | none => score
  let score := if r.special_requests.academic_priority then Float64.add score 1 else score
  let score := if r.special_requests.accessibility_needs then Float64.add score (1 / 2) else score
  let score := Float64.add score (Float64.mul r.fee_paid (Float64.round (1 / 10)))
  let score :=
    if r.group_reservation.isSome then Float64.add score (Float64.round (1 / 5)) else score
  (min score 10, { r with priority_score := min score 10 })

end Reservation

/-! ## ReservationService (`services/ReservationService.js`) -/

/-- The fields of a `ReservationService` object. -/
structure ReservationService where
  reservations : JsMap String Reservation
  deriving DecidableEq

namespace ReservationService

/-- The constructor: an empty map. -/
def empty : ReservationService := { reservations := [] }

/-- The method `createReservation(reservationData)` run at time `now` with the generated
id `generated`. -/
def createReservation (s : ReservationService) (now : Int) (generated : String)
    (reservationData : ReservationData) : Except String Reservation × ReservationService :=
  match Reservation.new now generated reservationData with
  | Except.error e => (Except.error e, s)
  | Except.ok reservation =>
    let validation := reservation.validate
    if !validation.isValid then
      (Except.error ("Validation failed: " ++ joinErrors validation.errors), s)
    else
      (Except.ok reservation,
        { reservations := JsMap.set s.reservations reservation.reservation_id reservation })

/-- The method `getReservation(reservationId)`; `none` stands for `null`. -/
def getReservation (s : ReservationService) (reservationId : String) : Option Reservation :=
  JsMap.get s.reservations reservationId

/-- The method `getAllReservations()`. -/
def getAllReservations (s : ReservationService) : List Reservation :=
  JsMap.values s.reservations

/-- The method `getReservationsByMember(memberId)`. -/
def getReservationsByMember (s : ReservationService) (memberId : JsId) : List Reservation :=
  (JsMap.values s.reservations).filter (fun r => decide (r.member_id = memberId))

/-- The method `getReservationsByBook(bookId)`. -/
def getReservationsByBook (s : ReservationService) (bookId : JsId) : List Reservation :=
  (JsMap.values s.reservations).filter (fun r => decide (r.book_id = bookId))

/-- The test `['pending', 'confirmed', 'queued'].includes(status)`. -/
def isActiveStatus (status : String) : Bool := ["pending", "confirmed", "queued"].contains status

/-- The method `getActiveReservations()`. -/
def getActiveReservations (s : ReservationService) : List Reservation :=
  (JsMap.values s.reservations).filter (fun r => isActiveStatus r.status)

/-- The method `hasActiveReservation(memberId)`. -/
def hasActiveReservation (s : ReservationService) (memberId : JsId) : Bool :=
  s.getActiveReservations.any (fun r => decide (r.member_id = memberId))

/-- The method `getReservationQueue(bookId)`: `sort` is stable, and its comparator
`b.priority_score - a.priority_score` puts `a` first when `a.priority_score` is not smaller. -/
def getReservationQueue (s : ReservationService) (bookId : JsId) : List Reservation :=
  List.insertionSort (fun a b : Reservation => a.priority_score ≥ b.priority_score)
    ((s.getReservationsByBook bookId).filter (fun r => decide (r.status = "queued")))

end ReservationService

/-! ## Route handlers (`routes/*.js`)

The handler functions are modelled on the request values they read; the `express-validator`
middleware in front of them only turns requests away with status 400 and is not modelled. -/

/-- The shared service instances of `services/index.js`. -/
structure Services where
  memberService : MemberService
  bookService : BookService
  transactionService : TransactionService
  reservationService : ReservationService

/-- The services as the module creates them. -/
def Services.empty : Services :=
  { memberService := MemberService.empty
    bookService := BookService.empty
    transactionService := TransactionService.empty
    reservationService := ReservationService.empty }

/-- A request field that may be missing (`undefined`), `null` or given. -/
inductive JsField (α : Type) where
  | undefined
  | null
  | val (a : α)
  deriving DecidableEq

/-- The expression `field || fallback` on an object-valued field (objects are truthy). -/
def JsField.toOption {α : Type} : JsField α → Option α
  | JsField.val a => some a
  | _ => none

namespace Routes

/-- An answer `res.status(status).json({ message })`. -/
structure MessageResponse where
  status : Nat
  message : String
  deriving DecidableEq

/-- The answer of the borrow and return handlers: the status, the `message` of an error body,
and the transaction a 200 body summarises. -/
structure TransactionResponse where
  status : Nat
  message : String
  transaction : Option Transaction
  deriving DecidableEq

/-- The body of `POST /api/reservations`, as the handler destructures it. -/
structure ReservationBody where
  member_id : JsId := JsId.null
  book_id : JsId := JsId.null
  reservation_type : Option String := none
  preferred_pickup_date : Option DateString := none
  max_wait_days : Option Int := none
  fee_paid : Option ℚ := none
  group_reservation : Option GroupReservation := none
  special_requests : JsField SpecialRequests := JsField.undefined

/-- The answer of the reservation handler: the status, the `message` of an error body, and
the fields of a 200 body that depend on the stored data. -/
structure ReservationResponse where
  status : Nat
  message : String
  reservation_id : String
  reservation_status : String
  queue_position : Nat
  priority_score : ℚ
  deriving DecidableEq

/-- An error answer of the reservation handler. -/
def reservationError (status : Nat) (message : String) : ReservationResponse :=
  { status := status
    message := message
    reservation_id := ""
    reservation_status := ""
    queue_position := 0
    priority_score := 0 }

/-- The object `reservationData` the reservation handler builds from the body, with the
defaults of its destructuring (`'standard'`, `14`, `0`, `null`, `{}`). -/
def reservationData (body : ReservationBody) : ReservationData :=
  { member_id := body.member_id
    book_id := body.book_id
    reservation_type := body.reservation_type.getD "standard"
    preferred_pickup_date := body.preferred_pickup_date
    max_wait_days := body.max_wait_days.getD 14
    fee_paid := body.fee_paid.getD 0
    group_reservation := body.group_reservation
    special_requests := match body.special_requests with
      | JsField.undefined => some {}
      | other => other.toOption }

/-- The field `pickup_window_end` of the reservation handler's answer: two days after the
preferred pickup date when one is given; `toISOString()` throws when that is no valid date. -/
def pickupWindowEnd (preferred_pickup_date : Option DateString) :
    Except String (Option DateString) :=
  match preferred_pickup_date with
  | none => Except.ok none
  | some none => Except.error "Invalid time value"
  | some (some t) =>
    match toISOString (timeClip (t + 2 * 24 * 60 * 60 * 1000)) with
    | Except.error e => Except.error e
    | Except.ok d => Except.ok (some d)

/-- The number `activeReservations.length` the reservation handler compares with 3. -/
def activeCount (rs : ReservationService) (member_id : JsId) : Nat :=
  (rs.getActiveReservations.filter (fun r => decide (r.member_id = member_id))).length

/-- The handler of `POST /api/members`. -/
def postMembers (s : Services) (body : MemberData) : MessageResponse × Services :=
  let r := s.memberService.createMember body
  let s1 : Services := { s with memberService := r.2 }
  match r.1 with
  | Except.ok _ => ({ status := 200, message := "" }, s1)
  | Except.error e =>
    if includes e "already exists" then ({ status := 400, message := e }, s1)
    else ({ status := 400, message := "Validation failed: " ++ e }, s1)

/-- The handler of `POST /api/books`. -/
def postBooks (s : Services) (body : BookData) : MessageResponse × Services :=
  let r := s.bookService.createBook body
  let s1 : Services := { s with bookService := r.2 }
  match r.1 with
  | Except.ok _ => ({ status := 200, message := "" }, s1)
  | Except.error e =>
    if includes e "already exists" then ({ status := 400, message := e }, s1)
    else ({ status := 400, message := "Validation failed: " ++ e }, s1)

/-- The handler of `DELETE /api/members/:member_id`, on `memberId = parseInt(...)`. -/
def deleteMember (s : Services) (memberId : Int) : MessageResponse × Services :=
  match s.memberService.getMember (JsId.int memberId) with
  | none =>
    ({ status := 404, message := "member with id: " ++ toString memberId ++ " was not found" }, s)
  | some member =>
    if member.has_borrowed then
      ({ status := 400
         message := "cannot delete member with id: " ++ toString memberId ++
           ", member has an active book borrowing" }, s)
    else
      let r := s.memberService.deleteMember (JsId.int memberId)
      let s1 : Services := { s with memberService := r.2 }
      if r.1 then
        ({ status := 200
           message := "member with id: " ++ toString memberId ++ " has been deleted successfully" },
          s1)
      else ({ status := 500, message := "Failed to delete member" }, s1)

/-- The handler of `POST /api/borrow` run at time `now`. -/
def postBorrow (s : Services) (now : Int) (member_id book_id : JsId) :
    TransactionResponse × Services :=
  match s.memberService.getMember member_id with
  | none =>
    ({ status := 404
       message := "member with id: " ++ member_id.toStr ++ " was not found"
       transaction := none }, s)
  | some _ =>
    match s.bookService.getBook book_id with
    | none =>
      ({ status := 404
         message := "book with id: " ++ book_id.toStr ++ " was not found"
         transaction := none }, s)
    | some _ =>
      let r1 := s.transactionService.borrowBook now member_id book_id
      let s1 : Services := { s with transactionService := r1.2 }
      match r1.1 with
      | Except.error e => ({ status := 400, message := e, transaction := none }, s1)
      | Except.ok transaction =>
        let r2 := s1.memberService.updateMember member_id { has_borrowed := some true }
        let s2 : Services := { s1 with memberService := r2.2 }
        match r2.1 with
        | Except.error e => ({ status := 400, message := e, transaction := none }, s2)
        | Except.ok _ =>
          let r3 := s2.bookService.updateBook book_id { is_available := some false }
          let s3 : Services := { s2 with bookService := r3.2 }
          match r3.1 with
          | Except.error e => ({ status := 400, message := e, transaction := none }, s3)
          | Except.ok _ => ({ status := 200, message := "", transaction := some transaction }, s3)

/-- The handler of `POST /api/return` run at time `now`. -/
def postReturn (s : Services) (now : Int) (member_id book_id : JsId) :
    TransactionResponse × Services :=
  let r1 := s.transactionService.returnBook now member_id book_id
  let s1 : Services := { s with transactionService := r1.2 }
  match r1.1 with
  | Except.error e => ({ status := 400, message := e, transaction := none }, s1)
  | Except.ok transaction =>
    let r2 := s1.memberService.updateMember member_id { has_borrowed := some false }
    let s2 : Services := { s1 with memberService := r2.2 }
    match r2.1 with
    | Except.error e => ({ status := 400, message := e, transaction := none }, s2)
    | Except.ok _ =>
      let r3 := s2.bookService.updateBook book_id { is_available := some true }
      let s3 : Services := { s2 with bookService := r3.2 }
      match r3.1 with
      | Except.error e => ({ status := 400, message := e, transaction := none }, s3)
      | Except.ok _ => ({ status := 200, message := "", transaction := some transaction }, s3)

/-- The handler of `POST /api/reservations` run at time `now`; `generated` is the id
`generateReservationId()` returns for this request.  The answer is built after the
reservation is stored; a throw while it is built (`toISOString()` on `pickup_window_end`,
`Object.keys(null)`) is answered 400.  The clock reading `now` is taken to be more than
seven days from the ends of the `Date` range, so its own date strings never throw. -/
def postReservations (s : Services) (now : Int) (generated : String) (body : ReservationBody) :
    ReservationResponse × Services :=
  match s.memberService.getMember body.member_id with
  | none =>
    (reservationError 404 ("member with id: " ++ body.member_id.toStr ++ " was not found"), s)
  | some member =>
    match s.bookService.getBook body.book_id with
    | none =>
      (reservationError 404 ("book with id: " ++ body.book_id.toStr ++ " was not found"), s)
    | some book =>
      let existingReservation :=
        (s.reservationService.getReservationsByMember body.member_id).find?
          (fun r => decide (r.book_id = body.book_id) &&
            ReservationService.isActiveStatus r.status)
      if existingReservation.isSome then
        (reservationError 400 "Member already has an active reservation for this book", s)
      else
        if activeCount s.reservationService body.member_id ≥ 3 then
          (reservationError 400 "Member has reached maximum active reservations limit", s)
        else
          let r1 := s.reservationService.createReservation now generated (reservationData body)
          match r1.1 with
          | Except.error _ =>
            (reservationError 400 "Multiple complex validation failures detected",
              { s with reservationService := r1.2 })
          | Except.ok reservation0 =>
            let scored := reservation0.calculatePriorityScore (some member)
            let priorityScore := scored.1
            let rs1 : ReservationService :=
              { reservations := JsMap.set r1.2.reservations reservation0.reservation_id scored.2 }
            let status := if book.is_available then "confirmed" else "queued"
            let queuePosition :=
              if book.is_available then 0 else (rs1.getReservationQueue body.book_id).length
            let reservation :=
              if book.is_available then scored.2 else scored.2.queue queuePosition
            let rs2 : ReservationService :=
              { reservations := JsMap.set rs1.reservations reservation0.reservation_id reservation }
            let s2 : Services := { s with reservationService := rs2 }
            match pickupWindowEnd reservation.preferred_pickup_date, body.special_requests with
            | Except.error _, _ =>
              (reservationError 400 "Multiple complex validation failures detected", s2)
            | Except.ok _, JsField.null =>
              (reservationError 400 "Multiple complex validation failures detected", s2)
            | Except.ok _, _ =>
              ({ status := 200
                 message := ""
                 reservation_id := reservation.reservation_id
                 reservation_status := status
                 queue_position := queuePosition
                 priority_score := priorityScore }, s2)

/-- The invariant of the reservation store under the creation handlers: active reservations
have pairwise different (member, book) pairs, no member has more than 3 of them, and every
stored reservation names a stored member and a stored book. -/
def ReservationInvariant (s : Services) : Prop :=
  (s.reservationService.getActiveReservations.map (fun r => (r.member_id, r.book_id))).Nodup ∧
  (∀ m, activeCount s.reservationService m ≤ 3) ∧
  (∀ r ∈ JsMap.values s.reservationService.reservations,
    JsMap.has s.memberService.members r.member_id = true ∧
    JsMap.has s.bookService.books r.book_id = true)

/-- A request that creates an entity. -/
inductive CreationRequest where
  | member (body : MemberData)
  | book (body : BookData)
  | reservation (now : Int) (generated : String) (body : ReservationBody)

/-- The services after a creation request has been answered. -/
def create (s : Services) : CreationRequest → Services
  | CreationRequest.member body => (postMembers s body).2
  | CreationRequest.book body => (postBooks s body).2
  | CreationRequest.reservation now generated body => (postReservations s now generated body).2

/-- The services after a sequence of creation requests, starting from `s`. -/
def createAll (s : Services) (requests : List CreationRequest) : Services :=
  requests.foldl create s

end Routes

namespace TransactionService

/-- One call made on the service, `createTransaction` included. -/
inductive ServiceCall where
  | create (now : Int) (transactionData : TransactionData)
  | borrow (now : Int) (memberId bookId : JsId)
  | giveBack (now : Int) (memberId bookId : JsId)

/-- The state a service call leaves behind, whether it returns or throws. -/
def stepCall (s : TransactionService) : ServiceCall → TransactionService
  | ServiceCall.create now transactionData => (s.createTransaction now transactionData).2
  | ServiceCall.borrow now m b => (s.borrowBook now m b).2
  | ServiceCall.giveBack now m b => (s.returnBook now m b).2

/-- The state reached from `s` by a sequence of service calls. -/
def runCalls (s : TransactionService) (calls : List ServiceCall) : TransactionService :=
  calls.foldl stepCall s

/-- Every stored transaction sits under its own id, a positive integer below the counter,
and the keys grow along the insertion order. -/
def IdsSequenced (s : TransactionService) : Prop :=
  0 < s.nextTransactionId ∧
  (∀ e ∈ s.transactions, e.2.transaction_id = some e.1 ∧ 0 < e.1 ∧ e.1 < s.nextTransactionId) ∧
  (s.transactions.map Prod.fst).Pairwise (fun a b => a < b)

end TransactionService

/-! ## Book search (`BookService.searchBooks`, `GET /api/books/search`) -/

/-- The method `toLowerCase()`, on the letters A to Z; other characters are kept as they
are, so the model is exact on ASCII strings only. -/
def toLowerCase (s : String) : String := s.map Char.toLower

/-- The `filters` argument of `searchBooks`; `none` is an absent (`undefined`) field, for
the two ratings also NaN and for the two dates also the empty string, which are falsy like
`undefined`. -/
structure SearchFilters where
  category : Option String := none
  author : Option String := none
  published_after : Option DateString := none
  published_before : Option DateString := none
  min_rating : Option ℚ := none
  max_rating : Option ℚ := none
  availability : Option Bool := none

/-- The test `if (s)` on an optional string. -/
def strTruthy (s : Option String) : Bool :=
  match s with
  | none => false
  | some v => decide (v ≠ "")

/-- The test `if (x)` on an optional number. -/
def numTruthy (x : Option ℚ) : Bool :=
  match x with
  | none => false
  | some v => decide (v ≠ 0)

/-- The test `book.published_date && new Date(book.published_date) >= bound` (or `<=` when
`upper` is set); a comparison with an invalid date is false. -/
def publishedWithin (upper : Bool) (published_date : Option DateString) (bound : DateString) :
    Bool :=
  match published_date, bound with
  | some (some t), some d => if upper then decide (t ≤ d) else decide (t ≥ d)
  | _, _ => false

/-- The method `searchBooks(query, filters)`. -/
def BookService.searchBooks (s : BookService) (query : Option String) (filters : SearchFilters) :
    List Book :=
  let results := JsMap.values s.books
  let results :=
    if strTruthy query then
      let searchTerm := toLowerCase (query.getD "")
      results.filter (fun book =>
        decide (includes (toLowerCase book.title) searchTerm) ||
        decide (includes (toLowerCase book.author) searchTerm) ||
        decide (includes (toLowerCase book.category) searchTerm) ||
        decide (includes (toLowerCase book.description) searchTerm))
    else results
  let results :=
    if strTruthy filters.category then
      results.filter (fun book => decide (some book.category = filters.category))
    else results
  let results :=
    if strTruthy filters.author then
      results.filter (fun book =>
        decide (includes (toLowerCase book.author) (toLowerCase (filters.author.getD ""))))
    else results
  let results :=
    match filters.availability with
    | some availability => results.filter (fun book => book.is_available == availability)
    | none => results
  let results :=
    if numTruthy filters.min_rating then
      results.filter (fun book => decide (book.rating ≥ filters.min_rating.getD 0))
    else results
  let results :=
    if numTruthy filters.max_rating then
      results.filter (fun book => decide (book.rating ≤ filters.max_rating.getD 0))
    else results
  let results :=
    match filters.published_after with
    | some afterDate =>
      results.filter (fun book => publishedWithin false book.published_date afterDate)
    | none => results
  match filters.published_before with
  | some beforeDate =>
    results.filter (fun book => publishedWithin true book.published_date beforeDate)
  | none => results

/-- A query parameter after `const { page = 1, limit = 20 } = req.query`: the numeric
default, or the string the client sent. -/
inductive QueryValue where
  | num (n : Int)
  | str (s : String)
  deriving DecidableEq

/-- The conversion `Number(s)` of a string; `none` is NaN.  Exact on the empty string and on
decimal integer literals with an optional sign, surrounded by white space or not; the other
numeric literals (fraction, exponent, radix prefix, `Infinity`) are not modelled. -/
def jsNumber (s : String) : Option Int :=
  let t := (jsTrim s).data
  let digits : List Char :=
    match t with
    | '+' :: rest => rest
    | '-' :: rest => rest
    | rest => rest
  if t = [] then some 0
  else if digits ≠ [] ∧ digits.all isAsciiDigit = true then
    let n : Int := digits.foldl (fun acc c => acc * 10 + (parseIntDigit c : Int)) 0
    some (if t.head? = some '-' then -n else n)
  else none

/-- The numeric value of a query parameter in an arithmetic expression; `none` is NaN. -/
def QueryValue.toNumber : QueryValue → Option Int
  | QueryValue.num n => some n
  | QueryValue.str s => jsNumber s

/-- A value that is a number (`none` is NaN) or a string. -/
inductive NumberOrString where
  | num (n : Option Int)
  | str (s : String)
  deriving DecidableEq

/-- The conversion `String(n)` of an integer or NaN. -/
def numberToString : Option Int → String
  | none => "NaN"
  | some n => toString n

/-- The operator `a + b` with a number `a`: addition when `b` is a number, concatenation
when `b` is a string. -/
def jsAdd (a : Option Int) (b : QueryValue) : NumberOrString :=
  match b with
  | QueryValue.num n => NumberOrString.num (a.map (fun x => x + n))
  | QueryValue.str s => NumberOrString.str (numberToString a ++ s)

/-- The conversion of a `slice` argument to an integer: NaN becomes 0. -/
def toIntegerOrInfinity : NumberOrString → Int
  | NumberOrString.num n => n.getD 0
  | NumberOrString.str s => (jsNumber s).getD 0

/-- The method `array.slice(start, end)` on integer arguments. -/
def jsSlice {α : Type} (xs : List α) (start stop : Int) : List α :=
  let len : Int := xs.length
  let k : Int := if start < 0 then max (len + start) 0 else min start len
  let final : Int := if stop < 0 then max (len + stop) 0 else min stop len
  (xs.drop k.toNat).take (final - k).toNat

namespace Routes

/-- The part of the search response the pagination block computes: the page of results
(`books` maps each of them to its summary), `total_pages` (`none` when it is not finite)
and `total_results`. -/
structure Pagination (α : Type) where
  books : List α
  total_pages : Option Int
  total_results : Nat
  deriving DecidableEq

/-- The block "Apply pagination" of the search handler, on the sorted `results`. -/
def paginate {α : Type} (results : List α) (page limit : QueryValue) : Pagination α :=
  let totalResults := results.length
  let totalPages : Option Int :=
    match limit.toNumber with
    | none => none
    | some l => if l = 0 then none else some (Int.ceil ((totalResults : ℚ) / (l : ℚ)))
  let startIndex : Option Int :=
    match page.toNumber, limit.toNumber with
    | some p, some l => some ((p - 1) * l)
    | _, _ => none
  let endIndex := jsAdd startIndex limit
  let paginatedResults := jsSlice results (startIndex.getD 0) (toIntegerOrInfinity endIndex)
  { books := paginatedResults, total_pages := totalPages, total_results := totalResults }

end Routes

namespace Routes

/-- The handler of `PUT /api/members/:member_id`, on `memberId = parseInt(...)`. -/
def putMember (s : Services) (memberId : Int) (body : MemberData) : MessageResponse × Services :=
  let r := s.memberService.updateMember (JsId.int memberId) body
  let s1 : Services := { s with memberService := r.2 }
  match r.1 with
  | Except.ok none =>
    ({ status := 404, message := "member with id: " ++ toString memberId ++ " was not found" }, s1)
  | Except.ok (some _) => ({ status := 200, message := "" }, s1)
  | Except.error e => ({ status := 400, message := e }, s1)

/-- One request to the member, book, borrow or return handlers. -/
inductive Request where
  | postMember (body : MemberData)
  | putMember (memberId : Int) (body : MemberData)
  | postBook (body : BookData)
  | borrow (now : Int) (member_id book_id : JsId)
  | giveBack (now : Int) (member_id book_id : JsId)

/-- The services after a request has been answered. -/
def handle (s : Services) : Request → Services
  | Request.postMember body => (postMembers s body).2
  | Request.putMember memberId body => (putMember s memberId body).2
  | Request.postBook body => (postBooks s body).2
  | Request.borrow now member_id book_id => (postBorrow s now member_id book_id).2
  | Request.giveBack now member_id book_id => (postReturn s now member_id book_id).2

/-- The services after a sequence of requests, starting from `s`. -/
def handleAll (s : Services) (requests : List Request) : Services :=
  requests.foldl handle s

end Routes

namespace Routes

/-- The stores are keyed as the services key them: each member and each book is stored under
its own id, and every transaction key is below `nextTransactionId`. -/
def WellKeyed (s : Services) : Prop :=
  (∀ k member, s.memberService.getMember k = some member → member.member_id = k) ∧
  (∀ k book, s.bookService.getBook k = some book → book.book_id = k) ∧
  (∀ e ∈ s.transactionService.transactions, e.1 < s.transactionService.nextTransactionId)

/-- Every stored member and book passes `validate()`, has at most one active transaction,
and carries the flag the active transactions give it. -/
def FlagsConsistent (s : Services) : Prop :=
  (∀ k member, s.memberService.getMember k = some member →
    member.validate.isValid = true ∧
    (s.transactionService.getActiveTransactions.filter
      (fun t => decide (t.member_id = member.member_id))).length ≤ 1 ∧
    member.has_borrowed = s.transactionService.hasActiveBorrow member.member_id) ∧
  (∀ k book, s.bookService.getBook k = some book →
    book.validate.isValid = true ∧
    (s.transactionService.getActiveTransactions.filter
      (fun t => decide (t.book_id = book.book_id))).length ≤ 1 ∧
    book.is_available = !s.transactionService.isBookCurrentlyBorrowed book.book_id)

end Routes

/-! ## Lemmas on doubles -/

namespace Float64

theorem pow2_eq (k : Int) : pow2 k = (2 : ℚ) ^ k := by
  unfold pow2
  split
  · rename_i h
    obtain ⟨n, rfl⟩ := Int.eq_ofNat_of_zero_le h
    simp
  · rename_i h
    have h' : 0 ≤ -k := by omega
    obtain ⟨n, hn⟩ := Int.eq_ofNat_of_zero_le h'
    have hk : k = -(n : Int) := by omega
    subst hk
    simp

theorem pow2_pos (k : Int) : 0 < pow2 k := by
  rw [pow2_eq]; positivity

theorem pow2_add (a b : Int) : pow2 (a + b) = pow2 a * pow2 b := by
  simp only [pow2_eq]
  exact zpow_add₀ (by norm_num) a b

theorem pow2_le_pow2 {a b : Int} (h : a ≤ b) : pow2 a ≤ pow2 b := by
  simp only [pow2_eq]
  exact zpow_le_zpow_right₀ (by norm_num) h

theorem pow2_lt_pow2 {a b : Int} (h : a < b) : pow2 a < pow2 b := by
  simp only [pow2_eq]
  exact zpow_lt_zpow_right₀ (by norm_num) h

theorem lt_of_pow2_lt_pow2 {a b : Int} (h : pow2 a < pow2 b) : a < b := by
  by_contra hc
  exact absurd (pow2_le_pow2 (not_lt.1 hc)) (not_le.2 h)

theorem log2Fuel_spec (fuel n : Nat) (hn : n ≠ 0) (hf : n ≤ fuel) :
    2 ^ log2Fuel fuel n ≤ n ∧ n < 2 ^ (log2Fuel fuel n + 1) := by
  induction fuel generalizing n with
  | zero => omega
  | succ fuel ih =>
    unfold log2Fuel
    split
    · rename_i h
      simp only [pow_zero, zero_add, pow_one]
      omega
    · rename_i h
      have h2 : n / 2 ≠ 0 := by omega
      have h3 : n / 2 ≤ fuel := by omega
      obtain ⟨ih1, ih2⟩ := ih (n / 2) h2 h3
      constructor
      · rw [pow_succ]; omega
      · rw [pow_succ]; omega

theorem natLog2_spec (n : Nat) (hn : n ≠ 0) :
    2 ^ natLog2 n ≤ n ∧ n < 2 ^ (natLog2 n + 1) :=
  log2Fuel_spec n n hn (Nat.le_refl n)

theorem abs_eq_natAbs_div_den (x : ℚ) : |x| = (x.num.natAbs : ℚ) / (x.den : ℚ) := by
  have h : (x.num : ℚ) / (x.den : ℚ) = x := Rat.num_div_den x
  have hden : (0 : ℚ) < (x.den : ℚ) := by exact_mod_cast x.den_pos
  conv_lhs => rw [← h]
  rw [abs_div, abs_of_pos hden]
  congr 1
  rw [Nat.cast_natAbs, Int.cast_abs]

theorem floorLog2_spec (x : ℚ) (hx : x ≠ 0) :
    pow2 (floorLog2 x) ≤ |x| ∧ |x| < pow2 (floorLog2 x + 1) := by
  have hp0 : x.num.natAbs ≠ 0 := by
    simpa [Int.natAbs_eq_zero] using hx
  have hq0 : x.den ≠ 0 := x.den_nz
  obtain ⟨hp1, hp2⟩ := natLog2_spec _ hp0
  obtain ⟨hq1, hq2⟩ := natLog2_spec _ hq0
  have hp1' : (2 : ℚ) ^ natLog2 x.num.natAbs ≤ (x.num.natAbs : ℚ) := by exact_mod_cast hp1
  have hp2' : (x.num.natAbs : ℚ) < (2 : ℚ) ^ (natLog2 x.num.natAbs + 1) := by exact_mod_cast hp2
  have hq1' : (2 : ℚ) ^ natLog2 x.den ≤ (x.den : ℚ) := by exact_mod_cast hq1
  have hq2' : (x.den : ℚ) < (2 : ℚ) ^ (natLog2 x.den + 1) := by exact_mod_cast hq2
  have hqpos : (0 : ℚ) < (x.den : ℚ) := by exact_mod_cast x.den_pos
  have habs := abs_eq_natAbs_div_den x
  have e1 : pow2 ((natLog2 x.num.natAbs : Int) - (natLog2 x.den : Int) + 1) =
      (2 : ℚ) ^ (natLog2 x.num.natAbs + 1) / (2 : ℚ) ^ natLog2 x.den := by
    rw [pow2_eq, show ((natLog2 x.num.natAbs : Int) - (natLog2 x.den : Int) + 1) =
      ((natLog2 x.num.natAbs + 1 : ℕ) : Int) - ((natLog2 x.den : ℕ) : Int) by push_cast; ring,
      zpow_sub₀ (by norm_num), zpow_natCast, zpow_natCast]
  have e2 : pow2 ((natLog2 x.num.natAbs : Int) - (natLog2 x.den : Int) - 1) =
      (2 : ℚ) ^ natLog2 x.num.natAbs / (2 : ℚ) ^ (natLog2 x.den + 1) := by
    rw [pow2_eq, show ((natLog2 x.num.natAbs : Int) - (natLog2 x.den : Int) - 1) =
      ((natLog2 x.num.natAbs : ℕ) : Int) - ((natLog2 x.den + 1 : ℕ) : Int) by push_cast; ring,
      zpow_sub₀ (by norm_num), zpow_natCast, zpow_natCast]
  unfold floorLog2
  simp only
  split
  · rename_i h
    refine ⟨h, ?_⟩
    rw [e1, habs]
    exact div_lt_div₀ hp2' hq1' (by positivity) (by positivity)
  · rename_i h
    refine ⟨?_, ?_⟩
    · rw [e2, habs]
      exact div_le_div₀ (by positivity) hp1' hqpos hq2'.le
    · rw [sub_add_cancel]
      exact not_le.1 h

theorem floorLog2_lt_of_abs_lt {x : ℚ} (hx : x ≠ 0) {j : Int} (h : |x| < pow2 j) :
    floorLog2 x < j :=
  lt_of_pow2_lt_pow2 (lt_of_le_of_lt (floorLog2_spec x hx).1 h)

theorem le_floorLog2_of_le_abs {x : ℚ} (hx : x ≠ 0) {j : Int} (h : pow2 j ≤ |x|) :
    j ≤ floorLog2 x := by
  have := lt_of_pow2_lt_pow2 (lt_of_le_of_lt h (floorLog2_spec x hx).2)
  omega

theorem ulp_pos (x : ℚ) : 0 < ulp x := pow2_pos _

theorem floor_le_roundHalfEven (t : ℚ) : ⌊t⌋ ≤ roundHalfEven t := by
  unfold roundHalfEven
  simp only
  repeat' split
  all_goals omega

theorem roundHalfEven_le_ceil (t : ℚ) : roundHalfEven t ≤ ⌈t⌉ := by
  unfold roundHalfEven
  simp only
  split
  · exact Int.floor_le_ceil t
  · rename_i h
    have hne : (⌊t⌋ : ℚ) ≠ t := by
      intro hc
      rw [hc, sub_self] at h
      norm_num at h
    have hlt : (⌊t⌋ : ℚ) < t := lt_of_le_of_ne (Int.floor_le t) hne
    have : ⌊t⌋ + 1 ≤ ⌈t⌉ := by
      rw [Int.add_one_le_iff, Int.lt_ceil]
      exact hlt
    repeat' split
    all_goals omega

theorem le_roundHalfEven {t : ℚ} {m : Int} (h : (m : ℚ) ≤ t) : m ≤ roundHalfEven t :=
  le_trans (Int.le_floor.2 h) (floor_le_roundHalfEven t)

theorem roundHalfEven_le {t : ℚ} {m : Int} (h : t ≤ (m : ℚ)) : roundHalfEven t ≤ m :=
  le_trans (roundHalfEven_le_ceil t) (Int.ceil_le.2 h)

theorem roundHalfEven_intCast (m : Int) : roundHalfEven (m : ℚ) = m :=
  le_antisymm (roundHalfEven_le (le_refl _)) (le_roundHalfEven (le_refl _))

/-- A point of the grid of `x` below `x` is below the double nearest to `x`. -/
theorem grid_le_round {x : ℚ} {m : Int} (h : (m : ℚ) * ulp x ≤ x) :
    (m : ℚ) * ulp x ≤ round x := by
  unfold round
  split
  · rename_i h0; exact le_of_le_of_eq h h0
  · have hm : (m : ℚ) ≤ x / ulp x := (le_div_iff₀ (ulp_pos x)).2 h
    have := le_roundHalfEven hm
    exact mul_le_mul_of_nonneg_right (by exact_mod_cast this) (ulp_pos x).le

/-- A point of the grid of `x` above `x` is above the double nearest to `x`. -/
theorem round_le_grid {x : ℚ} {m : Int} (h : x ≤ (m : ℚ) * ulp x) :
    round x ≤ (m : ℚ) * ulp x := by
  unfold round
  split
  · rename_i h0; exact le_trans (le_of_eq h0.symm) h
  · have hm : x / ulp x ≤ (m : ℚ) := (div_le_iff₀ (ulp_pos x)).2 h
    have := roundHalfEven_le hm
    exact mul_le_mul_of_nonneg_right (by exact_mod_cast this) (ulp_pos x).le

theorem round_nonneg {x : ℚ} (h : 0 ≤ x) : 0 ≤ round x := by
  have := grid_le_round (x := x) (m := 0) (by simpa using h)
  simpa using this

theorem round_nonpos {x : ℚ} (h : x ≤ 0) : round x ≤ 0 := by
  have := round_le_grid (x := x) (m := 0) (by simpa using h)
  simpa using this

theorem round_eq_self_of_grid {x : ℚ} {m : Int} (h : x = (m : ℚ) * ulp x) : round x = x :=
  le_antisymm (le_of_le_of_eq (round_le_grid (le_of_eq h)) h.symm)
    (le_trans (le_of_eq h) (grid_le_round (le_of_eq h.symm)))

/-- The grid of a number below 2^53 in size holds every multiple of 2^(-j) for which the
exponent leaves room. -/
theorem exists_grid_of_exp_le {x : ℚ} {j : Int} (a : Int)
    (hj : max (floorLog2 x) (-1022) - 52 ≤ j) :
    ∃ m : Int, (m : ℚ) * ulp x = (a : ℚ) * pow2 j := by
  obtain ⟨n, hn⟩ := Int.eq_ofNat_of_zero_le (sub_nonneg.2 hj)
  refine ⟨a * 2 ^ n, ?_⟩
  have hk : j = (max (floorLog2 x) (-1022) - 52) + (n : Int) := by omega
  have h2 : pow2 (n : Int) = ((2 ^ n : Int) : ℚ) := by
    rw [pow2_eq, zpow_natCast]; push_cast; rfl
  unfold ulp
  rw [hk, pow2_add, h2]
  push_cast
  ring

/-- A natural number up to 2^53 below `x` is below the double nearest to `x`. -/
theorem natCast_le_round {x : ℚ} (c : ℕ) (hc : c ≤ 2 ^ 53) (h : (c : ℚ) ≤ x) :
    (c : ℚ) ≤ round x := by
  rcases Nat.eq_zero_or_pos c with h0 | hpos
  · subst h0
    simpa using round_nonneg (by simpa using h)
  · have hx : 0 < x := lt_of_lt_of_le (by exact_mod_cast hpos) h
    have hx0 : x ≠ 0 := ne_of_gt hx
    by_cases he : max (floorLog2 x) (-1022) - 52 ≤ 0
    · obtain ⟨m, hm⟩ := exists_grid_of_exp_le (x := x) (j := 0) (c : Int) he
      have hm' : (m : ℚ) * ulp x = (c : ℚ) := by
        rw [hm, pow2_eq]; simp
      have := grid_le_round (x := x) (m := m) (by rw [hm']; exact h)
      rw [hm'] at this
      exact this
    · have he1 : 53 ≤ floorLog2 x := by omega
      have hmax : max (floorLog2 x) (-1022) = floorLog2 x := max_eq_left (by omega)
      have hgrid : ((2 ^ 52 : Int) : ℚ) * ulp x = pow2 (floorLog2 x) := by
        unfold ulp
        rw [hmax, show floorLog2 x = (floorLog2 x - 52) + 52 by ring, pow2_add,
          show floorLog2 x - 52 + 52 - 52 = floorLog2 x - 52 by ring]
        rw [pow2_eq 52]
        norm_num
        ring
      have hle : pow2 (floorLog2 x) ≤ x := by
        have := (floorLog2_spec x hx0).1
        rwa [abs_of_pos hx] at this
      have h1 := grid_le_round (x := x) (m := 2 ^ 52) (by rw [hgrid]; exact hle)
      rw [hgrid] at h1
      have h2 : (c : ℚ) ≤ pow2 (floorLog2 x) := by
        calc (c : ℚ) ≤ ((2 ^ 53 : ℕ) : ℚ) := by exact_mod_cast hc
          _ = pow2 53 := by rw [pow2_eq]; norm_num
          _ ≤ pow2 (floorLog2 x) := pow2_le_pow2 he1
      exact le_trans h2 h1

/-- A natural number up to 2^53 above `x` is above the double nearest to `x`. -/
theorem round_le_natCast {x : ℚ} (c : ℕ) (hc : c ≤ 2 ^ 53) (h : x ≤ (c : ℚ)) :
    round x ≤ (c : ℚ) := by
  rcases le_or_lt x 0 with hx | hx
  · exact le_trans (round_nonpos hx) (by positivity)
  · have hx0 : x ≠ 0 := ne_of_gt hx
    have hlt : |x| < pow2 54 := by
      rw [abs_of_pos hx, pow2_eq]
      calc x ≤ (c : ℚ) := h
        _ ≤ ((2 ^ 53 : ℕ) : ℚ) := by exact_mod_cast hc
        _ < (2 : ℚ) ^ (54 : Int) := by norm_num
    have he := floorLog2_lt_of_abs_lt hx0 hlt
    by_cases he52 : floorLog2 x ≤ 52
    · have he' : max (floorLog2 x) (-1022) - 52 ≤ 0 := by
        have : max (floorLog2 x) (-1022) ≤ 52 := max_le he52 (by norm_num)
        omega
      obtain ⟨m, hm⟩ := exists_grid_of_exp_le (x := x) (j := 0) (c : Int) he'
      have hm' : (m : ℚ) * ulp x = (c : ℚ) := by
        rw [hm, pow2_eq]; simp
      have := round_le_grid (x := x) (m := m) (by rw [hm']; exact h)
      rw [hm'] at this
      exact this
    · have he53 : floorLog2 x = 53 := by omega
      have hge : pow2 53 ≤ x := by
        have := (floorLog2_spec x hx0).1
        rwa [abs_of_pos hx, he53] at this
      have hc' : (c : ℚ) = pow2 53 := by
        apply le_antisymm
        · rw [pow2_eq]
          calc (c : ℚ) ≤ ((2 ^ 53 : ℕ) : ℚ) := by exact_mod_cast hc
            _ = (2 : ℚ) ^ (53 : Int) := by norm_num
        · exact le_trans hge h
      have he' : max (floorLog2 x) (-1022) - 52 ≤ 1 := by
        rw [he53]; norm_num
      obtain ⟨m, hm⟩ := exists_grid_of_exp_le (x := x) (j := 1) (2 ^ 52 : Int) he'
      have hm' : (m : ℚ) * ulp x = (c : ℚ) := by
        rw [hm, hc', pow2_eq, pow2_eq]; norm_num
      have := round_le_grid (x := x) (m := m) (by rw [hm']; exact h)
      rw [hm'] at this
      exact this

/-- A natural number up to 2^53 is a double. -/
theorem round_natCast (c : ℕ) (hc : c ≤ 2 ^ 53) : round (c : ℚ) = (c : ℚ) :=
  le_antisymm (round_le_natCast c hc (le_refl _)) (natCast_le_round c hc (le_refl _))

/-- Half of an integer of size at most 2^52 is a double. -/
theorem round_half_int (n : Int) (hn : |n| ≤ 2 ^ 52) : round ((n : ℚ) / 2) = (n : ℚ) / 2 := by
  by_cases h0 : n = 0
  · subst h0; simp [round]
  · have hx0 : (n : ℚ) / 2 ≠ 0 := by
      have : (n : ℚ) ≠ 0 := by exact_mod_cast h0
      exact div_ne_zero this (by norm_num)
    have hlt : |(n : ℚ) / 2| < pow2 52 := by
      rw [abs_div, pow2_eq]
      have h1 : |(n : ℚ)| ≤ (2 : ℚ) ^ (52 : ℕ) := by exact_mod_cast hn
      have h2 : |(2 : ℚ)| = 2 := abs_of_pos (by norm_num)
      rw [h2]
      have h3 : (0 : ℚ) ≤ |(n : ℚ)| := abs_nonneg _
      have h4 : (2 : ℚ) ^ (52 : Int) = 2 ^ (52 : ℕ) := by norm_num
      rw [h4]
      linarith
    have he := floorLog2_lt_of_abs_lt hx0 hlt
    have he' : max (floorLog2 ((n : ℚ) / 2)) (-1022) - 52 ≤ -1 := by
      have : max (floorLog2 ((n : ℚ) / 2)) (-1022) ≤ 51 := max_le (by omega) (by norm_num)
      omega
    obtain ⟨m, hm⟩ := exists_grid_of_exp_le (x := (n : ℚ) / 2) (j := -1) n he'
    apply round_eq_self_of_grid (m := m)
    rw [hm, pow2_eq]
    norm_num
    ring

theorem succ_le_roundHalfEven {t : ℚ} {m : Int} (h : (m : ℚ) + 1 / 2 < t) :
    m + 1 ≤ roundHalfEven t := by
  have hm : m ≤ ⌊t⌋ := Int.le_floor.2 (by linarith)
  rcases lt_or_eq_of_le hm with hlt | heq
  · exact le_trans (by omega) (floor_le_roundHalfEven t)
  · unfold roundHalfEven
    simp only
    have h1 : ¬ t - (⌊t⌋ : ℚ) < 1 / 2 := by
      rw [← heq]; intro hc; linarith
    have h2 : 1 / 2 < t - (⌊t⌋ : ℚ) := by
      rw [← heq]; linarith
    rw [if_neg h1, if_pos h2]
    omega

/-- Rounding the quotient of a time difference below 2^53 ms by the length of a day does not
change the number of days started. -/
theorem ceil_round_div_day (D : ℕ) (hD : D ≤ 2 ^ 53) :
    ⌈round ((D : ℚ) / (86400000 : ℚ))⌉ = ⌈(D : ℚ) / (86400000 : ℚ)⌉ := by
  have hq27 : (D : ℚ) / 86400000 < 134217728 := by
    rw [div_lt_iff₀ (by norm_num)]
    have : (D : ℚ) ≤ ((2 ^ 53 : ℕ) : ℚ) := by exact_mod_cast hD
    have h2 : ((2 ^ 53 : ℕ) : ℚ) < 134217728 * 86400000 := by norm_num
    linarith
  have hq0 : (0 : ℚ) ≤ (D : ℚ) / 86400000 := by positivity
  have hc0 : 0 ≤ ⌈(D : ℚ) / (86400000 : ℚ)⌉ := Int.ceil_nonneg hq0
  obtain ⟨c, hc⟩ := Int.eq_ofNat_of_zero_le hc0
  have hcle : (c : ℚ) ≤ 134217728 := by
    have h1 : ⌈(D : ℚ) / (86400000 : ℚ)⌉ ≤ 134217728 := Int.ceil_le.2 (by push_cast; linarith)
    rw [hc] at h1
    exact_mod_cast h1
  have hc53 : c ≤ 2 ^ 53 := by
    have : c ≤ 134217728 := by exact_mod_cast hcle
    norm_num; omega
  have hqc : (D : ℚ) / 86400000 ≤ (c : ℚ) := by
    have := Int.le_ceil ((D : ℚ) / (86400000 : ℚ))
    rw [hc] at this
    exact_mod_cast this
  apply le_antisymm
  · rw [hc]
    exact Int.ceil_le.2 (by exact_mod_cast round_le_natCast c hc53 hqc)
  · rw [hc]
    rcases Nat.eq_zero_or_pos D with hD0 | hDpos
    · subst hD0
      have : c = 0 := by
        have h := hc
        simp at h
        omega
      subst this
      simp [round]
    · have hx : (0 : ℚ) < (D : ℚ) / 86400000 := by positivity
      have hx0 : (D : ℚ) / 86400000 ≠ 0 := ne_of_gt hx
      have hcpos : 0 < c := by
        have : (0 : Int) < ⌈(D : ℚ) / (86400000 : ℚ)⌉ := Int.ceil_pos.2 hx
        rw [hc] at this
        exact_mod_cast this
      have hk : ((c - 1 : ℕ) : ℚ) < (D : ℚ) / 86400000 := by
        have : ((c : Int) - 1) < ⌈(D : ℚ) / (86400000 : ℚ)⌉ := by rw [hc]; omega
        have h2 := Int.lt_ceil.1 this
        have h3 : ((c - 1 : ℕ) : ℚ) = (((c : Int) - 1 : Int) : ℚ) := by
          rw [Nat.cast_sub hcpos]; push_cast; ring
        rw [h3]; exact h2
      have hkD : (c - 1) * 86400000 + 1 ≤ D := by
        rw [lt_div_iff₀ (by norm_num)] at hk
        have : (c - 1) * 86400000 < D := by exact_mod_cast hk
        omega
      have hlt : |(D : ℚ) / 86400000| < pow2 27 := by
        rw [abs_of_pos hx, pow2_eq]
        calc (D : ℚ) / 86400000 < 134217728 := hq27
          _ = (2 : ℚ) ^ (27 : Int) := by norm_num
      have he := floorLog2_lt_of_abs_lt hx0 hlt
      have hE : max (floorLog2 ((D : ℚ) / 86400000)) (-1022) - 52 ≤ -26 := by
        have : max (floorLog2 ((D : ℚ) / 86400000)) (-1022) ≤ 26 := max_le (by omega) (by norm_num)
        omega
      have hu : ulp ((D : ℚ) / 86400000) ≤ pow2 (-26) := pow2_le_pow2 hE
      have hupos := ulp_pos ((D : ℚ) / 86400000)
      obtain ⟨K, hK⟩ := exists_grid_of_exp_le (x := (D : ℚ) / 86400000) (j := 0)
        ((c - 1 : ℕ) : Int) (by omega)
      have hK' : (K : ℚ) * ulp ((D : ℚ) / 86400000) = ((c - 1 : ℕ) : ℚ) := by
        rw [hK, pow2_eq]; simp
      have hDq : ((c - 1 : ℕ) : ℚ) + 1 / 86400000 ≤ (D : ℚ) / 86400000 := by
        rw [le_div_iff₀ (by norm_num)]
        have : (((c - 1) * 86400000 + 1 : ℕ) : ℚ) ≤ (D : ℚ) := by exact_mod_cast hkD
        push_cast at this
        linarith
      have hu26 : pow2 (-26) = 1 / 67108864 := by rw [pow2_eq]; norm_num
      have hhalf : (K : ℚ) + 1 / 2 < (D : ℚ) / 86400000 / ulp ((D : ℚ) / 86400000) := by
        rw [lt_div_iff₀ hupos, add_mul, hK']
        have : 1 / 2 * ulp ((D : ℚ) / 86400000) < 1 / 86400000 := by
          rw [hu26] at hu
          linarith
        linarith
      have hr := succ_le_roundHalfEven hhalf
      have hround : ((c - 1 : ℕ) : ℚ) < round ((D : ℚ) / 86400000) := by
        unfold round
        rw [if_neg hx0]
        have h1 : ((K + 1 : Int) : ℚ) * ulp ((D : ℚ) / 86400000) ≤
            (roundHalfEven ((D : ℚ) / 86400000 / ulp ((D : ℚ) / 86400000)) : ℚ) *
              ulp ((D : ℚ) / 86400000) :=
          mul_le_mul_of_nonneg_right (by exact_mod_cast hr) hupos.le
        have h2 : ((K + 1 : Int) : ℚ) * ulp ((D : ℚ) / 86400000) =
            ((c - 1 : ℕ) : ℚ) + ulp ((D : ℚ) / 86400000) := by
          push_cast; rw [add_mul, hK']; ring
        linarith
      have : ((c : Int) - 1) < ⌈round ((D : ℚ) / 86400000)⌉ := by
        rw [Int.lt_ceil]
        have h3 : ((c - 1 : ℕ) : ℚ) = (((c : Int) - 1 : Int) : ℚ) := by
          rw [Nat.cast_sub hcpos]; push_cast; ring
        rw [← h3]; exact hround
      omega

end Float64

/-! ## Lemmas on strings and maps -/

theorem includes_append_right (a c needle : String) (h : includes c needle) :
    includes (a ++ c) needle := by
  unfold includes at *
  rw [String.data_append]
  obtain ⟨u, v, huv⟩ := h
  exact ⟨a.data ++ u, v, by simp [← huv]⟩

theorem includes_append_left (a c needle : String) (h : includes a needle) :
    includes (a ++ c) needle := by
  unfold includes at *
  rw [String.data_append]
  obtain ⟨u, v, huv⟩ := h
  exact ⟨u, v ++ c.data, by simp [← huv]⟩

namespace JsMap

variable {κ α : Type} [DecidableEq κ]

theorem mem_values_set (m : JsMap κ α) (k : κ) (v x : α) (hx : x ∈ values (set m k v)) :
    x = v ∨ x ∈ values m := by
  induction m with
  | nil => simpa [set, values] using hx
  | cons e rest ih =>
    unfold set at hx
    split at hx
    · simp only [values, List.map_cons, List.mem_cons] at hx ⊢
      rcases hx with hx | hx
      · exact Or.inl hx
      · exact Or.inr (Or.inr hx)
    · simp only [values, List.map_cons, List.mem_cons] at hx ⊢
      rcases hx with hx | hx
      · exact Or.inr (Or.inl hx)
      · rcases ih hx with h | h
        · exact Or.inl h
        · exact Or.inr (Or.inr h)

theorem self_mem_values_set (m : JsMap κ α) (k : κ) (v : α) : v ∈ values (set m k v) := by
  induction m with
  | nil => simp [set, values]
  | cons e rest ih =>
    unfold set
    split
    · simp [values]
    · simp only [values, List.map_cons, List.mem_cons]
      exact Or.inr ih

/-- After storing `t` and then mutating the first object that satisfies `p`, no stored object
satisfies `q`, when none did before, `t` is the only candidate and its mutation fails `q`. -/
theorem not_query_after_set_mutateFirst (p q : α → Bool) (f : α → α) (k : κ) (t : α)
    (hpt : p t = true) (hft : q (f t) = false) (hpq : ∀ x, p x = true → q x = true)
    (m : JsMap κ α) (hm : ∀ x ∈ values m, q x = false) :
    ∀ x ∈ values (mutateFirst p f (set m k t)), q x = false := by
  induction m with
  | nil =>
    intro x hx
    simp [set, mutateFirst, hpt, values] at hx
    rw [hx]; exact hft
  | cons e rest ih =>
    have he : q e.2 = false := hm e.2 (by simp [values])
    have hrest : ∀ x ∈ values rest, q x = false := fun x hx => hm x (by
      simp only [values, List.map_cons, List.mem_cons]; exact Or.inr hx)
    have hpe : p e.2 = false := by
      by_contra hne
      have := hpq e.2 (by simpa using hne)
      rw [he] at this; exact Bool.false_ne_true this
    intro x hx
    unfold set at hx
    split at hx
    · simp only [mutateFirst, hpt, if_true, values, List.map_cons, List.mem_cons] at hx
      rcases hx with hx | hx
      · rw [hx]; exact hft
      · exact hrest x hx
    · simp only [mutateFirst, hpe, Bool.false_eq_true, if_false, values, List.map_cons,
        List.mem_cons] at hx
      rcases hx with hx | hx
      · rw [hx]; exact he
      · exact ih hrest x hx

/-- Storing a value keeps the selected values free of duplicates under `g`, when the new
value collides with no selected value already stored. -/
theorem nodup_filter_values_set {β : Type} (act : α → Bool) (g : α → β) (k : κ) (t : α)
    (m : JsMap κ α) (hm : ((values m).filter act |>.map g).Nodup)
    (hnew : ∀ x ∈ values m, act x = true → g x ≠ g t) :
    ((values (set m k t)).filter act |>.map g).Nodup := by
  induction m with
  | nil =>
    simp only [set, values, List.map_cons, List.map_nil]
    by_cases h : act t = true <;> simp [List.filter, h]
  | cons e rest ih =>
    have hrest : ((values rest).filter act |>.map g).Nodup := by
      simp only [values, List.map_cons] at hm
      by_cases h : act e.2 = true
      · simp only [List.filter_cons, h, if_true, List.map_cons, List.nodup_cons] at hm
        exact hm.2
      · simpa [List.filter_cons, h] using hm
    have hnew' : ∀ x ∈ values rest, act x = true → g x ≠ g t := fun x hx =>
      hnew x (by simp only [values, List.map_cons, List.mem_cons]; exact Or.inr hx)
    unfold set
    split
    · simp only [values, List.map_cons]
      by_cases h : act t = true
      · simp only [List.filter_cons, h, if_true, List.map_cons, List.nodup_cons]
        refine ⟨?_, hrest⟩
        intro hmem
        obtain ⟨x, hx, hgx⟩ := List.mem_map.1 hmem
        rw [List.mem_filter] at hx
        exact hnew' x hx.1 hx.2 hgx
      · simpa [List.filter_cons, h] using hrest
    · simp only [values, List.map_cons]
      by_cases h : act e.2 = true
      · simp only [List.filter_cons, h, if_true, List.map_cons, List.nodup_cons]
        refine ⟨?_, ih hrest hnew'⟩
        intro hmem
        obtain ⟨x, hx, hgx⟩ := List.mem_map.1 hmem
        rw [List.mem_filter] at hx
        rcases mem_values_set rest k t x hx.1 with hxt | hxr
        · subst hxt
          exact hnew e.2 (by simp [values]) h hgx.symm
        · simp only [values, List.map_cons, List.filter_cons, h, if_true, List.map_cons,
            List.nodup_cons] at hm
          exact hm.1 (List.mem_map.2 ⟨x, List.mem_filter.2 ⟨hxr, hx.2⟩, hgx⟩)
      · simpa [List.filter_cons, h] using ih hrest hnew'

omit [DecidableEq κ] in
/-- Mutating one object into an unselected one only removes from the selected values. -/
theorem filter_values_mutateFirst_sublist (act p : α → Bool) (f : α → α)
    (hf : ∀ x, act (f x) = false) (m : JsMap κ α) :
    ((values (mutateFirst p f m)).filter act).Sublist ((values m).filter act) := by
  induction m with
  | nil => simp [mutateFirst, values]
  | cons e rest ih =>
    unfold mutateFirst
    split
    · simp only [values, List.map_cons, List.filter_cons, hf]
      by_cases h : act e.2 = true
      · simp [h]
      · simp [h]
    · simp only [values, List.map_cons, List.filter_cons]
      by_cases h : act e.2 = true
      · simpa [h] using ih
      · simpa [h] using ih

end JsMap

/-! ## Lemmas on TransactionService -/

theorem JsId.orNull_of_truthy (v : JsId) (h : v.truthy = true) : v.orNull = v := by
  simp [JsId.orNull, h]

theorem JsId.orNull_truthy (v : JsId) : v.orNull.truthy = v.truthy := by
  unfold JsId.orNull
  by_cases h : v.truthy = true
  · simp [h]
  · simp only [Bool.not_eq_true] at h
    simp only [h, Bool.false_eq_true, if_false]
    rfl

theorem JsId.orNull_isInteger (v : JsId) (h : v.truthy = true) :
    v.orNull.isInteger = v.isInteger := by
  rw [JsId.orNull_of_truthy v h]

namespace TransactionService

theorem validate_borrowedRecord (s : TransactionService) (now : Int) (m b : JsId) :
    (borrowedRecord s now m.orNull b.orNull).validate.isValid = validIds m b := by
  have e1 : ("active" : String) ≠ "" := by decide
  have e2 : (["active", "returned", "cancelled"].contains ("active" : String)) = true := by decide
  simp only [Transaction.validate, Validation.ofErrors, borrowedRecord, validIds,
    JsId.orNull_truthy, Transaction.isValidDate]
  by_cases hm : m.truthy = true <;> by_cases hb : b.truthy = true <;>
    cases hmi : m.isInteger <;> cases hbi : b.isInteger <;>
    simp [pushIf, hm, hb, hmi, hbi, JsId.orNull_of_truthy, e1, e2]

theorem validIds_orNull (m b : JsId) (h : validIds m b = true) : m.orNull = m ∧ b.orNull = b := by
  simp only [validIds, Bool.and_eq_true] at h
  exact ⟨JsId.orNull_of_truthy m h.1.1.1, JsId.orNull_of_truthy b h.1.2⟩

/-- The two outcomes of the `createTransaction` call made by `borrowBook`. -/
theorem createTransaction_borrow (s : TransactionService) (now : Int) (m b : JsId) :
    s.createTransaction now { member_id := m, book_id := b, status := "active" } =
      if validIds m b = true then
        (Except.ok (borrowedRecord s now m b),
          { transactions := JsMap.set s.transactions s.nextTransactionId (borrowedRecord s now m b),
            nextTransactionId := s.nextTransactionId + 1 })
      else
        (Except.error ("Validation failed: " ++
            joinErrors (borrowedRecord s now m.orNull b.orNull).validate.errors),
          { transactions := s.transactions, nextTransactionId := s.nextTransactionId + 1 }) := by
  have e1 : ("active" : String) ≠ "" := by decide
  have hv := validate_borrowedRecord s now m b
  simp only [createTransaction, Transaction.new, Transaction.calculateDueDate, Option.getD_none,
    e1, if_false]
  rw [show ({ transaction_id := some s.nextTransactionId
              member_id := m.orNull
              book_id := b.orNull
              status := "active"
              borrowed_at := some now
              returned_at := none
              due_date := some (now + 14 * msPerDay)
              fine_amount := 0
              notes := "" } : Transaction)
    = borrowedRecord s now m.orNull b.orNull from rfl]
  rw [hv]
  by_cases h : validIds m b = true
  · obtain ⟨h1, h2⟩ := validIds_orNull m b h
    simp [h, h1, h2]
  · simp [h]

/-- A `borrowBook` that throws leaves the transaction map as it was. -/
theorem borrowBook_error_transactions (s : TransactionService) (now : Int) (m b : JsId)
    (e : String) (h : (s.borrowBook now m b).1 = Except.error e) :
    (s.borrowBook now m b).2.transactions = s.transactions := by
  unfold borrowBook at h ⊢
  by_cases hm : s.hasActiveBorrow m = true
  · simp [hm]
  by_cases hb : s.isBookCurrentlyBorrowed b = true
  · simp [hm, hb]
  simp only [hm, hb, Bool.false_eq_true, if_false, createTransaction_borrow] at h ⊢
  by_cases hv : validIds m b = true
  · simp [hv] at h
  · simp [hv]

/-- What a successful `borrowBook` has checked and stored. -/
theorem borrowBook_ok {s : TransactionService} {now : Int} {m b : JsId} {t : Transaction}
    (h : (s.borrowBook now m b).1 = Except.ok t) :
    s.hasActiveBorrow m = false ∧ s.isBookCurrentlyBorrowed b = false ∧
    t = borrowedRecord s now m b ∧
    (s.borrowBook now m b).2.transactions = JsMap.set s.transactions s.nextTransactionId t := by
  unfold borrowBook at h ⊢
  by_cases hm : s.hasActiveBorrow m = true
  · simp [hm] at h
  by_cases hb : s.isBookCurrentlyBorrowed b = true
  · simp [hm, hb] at h
  simp only [hm, hb, Bool.false_eq_true, if_false, createTransaction_borrow] at h ⊢
  by_cases hv : validIds m b = true
  · simp only [hv, if_true, Except.ok.injEq] at h ⊢
    subst h
    simp
  · simp [hv] at h



theorem hasActiveBorrow_eq_false_iff (s : TransactionService) (m : JsId) :
    s.hasActiveBorrow m = false ↔
      ∀ x ∈ JsMap.values s.transactions,
        (decide (x.status = "active") && decide (x.member_id = m)) = false := by
  simp [hasActiveBorrow, getActiveTransactions, List.any_eq_false]

theorem isBookCurrentlyBorrowed_eq_false_iff (s : TransactionService) (b : JsId) :
    s.isBookCurrentlyBorrowed b = false ↔
      ∀ x ∈ JsMap.values s.transactions,
        (decide (x.status = "active") && decide (x.book_id = b)) = false := by
  simp [isBookCurrentlyBorrowed, getActiveTransactions, List.any_eq_false]

/-! ## Claims on TransactionService -/

/-- C1: when `borrowBook(m, b)` succeeds, a following `returnBook(m, b)` succeeds, and afterwards
`isBookCurrentlyBorrowed(b)` and `hasActiveBorrow(m)` are both false. -/
theorem borrow_then_return_restores (s : TransactionService) (now₁ now₂ : Int) (m b : JsId)
    (t : Transaction) (h : (s.borrowBook now₁ m b).1 = Except.ok t) :
    (∃ t', ((s.borrowBook now₁ m b).2.returnBook now₂ m b).1 = Except.ok t') ∧
    ((s.borrowBook now₁ m b).2.returnBook now₂ m b).2.isBookCurrentlyBorrowed b = false ∧
    ((s.borrowBook now₁ m b).2.returnBook now₂ m b).2.hasActiveBorrow m = false := by
  obtain ⟨hm, hb, ht, htr⟩ := borrowBook_ok h
  have hact : t.status = "active" := by rw [ht]; rfl
  have htm : t.member_id = m := by rw [ht]; rfl
  have htb : t.book_id = b := by rw [ht]; rfl
  have hmem : t ∈ ((s.borrowBook now₁ m b).2).getActiveTransactions := by
    unfold getActiveTransactions
    rw [htr, List.mem_filter]
    exact ⟨JsMap.self_mem_values_set _ _ _, by simp [hact]⟩
  have hfind : ∃ x, ((s.borrowBook now₁ m b).2).getActiveTransactions.find?
      (fun t => decide (t.member_id = m) && decide (t.book_id = b)) = some x := by
    cases hf : ((s.borrowBook now₁ m b).2).getActiveTransactions.find?
      (fun t => decide (t.member_id = m) && decide (t.book_id = b)) with
    | none =>
      rw [List.find?_eq_none] at hf
      exact absurd (hf t hmem) (by simp [htm, htb])
    | some x => exact ⟨x, rfl⟩
  obtain ⟨x, hx⟩ := hfind
  have hstate : ((s.borrowBook now₁ m b).2.returnBook now₂ m b).2.transactions =
      JsMap.mutateFirst (fun t => decide (t.status = "active") &&
          (decide (t.member_id = m) && decide (t.book_id = b)))
        (fun t => Transaction.«return» t now₂)
        (JsMap.set s.transactions s.nextTransactionId t) := by
    simp only [returnBook, hx, htr]
  have hres : ((s.borrowBook now₁ m b).2.returnBook now₂ m b).1 =
      Except.ok (Transaction.«return» x now₂) := by
    simp only [returnBook, hx]
  have hret : ∀ y : Transaction, (Transaction.«return» y now₂).status ≠ "active" := by
    intro y
    simp only [Transaction.«return»]
    decide
  refine ⟨⟨_, hres⟩, ?_, ?_⟩
  · rw [isBookCurrentlyBorrowed_eq_false_iff, hstate]
    apply JsMap.not_query_after_set_mutateFirst
    · simp [hact, htm, htb]
    · simp [hret]
    · intro y hy
      simp only [Bool.and_eq_true, decide_eq_true_eq] at hy ⊢
      exact ⟨hy.1, hy.2.2⟩
    · exact (isBookCurrentlyBorrowed_eq_false_iff s b).1 hb
  · rw [hasActiveBorrow_eq_false_iff, hstate]
    apply JsMap.not_query_after_set_mutateFirst
    · simp [hact, htm, htb]
    · simp [hret]
    · intro y hy
      simp only [Bool.and_eq_true, decide_eq_true_eq] at hy ⊢
      exact ⟨hy.1, hy.2.1⟩
    · exact (hasActiveBorrow_eq_false_iff s m).1 hm

theorem borrow_then_return_restores_witness :
    (∃ t', ((empty.borrowBook 0 (JsId.int 1) (JsId.int 7)).2.returnBook 1000
      (JsId.int 1) (JsId.int 7)).1 = Except.ok t') ∧
    ((empty.borrowBook 0 (JsId.int 1) (JsId.int 7)).2.returnBook 1000
      (JsId.int 1) (JsId.int 7)).2.isBookCurrentlyBorrowed (JsId.int 7) = false ∧
    ((empty.borrowBook 0 (JsId.int 1) (JsId.int 7)).2.returnBook 1000
      (JsId.int 1) (JsId.int 7)).2.hasActiveBorrow (JsId.int 1) = false :=
  borrow_then_return_restores empty 0 1000 (JsId.int 1) (JsId.int 7)
    (borrowedRecord empty 0 (JsId.int 1) (JsId.int 7)) rfl

/-- C2: while member `m` has an active transaction, `borrowBook(m, b')` throws for every book
`b'`, the message contains "already borrowed", and the service state (the transaction map and
every stored transaction) is unchanged. -/
theorem borrowBook_member_already_borrowed (s : TransactionService) (now : Int) (m b' : JsId)
    (h : s.hasActiveBorrow m = true) :
    ∃ msg, s.borrowBook now m b' = (Except.error msg, s) ∧ includes msg "already borrowed" := by
  refine ⟨"member with id: " ++ m.toStr ++ " has already borrowed a book", ?_, ?_⟩
  · simp [borrowBook, h]
  · apply includes_append_right
    decide

theorem borrowBook_member_already_borrowed_witness :
    ∃ msg, (empty.borrowBook 0 (JsId.int 1) (JsId.int 7)).2.borrowBook 5 (JsId.int 1) (JsId.int 8)
        = (Except.error msg, (empty.borrowBook 0 (JsId.int 1) (JsId.int 7)).2) ∧
      includes msg "already borrowed" :=
  borrowBook_member_already_borrowed (empty.borrowBook 0 (JsId.int 1) (JsId.int 7)).2 5
    (JsId.int 1) (JsId.int 8) (by decide)

/-- C3: while book `b` has an active transaction and member `m` has none, `borrowBook(m, b)`
throws, the message contains "is currently borrowed", and nothing is stored (the service state
is unchanged). -/
theorem borrowBook_book_currently_borrowed (s : TransactionService) (now : Int) (m b : JsId)
    (hm : s.hasActiveBorrow m = false) (hb : s.isBookCurrentlyBorrowed b = true) :
    ∃ msg, s.borrowBook now m b = (Except.error msg, s) ∧
      includes msg "is currently borrowed" := by
  refine ⟨"book with id: " ++ b.toStr ++ " is currently borrowed", ?_, ?_⟩
  · simp [borrowBook, hm, hb]
  · apply includes_append_right
    decide

theorem borrowBook_book_currently_borrowed_witness :
    ∃ msg, (empty.borrowBook 0 (JsId.int 1) (JsId.int 7)).2.borrowBook 5 (JsId.int 2) (JsId.int 7)
        = (Except.error msg, (empty.borrowBook 0 (JsId.int 1) (JsId.int 7)).2) ∧
      includes msg "is currently borrowed" :=
  borrowBook_book_currently_borrowed (empty.borrowBook 0 (JsId.int 1) (JsId.int 7)).2 5
    (JsId.int 2) (JsId.int 7) (by decide) (by decide)

theorem oneActiveEach_borrowBook (s : TransactionService) (now : Int) (m b : JsId)
    (h : OneActiveEach s) : OneActiveEach (s.borrowBook now m b).2 := by
  cases hres : (s.borrowBook now m b).1 with
  | error e =>
    have htr := borrowBook_error_transactions s now m b e hres
    simpa [OneActiveEach, getActiveTransactions, htr] using h
  | ok t =>
    obtain ⟨hm, hb, ht, htr⟩ := borrowBook_ok hres
    have htm : t.member_id = m := by rw [ht]; rfl
    have htb : t.book_id = b := by rw [ht]; rfl
    rw [hasActiveBorrow_eq_false_iff] at hm
    rw [isBookCurrentlyBorrowed_eq_false_iff] at hb
    unfold OneActiveEach getActiveTransactions at h ⊢
    rw [htr]
    constructor
    · apply JsMap.nodup_filter_values_set _ _ _ _ _ h.1
      intro x hx hact
      have := hm x hx
      simp only [hact, Bool.true_and, decide_eq_false_iff_not] at this
      rw [htm]; exact this
    · apply JsMap.nodup_filter_values_set _ _ _ _ _ h.2
      intro x hx hact
      have := hb x hx
      simp only [hact, Bool.true_and, decide_eq_false_iff_not] at this
      rw [htb]; exact this

theorem oneActiveEach_returnBook (s : TransactionService) (now : Int) (m b : JsId)
    (h : OneActiveEach s) : OneActiveEach (s.returnBook now m b).2 := by
  cases hf : s.getActiveTransactions.find?
      (fun t => decide (t.member_id = m) && decide (t.book_id = b)) with
  | none =>
    have hst : (s.returnBook now m b).2 = s := by simp only [returnBook, hf]
    rw [hst]; exact h
  | some x =>
    have hst : (s.returnBook now m b).2.transactions =
        JsMap.mutateFirst (fun t => decide (t.status = "active") &&
            (decide (t.member_id = m) && decide (t.book_id = b)))
          (fun t => Transaction.«return» t now) s.transactions := by
      simp only [returnBook, hf]
    have hret : ∀ y : Transaction,
        decide ((Transaction.«return» y now).status = "active") = false := by
      intro y
      have hne : ("returned" : String) ≠ "active" := by decide
      simp [Transaction.«return», hne]
    have hsub := JsMap.filter_values_mutateFirst_sublist (κ := Nat)
      (fun t : Transaction => decide (t.status = "active"))
      (fun t => decide (t.status = "active") &&
        (decide (t.member_id = m) && decide (t.book_id = b)))
      (fun t => Transaction.«return» t now) hret s.transactions
    unfold OneActiveEach getActiveTransactions at h ⊢
    rw [hst]
    exact ⟨List.Nodup.sublist (hsub.map _) h.1, List.Nodup.sublist (hsub.map _) h.2⟩

theorem oneActiveEach_run (calls : List Call) (s : TransactionService) (h : OneActiveEach s) :
    OneActiveEach (run s calls) := by
  induction calls generalizing s with
  | nil => exact h
  | cons c rest ih =>
    apply ih
    cases c with
    | borrow now m b => exact oneActiveEach_borrowBook s now m b h
    | giveBack now m b => exact oneActiveEach_returnBook s now m b h

/-- C4: in every state reached from the empty service by any sequence of `borrowBook` and
`returnBook` calls, returning or throwing, the active transactions have pairwise different
member ids and pairwise different book ids. -/
theorem reachable_one_active_each (calls : List Call) : OneActiveEach (run empty calls) :=
  oneActiveEach_run calls empty (by simp [OneActiveEach, getActiveTransactions, empty, JsMap.values])


end TransactionService

/-! ## Lemmas on ISBN strings -/

theorem isAsciiDigit_bounds {c : Char} (h : isAsciiDigit c = true) :
    48 ≤ c.toNat ∧ c.toNat ≤ 57 := by
  simpa [isAsciiDigit] using h

theorem char_toNat_ne {a b : Char} (h : a ≠ b) : a.toNat ≠ b.toNat := by
  intro hab
  apply h
  rw [← Char.ofNat_toNat a, ← Char.ofNat_toNat b, hab]

/-- The characters an ISBN keeps after hyphens and white space are removed. -/
theorem isbnChar_kept {c : Char} (h : isAsciiDigit c = true ∨ c = 'X') :
    (!(c == '-' || isWhiteSpace c)) = true ∧ c.toNat < 65536 := by
  rcases h with h | h
  · have hb := isAsciiDigit_bounds h
    have hne : c ≠ '-' := by
      intro hc; rw [hc] at hb; revert hb; decide
    refine ⟨?_, by omega⟩
    simp only [isWhiteSpace, hne, beq_iff_eq, Bool.not_eq_true', Bool.or_eq_false_iff,
      Bool.and_eq_false_iff, decide_eq_false_iff_not, beq_eq_false_iff_ne, ne_eq]
    simp
    omega
  · subst h
    decide

theorem validateISBN_clean (l : List Char) (h : ∀ c ∈ l, isAsciiDigit c = true ∨ c = 'X') :
    Book.validateISBN (String.mk l) =
      if l.length = 10 then Book.validateISBN10 (String.mk l)
      else if l.length = 13 then Book.validateISBN13 (String.mk l) else false := by
  have hf : l.filter (fun c => !(c == '-' || isWhiteSpace c)) = l :=
    List.filter_eq_self.2 (fun c hc => (isbnChar_kept (h c hc)).1)
  have hl : jsLength (String.mk l) = l.length := by
    unfold jsLength
    induction l with
    | nil => rfl
    | cons a t ih =>
      have ha := (isbnChar_kept (h a (by simp))).2
      have := ih (fun c hc => h c (by simp [hc]))
        (List.filter_eq_self.2 (fun c hc => (isbnChar_kept (h c (by simp [hc]))).1))
      simp only [List.map_cons, List.sum_cons, ha, if_true, List.length_cons] at this ⊢
      omega
  simp only [Book.validateISBN, hf, hl, beq_iff_eq]

/-! ## Claims on ISBN validation -/

theorem getD_set_self (l : List Char) (i : Nat) (d : Char) (h : i < l.length) :
    (l.set i d).getD i '0' = d := by
  simp [List.getD_eq_getElem?_getD, List.getElem?_set_self h]

theorem getD_set_ne (l : List Char) (i k : Nat) (d : Char) (h : i ≠ k) :
    (l.set i d).getD k '0' = l.getD k '0' := by
  simp [List.getD_eq_getElem?_getD, List.getElem?_set_ne h]

theorem foldl_add_eq_sum (F : Nat → Nat) (ks : List Nat) (acc : Nat) :
    ks.foldl (fun sum k => sum + F k) acc = acc + (ks.map F).sum := by
  induction ks generalizing acc with
  | nil => simp
  | cons k rest ih => simp [List.foldl_cons, ih, Nat.add_assoc]

/-- Changing the value at one index changes a sum over distinct indices by that term only. -/
theorem sum_map_change_one (F G : Nat → Nat) (i : Nat) (hFG : ∀ k, k ≠ i → G k = F k)
    (ks : List Nat) (hks : ks.Nodup) :
    (ks.map G).sum + (if i ∈ ks then F i else 0) = (ks.map F).sum + (if i ∈ ks then G i else 0) := by
  induction ks with
  | nil => simp
  | cons k rest ih =>
    have hrest := ih (List.nodup_cons.1 hks).2
    by_cases hk : k = i
    · subst hk
      have hnot : k ∉ rest := (List.nodup_cons.1 hks).1
      simp only [hnot, if_false, Nat.add_zero] at hrest
      simp only [List.map_cons, List.sum_cons, List.mem_cons, true_or, if_true, hrest]
      omega
    · have hGk := hFG k hk
      have hmem : (i ∈ k :: rest) ↔ (i ∈ rest) := by
        simp only [List.mem_cons]
        constructor
        · rintro (h | h)
          · exact absurd h.symm hk
          · exact h
        · exact Or.inr
      simp only [List.map_cons, List.sum_cons, hmem, hGk]
      omega

/-- C7: when `validateISBN` accepts a string of 13 digits, it rejects every string that
differs from it in exactly one position by another digit. -/
theorem isbn13_single_digit_error_detected (s : String) (i : Nat) (d : Char)
    (hlen : s.data.length = 13) (hdig : ∀ c ∈ s.data, isAsciiDigit c = true)
    (hvalid : Book.validateISBN s = true) (hi : i < 13) (hd : isAsciiDigit d = true)
    (hne : d ≠ s.data.getD i '0') :
    Book.validateISBN (String.mk (s.data.set i d)) = false := by
  obtain ⟨l⟩ := s
  simp only at hlen hdig hne ⊢
  have hdig' : ∀ c ∈ l.set i d, isAsciiDigit c = true := by
    intro c hc
    rcases List.mem_or_eq_of_mem_set hc with h | h
    · exact hdig c h
    · rw [h]; exact hd
  have hall : l.all isAsciiDigit = true := List.all_eq_true.2 hdig
  have hall' : (l.set i d).all isAsciiDigit = true := List.all_eq_true.2 hdig'
  rw [validateISBN_clean l (fun c hc => Or.inl (hdig c hc))] at hvalid
  rw [validateISBN_clean _ (fun c hc => Or.inl (hdig' c hc))]
  simp only [List.length_set, hlen, Nat.reduceEqDiff, if_false, if_true, Book.validateISBN13,
    hall, hall', Book.charAt, foldl_add_eq_sum, beq_self_eq_true, Bool.and_self, Bool.not_true,
    Bool.false_eq_true, Nat.zero_add, beq_iff_eq, beq_eq_false_iff_ne] at hvalid ⊢
  have hch := sum_map_change_one
    (fun k => parseIntDigit (l.getD k '0') * (if k % 2 = 0 then 1 else 3))
    (fun k => parseIntDigit ((l.set i d).getD k '0') * (if k % 2 = 0 then 1 else 3)) i
    (fun k hk => by simp only [getD_set_ne l i k d (Ne.symm hk)])
    (List.range 12) (List.nodup_range 12)
  have hli : isAsciiDigit (l.getD i '0') = true := by
    rw [List.getD_eq_getElem l '0' (by omega)]
    exact hdig _ (List.getElem_mem _)
  have b1 := isAsciiDigit_bounds hli
  have b2 := isAsciiDigit_bounds hd
  have hn := char_toNat_ne hne
  simp only [getD_set_self l i d (by omega), List.mem_range] at hch
  by_cases h12 : i < 12
  · rw [getD_set_ne l i 12 d (by omega)]
    simp only [h12, if_true] at hch
    unfold parseIntDigit at hch hvalid ⊢
    by_cases hpar : i % 2 = 0
    · simp only [hpar, if_true] at hch
      omega
    · simp only [hpar, if_false] at hch
      omega
  · have hi12 : i = 12 := by omega
    subst hi12
    simp only [Nat.lt_irrefl, if_false, Nat.add_zero] at hch
    rw [getD_set_self l 12 d (by omega), hch]
    unfold parseIntDigit at hvalid ⊢
    omega

theorem isbn13_single_digit_error_detected_witness :
    Book.validateISBN "9780134685991" = true ∧
      Book.validateISBN (String.mk ("9780134685991".data.set 12 '2')) = false :=
  ⟨by decide, isbn13_single_digit_error_detected "9780134685991" 12 '2' (by decide) (by decide)
    (by decide) (by decide) (by decide) (by decide)⟩

/-- The value of the ISBN-10 check character: `isbn[9] === 'X' ? 10 : parseInt(isbn[9])`. -/
theorem checkChar_bounds {c : Char} (h : isAsciiDigit c = true ∨ c = 'X') :
    (48 ≤ c.toNat ∧ c.toNat ≤ 57 ∧ c ≠ 'X') ∨ c = 'X' := by
  rcases h with h | h
  · have hb := isAsciiDigit_bounds h
    refine Or.inl ⟨hb.1, hb.2, ?_⟩
    intro hc; rw [hc] at hb; revert hb; decide
  · exact Or.inr h

theorem mem_of_take_nine_and_last (l : List Char) (hlen : l.length = 10)
    (hdig : ∀ c ∈ l.take 9, isAsciiDigit c = true)
    (hlast : isAsciiDigit (l.getD 9 '0') = true ∨ l.getD 9 '0' = 'X') :
    ∀ c ∈ l, isAsciiDigit c = true ∨ c = 'X' := by
  intro c hc
  obtain ⟨k, hk, rfl⟩ := List.mem_iff_getElem.1 hc
  by_cases h9 : k < 9
  · exact Or.inl (hdig _ (List.mem_take_iff_getElem.2 ⟨k, by omega, rfl⟩))
  · have hk9 : k = 9 := by omega
    subst hk9
    rwa [List.getD_eq_getElem l '0' hk] at hlast

/-- C8: when `validateISBN` accepts a 10-character string of nine digits and a digit or 'X',
it rejects every string that differs from it in exactly one position by another character
legal there (a digit, or 'X' in the last position). -/
theorem isbn10_single_char_error_detected (s : String) (i : Nat) (d : Char)
    (hlen : s.data.length = 10) (hdig : ∀ c ∈ s.data.take 9, isAsciiDigit c = true)
    (hlast : isAsciiDigit (s.data.getD 9 '0') = true ∨ s.data.getD 9 '0' = 'X')
    (hvalid : Book.validateISBN s = true) (hi : i < 10)
    (hd : isAsciiDigit d = true ∨ (i = 9 ∧ d = 'X'))
    (hne : d ≠ s.data.getD i '0') :
    Book.validateISBN (String.mk (s.data.set i d)) = false := by
  obtain ⟨l⟩ := s
  simp only at hlen hdig hlast hne ⊢
  have hdig' : ∀ c ∈ (l.set i d).take 9, isAsciiDigit c = true := by
    intro c hc
    rw [List.set_take] at hc
    rcases List.mem_or_eq_of_mem_set hc with h | h
    · exact hdig c h
    · by_cases h9 : i < 9
      · rcases hd with hd | hd
        · rw [h]; exact hd
        · omega
      · rw [List.set_eq_of_length_le (by simp; omega)] at hc
        exact hdig c hc
  have hlast' : isAsciiDigit ((l.set i d).getD 9 '0') = true ∨ (l.set i d).getD 9 '0' = 'X' := by
    by_cases h9 : i = 9
    · subst h9
      rw [getD_set_self l 9 d (by omega)]
      rcases hd with hd | hd
      · exact Or.inl hd
      · exact Or.inr hd.2
    · rw [getD_set_ne l i 9 d h9]; exact hlast
  have hall : (l.take 9).all isAsciiDigit = true := List.all_eq_true.2 hdig
  have hall' : ((l.set i d).take 9).all isAsciiDigit = true := List.all_eq_true.2 hdig'
  have hreg : (isAsciiDigit (l.getD 9 '0') || l.getD 9 '0' == 'X') = true := by
    simpa using hlast
  have hreg' : (isAsciiDigit ((l.set i d).getD 9 '0') || (l.set i d).getD 9 '0' == 'X') = true := by
    simpa using hlast'
  rw [validateISBN_clean l (mem_of_take_nine_and_last l hlen hdig hlast)] at hvalid
  rw [validateISBN_clean _ (mem_of_take_nine_and_last _ (by simpa using hlen) hdig' hlast')]
  simp only [List.length_set, hlen, if_true, Book.validateISBN10,
    hall, hall', hreg, hreg', Book.charAt, foldl_add_eq_sum, beq_self_eq_true, Bool.and_self,
    Bool.not_true, Bool.false_eq_true, Nat.zero_add, beq_iff_eq, beq_eq_false_iff_ne, if_false]
    at hvalid ⊢
  have hch := sum_map_change_one
    (fun k => parseIntDigit (l.getD k '0') * (10 - k))
    (fun k => parseIntDigit ((l.set i d).getD k '0') * (10 - k)) i
    (fun k hk => by simp only [getD_set_ne l i k d (Ne.symm hk)])
    (List.range 9) (List.nodup_range 9)
  simp only [getD_set_self l i d (by omega), List.mem_range] at hch
  have hn := char_toNat_ne hne
  by_cases h9 : i < 9
  · have hli : isAsciiDigit (l.getD i '0') = true := by
      rw [List.getD_eq_getElem l '0' (by omega)]
      exact hdig _ (List.mem_take_iff_getElem.2 ⟨i, by omega, rfl⟩)
    have b1 := isAsciiDigit_bounds hli
    have b2 : 48 ≤ d.toNat ∧ d.toNat ≤ 57 := by
      rcases hd with hd | hd
      · exact isAsciiDigit_bounds hd
      · omega
    rw [getD_set_ne l i 9 d (by omega)]
    simp only [h9, if_true] at hch
    unfold parseIntDigit at hch hvalid ⊢
    interval_cases i <;> omega
  · have hi9 : i = 9 := by omega
    subst hi9
    simp only [Nat.lt_irrefl, if_false, Nat.add_zero] at hch
    rw [getD_set_self l 9 d (by omega), hch]
    have hd' : isAsciiDigit d = true ∨ d = 'X' := by
      rcases hd with hd | hd
      · exact Or.inl hd
      · exact Or.inr hd.2
    have hX : ('X' : Char).toNat = 88 := by decide
    rcases checkChar_bounds hd' with ⟨c1, c2, c3⟩ | c <;>
      rcases checkChar_bounds hlast with ⟨e1, e2, e3⟩ | e
    · simp only [c3, e3, if_false] at hvalid ⊢
      unfold parseIntDigit at hvalid ⊢
      omega
    · simp only [c3, e, if_false, if_true] at hvalid ⊢
      unfold parseIntDigit at hvalid ⊢
      omega
    · simp only [c, e3, if_false, if_true] at hvalid ⊢
      unfold parseIntDigit at hvalid ⊢
      omega
    · rw [c, e] at hne
      exact absurd rfl hne

theorem isbn10_single_char_error_detected_witness :
    Book.validateISBN "080442957X" = true ∧
      Book.validateISBN (String.mk ("080442957X".data.set 9 '5')) = false :=
  ⟨by decide, isbn10_single_char_error_detected "080442957X" 9 '5' (by decide) (by decide)
    (by decide) (by decide) (by decide) (by decide) (by decide)⟩

/-! ## Claims on MemberService and BookService -/

/-- C5: when the payload carries an explicit id (one the code reads as given: not `null`, `0`
or `''`) that is already a key of the store, `createMember` and `createBook` throw an error
whose message contains "already exists" and leave the service (map, stored entities and
next-id counter) exactly as it was. -/
theorem create_with_existing_id_rejected :
    (∀ (s : MemberService) (d : MemberData), d.member_id.truthy = true →
        JsMap.has s.members d.member_id = true →
        ∃ msg, s.createMember d = (Except.error msg, s) ∧ includes msg "already exists") ∧
    (∀ (s : BookService) (d : BookData), d.book_id.truthy = true →
        JsMap.has s.books d.book_id = true →
        ∃ msg, s.createBook d = (Except.error msg, s) ∧ includes msg "already exists") := by
  constructor
  · intro s d ht hk
    refine ⟨"member with id: " ++ d.member_id.toStr ++ " already exists", ?_, ?_⟩
    · simp [MemberService.createMember, ht, hk]
    · apply includes_append_right
      decide
  · intro s d ht hk
    refine ⟨"book with id: " ++ d.book_id.toStr ++ " already exists", ?_, ?_⟩
    · simp [BookService.createBook, ht, hk]
    · apply includes_append_right
      decide

theorem create_with_existing_id_rejected_witness :
    (∃ msg,
      (MemberService.mk [(JsId.int 1, Member.mk (JsId.int 1) "Alice" 22 false)] 1).createMember
          { member_id := JsId.int 1, name := some "Alice", age := some 22 } =
        (Except.error msg,
          MemberService.mk [(JsId.int 1, Member.mk (JsId.int 1) "Alice" 22 false)] 1) ∧
      includes msg "already exists") ∧
    (∃ msg,
      (BookService.createBook BookService.empty
          { book_id := JsId.int 4, title := some "Dune", author := some "Herbert" }).2.createBook
          { book_id := JsId.int 4, title := some "Emma", author := some "Austen" } =
        (Except.error msg, (BookService.createBook BookService.empty
          { book_id := JsId.int 4, title := some "Dune", author := some "Herbert" }).2) ∧
      includes msg "already exists") :=
  ⟨create_with_existing_id_rejected.1 _ _ (by decide) (by decide),
    create_with_existing_id_rejected.2 _ _ (by decide) (by decide)⟩

/-- C6, the code at the failing input: after `createMember({member_id: 1, name: 'Alice',
age: 22})`, the call `createMember({name: 'Bob', age: 30})` returns a member with the generated
id 1, the member stored under id 1 is now Bob, and the number of stored members is still 1. -/
theorem createMember_generated_id_replaces_member :
    (MemberService.empty.createMember
        { member_id := JsId.int 1, name := some "Alice", age := some 22 }).2.getAllMembers
      = [Member.mk (JsId.int 1) "Alice" 22 false] ∧
    ((MemberService.empty.createMember
        { member_id := JsId.int 1, name := some "Alice", age := some 22 }).2.createMember
        { name := some "Bob", age := some 30 }).1
      = Except.ok (Member.mk (JsId.int 1) "Bob" 30 false) ∧
    ((MemberService.empty.createMember
        { member_id := JsId.int 1, name := some "Alice", age := some 22 }).2.createMember
        { name := some "Bob", age := some 30 }).2.getAllMembers
      = [Member.mk (JsId.int 1) "Bob" 30 false] :=
  ⟨rfl, rfl, rfl⟩

/-! ## Claims on Transaction fines -/

theorem isOverdue_iff (t : Transaction) (now : Int) :
    t.isOverdue now = true ↔ t.status = "active" ∧ ∃ due, t.due_date = some due ∧ due < now := by
  unfold Transaction.isOverdue
  by_cases hs : t.status = "active"
  · cases hd : t.due_date with
    | none => simp [hs]
    | some due => simp [hs]
  · simp [hs]

/-- The days overdue are not negative. -/
theorem calculateDaysOverdue_nonneg (t : Transaction) (now : Int) :
    0 ≤ t.calculateDaysOverdue now := by
  cases ho : t.isOverdue now with
  | false => simp [Transaction.calculateDaysOverdue, ho]
  | true =>
    obtain ⟨_, due, hd, hlt⟩ := (isOverdue_iff t now).1 ho
    simp only [Transaction.calculateDaysOverdue, ho, Bool.not_true, Bool.false_eq_true, if_false,
      hd]
    apply Int.ceil_nonneg
    apply Float64.round_nonneg
    apply div_nonneg
    · apply Float64.round_nonneg
      exact_mod_cast (by omega : (0 : Int) ≤ now - due)
    · rw [msPerDay]; norm_num

/-- For a due date less than 2^53 ms before `now`, the doubles of `calculateDaysOverdue` give
the exact number of days started. -/
theorem calculateDaysOverdue_exact (t : Transaction) (now due : Int)
    (hs : t.status = "active") (hd : t.due_date = some due) (hlt : due < now)
    (h53 : now - due ≤ 2 ^ 53) :
    t.calculateDaysOverdue now =
      Int.ceil (((now - due : Int) : ℚ) / ((1000 * 60 * 60 * 24 : Int) : ℚ)) := by
  have ho : t.isOverdue now = true := (isOverdue_iff t now).2 ⟨hs, due, hd, hlt⟩
  obtain ⟨D, hD⟩ := Int.eq_ofNat_of_zero_le (by omega : (0 : Int) ≤ now - due)
  have hD53 : D ≤ 2 ^ 53 := by
    have : (D : Int) ≤ 2 ^ 53 := by rw [← hD]; exact h53
    exact_mod_cast this
  have hcast : ((now - due : Int) : ℚ) = (D : ℚ) := by rw [hD]; simp
  have hday : ((1000 * 60 * 60 * 24 : Int) : ℚ) = 86400000 := by norm_num
  have hms : (msPerDay : ℚ) = 86400000 := by rw [msPerDay]; norm_num
  simp only [Transaction.calculateDaysOverdue, ho, Bool.not_true, Bool.false_eq_true, if_false, hd]
  rw [hcast, hday, hms, Float64.round_natCast D hD53]
  exact Float64.ceil_round_div_day D hD53

/-- C9 as stated fails: for a transaction three days overdue and the rate 0.1, the method
returns the double 0.30000000000000004 (the product of doubles), which is neither three times
the rate nor 3/10. -/
theorem calculateFine_rounds_product :
    (Transaction.mk (some 1) (JsId.int 1) (JsId.int 7) "active" (some (-1209600000)) none (some 0)
      0 "").calculateDaysOverdue 259200000 = 3 ∧
    (Transaction.mk (some 1) (JsId.int 1) (JsId.int 7) "active" (some (-1209600000)) none (some 0)
      0 "").calculateFine 259200000 (Float64.round (1 / 10)) =
        5404319552844596 / 18014398509481984 ∧
    (Transaction.mk (some 1) (JsId.int 1) (JsId.int 7) "active" (some (-1209600000)) none (some 0)
      0 "").calculateFine 259200000 (Float64.round (1 / 10)) ≠
        min (3 * Float64.round (1 / 10)) 50 ∧
    (Transaction.mk (some 1) (JsId.int 1) (JsId.int 7) "active" (some (-1209600000)) none (some 0)
      0 "").calculateFine 259200000 (Float64.round (1 / 10)) ≠ min (3 * (1 / 10)) 50 := by
  decide!

/-- C9 amended: `calculateFine(r)` is 0 when the transaction is not overdue; when it is overdue
(status active and `now` after the due date) it is `min(fl(d * r), 50)`, where `d` is the
number of days overdue, which is `ceil((now - due_date) / one day)` for a due date less than
2^53 ms back, and `fl` rounds the exact product to the nearest double; for `r >= 0` the fine
lies between 0 and 50; it is `min(d * r, 50)` whenever `d * r` is a double, as it is at the
default rate 0.50 for `d` up to 2^52; and for `d = 200` at the default rate it is 50. -/
theorem calculateFine_capped (t : Transaction) (now : Int) (r : ℚ) (hr : 0 ≤ r) :
    (t.isOverdue now = false → t.calculateFine now r = 0) ∧
    (∀ due : Int, t.status = "active" → t.due_date = some due → due < now →
      t.calculateFine now r =
        min (Float64.round (((t.calculateDaysOverdue now : Int) : ℚ) * r)) 50 ∧
      (now - due ≤ 2 ^ 53 →
        t.calculateDaysOverdue now =
          Int.ceil (((now - due : Int) : ℚ) / ((1000 * 60 * 60 * 24 : Int) : ℚ)))) ∧
    0 ≤ t.calculateFine now r ∧ t.calculateFine now r ≤ 50 ∧
    (Float64.round (((t.calculateDaysOverdue now : Int) : ℚ) * r) =
        ((t.calculateDaysOverdue now : Int) : ℚ) * r →
      t.calculateFine now r = min (((t.calculateDaysOverdue now : Int) : ℚ) * r) 50) ∧
    (t.calculateDaysOverdue now ≤ 2 ^ 52 →
      t.calculateFine now Transaction.defaultRatePerDay =
        min (((t.calculateDaysOverdue now : Int) : ℚ) * (1 / 2)) 50) ∧
    (t.calculateDaysOverdue now = 200 →
      t.calculateFine now Transaction.defaultRatePerDay = 50) := by
  have hnonneg := calculateDaysOverdue_nonneg t now
  have hzero : t.isOverdue now = false → t.calculateDaysOverdue now = 0 := by
    intro ho
    simp [Transaction.calculateDaysOverdue, ho]
  have hexact : ∀ r' : ℚ, Float64.round (((t.calculateDaysOverdue now : Int) : ℚ) * r') =
        ((t.calculateDaysOverdue now : Int) : ℚ) * r' →
      t.calculateFine now r' = min (((t.calculateDaysOverdue now : Int) : ℚ) * r') 50 := by
    intro r' h
    cases ho : t.isOverdue now with
    | false => simp [Transaction.calculateFine, ho, hzero ho]
    | true =>
      simp only [Transaction.calculateFine, ho, Bool.not_true, Bool.false_eq_true, if_false,
        Float64.mul, h]
  have hhalf : t.calculateDaysOverdue now ≤ 2 ^ 52 →
      t.calculateFine now Transaction.defaultRatePerDay =
        min (((t.calculateDaysOverdue now : Int) : ℚ) * (1 / 2)) 50 := by
    intro hle
    apply hexact
    have habs : |t.calculateDaysOverdue now| ≤ 2 ^ 52 := by
      rw [abs_of_nonneg hnonneg]; exact hle
    have := Float64.round_half_int (t.calculateDaysOverdue now) habs
    have h2 : ((t.calculateDaysOverdue now : Int) : ℚ) * Transaction.defaultRatePerDay =
        ((t.calculateDaysOverdue now : Int) : ℚ) / 2 := by
      rw [Transaction.defaultRatePerDay]; ring
    rw [h2]
    exact this
  refine ⟨?_, ?_, ?_, ?_, hexact r, hhalf, ?_⟩
  · intro ho
    simp [Transaction.calculateFine, ho]
  · intro due hs hd hlt
    have ho : t.isOverdue now = true := (isOverdue_iff t now).2 ⟨hs, due, hd, hlt⟩
    refine ⟨?_, calculateDaysOverdue_exact t now due hs hd hlt⟩
    simp only [Transaction.calculateFine, ho, Bool.not_true, Bool.false_eq_true, if_false,
      Float64.mul]
  · unfold Transaction.calculateFine
    split
    · exact le_refl 0
    · apply le_min
      · exact Float64.round_nonneg (mul_nonneg (by exact_mod_cast hnonneg) hr)
      · norm_num
  · unfold Transaction.calculateFine
    split
    · norm_num
    · exact min_le_right _ _
  · intro h200
    rw [hhalf (by rw [h200]; norm_num), h200]
    norm_num

theorem calculateFine_capped_witness :
    (0 : ℚ) ≤ 1 / 2 ∧
    (Transaction.mk (some 1) (JsId.int 1) (JsId.int 7) "active" (some (-1209600000)) none (some 0)
      0 "").calculateDaysOverdue 17280000000 = 200 ∧
    (Transaction.mk (some 1) (JsId.int 1) (JsId.int 7) "active" (some (-1209600000)) none (some 0)
      0 "").calculateFine 17280000000 Transaction.defaultRatePerDay = 50 :=
  have hd : (Transaction.mk (some 1) (JsId.int 1) (JsId.int 7) "active" (some (-1209600000)) none
      (some 0) 0 "").calculateDaysOverdue 17280000000 = 200 := by
    decide!
  ⟨by norm_num, hd,
    (calculateFine_capped _ 17280000000 (1 / 2) (by norm_num)).2.2.2.2.2.2 hd⟩

/-! ## Claims on Member validation -/

theorem jsLength_mk_eq_zero_iff (l : List Char) : jsLength (String.mk l) = 0 ↔ l = [] := by
  unfold jsLength
  cases l with
  | nil => simp
  | cons a t =>
    simp only [List.map_cons, List.sum_cons, reduceCtorEq, iff_false]
    split <;> omega

theorem jsLength_pos_iff_ne_empty (s : String) : 1 ≤ jsLength s ↔ s ≠ "" := by
  obtain ⟨l⟩ := s
  have h := jsLength_mk_eq_zero_iff l
  have he : (String.mk l = "") ↔ l = [] := by
    constructor
    · intro h'; exact congrArg String.data h'
    · intro h'; rw [h']
  rw [Ne, he]
  constructor
  · intro h1 h2; have := h.2 h2; omega
  · intro h1
    by_contra h2
    exact h1 (h.1 (by omega))

/-- The trimmed string is empty exactly when every character is white space. -/
theorem jsTrim_length_eq_zero_iff (s : String) :
    jsLength (jsTrim s) = 0 ↔ ∀ c ∈ s.data, isWhiteSpace c = true := by
  unfold jsTrim
  rw [jsLength_mk_eq_zero_iff, List.reverse_eq_nil_iff, List.dropWhile_eq_nil_iff]
  constructor
  · intro h
    have hnil : s.data.dropWhile isWhiteSpace = [] := by
      cases hd : s.data.dropWhile isWhiteSpace with
      | nil => rfl
      | cons a t =>
        have ha : isWhiteSpace a = true := h a (by rw [hd]; simp)
        have hhead := List.head_dropWhile_not isWhiteSpace s.data (by rw [hd]; simp)
        simp only [hd, List.head_cons] at hhead
        rw [ha] at hhead
        exact absurd hhead (by simp)
    exact List.dropWhile_eq_nil_iff.1 hnil
  · intro h c hc
    rw [List.mem_reverse] at hc
    exact h c ((List.dropWhile_sublist isWhiteSpace).subset hc)

/-- C10 as stated fails: the member `{name: " ", age: 20}` has an age in [12,120] and a name of
length 1, and `validate()` rejects it with "Name is required"; so does a member with a valid
name and age whose `member_id` is the string "abc". -/
theorem validate_rejects_blank_name :
    ((12 : Int) ≤ (Member.mk JsId.null " " 20 false).age ∧
      (Member.mk JsId.null " " 20 false).age ≤ 120 ∧
      1 ≤ jsLength (Member.mk JsId.null " " 20 false).name ∧
      jsLength (Member.mk JsId.null " " 20 false).name ≤ 100 ∧
      (Member.mk JsId.null " " 20 false).validate =
        { isValid := false, errors := ["Name is required"] }) ∧
    (Member.mk (JsId.str "abc") "Al" 20 false).validate =
      { isValid := false, errors := ["Member ID must be an integer"] } := by
  decide

/-- C10 amended: a member whose age is in [12,120], whose name has length in [1,100] and holds
a character that is not white space, and whose `member_id` is falsy or an integer, passes
`validate()` with no errors; a member with age < 12, age > 120 or name length > 100 fails
`validate()` with an error message that contains the violated bound (12, 120 or 100). -/
theorem validate_member_bounds (m : Member) :
    (12 ≤ m.age → m.age ≤ 120 → 1 ≤ jsLength m.name → jsLength m.name ≤ 100 →
      (∃ c ∈ m.name.data, isWhiteSpace c = false) →
      (m.member_id.truthy = true → m.member_id.isInteger = true) →
      m.validate = { isValid := true, errors := [] }) ∧
    (m.age < 12 → m.validate.isValid = false ∧ ∃ e ∈ m.validate.errors, includes e "12") ∧
    (m.age > 120 → m.validate.isValid = false ∧ ∃ e ∈ m.validate.errors, includes e "120") ∧
    (jsLength m.name > 100 →
      m.validate.isValid = false ∧ ∃ e ∈ m.validate.errors, includes e "100") := by
  have hvalid : ∀ e, e ∈ m.validate.errors → m.validate.isValid = false := by
    intro e he
    unfold Member.validate Validation.ofErrors at he ⊢
    simp only at he ⊢
    cases hl : (pushIf (m.name = "" || jsLength (jsTrim m.name) == 0) "Name is required" ++
      pushIf (m.name ≠ "" && decide (jsLength m.name > 100))
        "Name must be 100 characters or less" ++
      pushIf (m.age = 0 || decide (m.age < 12)) "Age must be 12 or older" ++
      pushIf (m.age ≠ 0 && decide (m.age > 120)) "Age must be 120 or younger" ++
      pushIf (m.member_id.truthy && !m.member_id.isInteger) "Member ID must be an integer") with
    | nil => rw [hl] at he; exact absurd he (List.not_mem_nil e)
    | cons a t => rfl
  refine ⟨?_, ?_, ?_, ?_⟩
  · intro h12 h120 h1 h100 hws hid
    have hne : m.name ≠ "" := (jsLength_pos_iff_ne_empty m.name).1 h1
    have htrim : jsLength (jsTrim m.name) ≠ 0 := by
      intro h0
      obtain ⟨c, hc, hcw⟩ := hws
      have := (jsTrim_length_eq_zero_iff m.name).1 h0 c hc
      rw [hcw] at this
      exact Bool.false_ne_true this
    have ha0 : m.age ≠ 0 := by omega
    have hidb : (m.member_id.truthy && !m.member_id.isInteger) = false := by
      cases ht : m.member_id.truthy with
      | false => rfl
      | true => simp [hid ht]
    simp [Member.validate, Validation.ofErrors, pushIf, hne, htrim, ha0, hidb,
      not_lt.2 h12, not_lt.2 h120, not_lt.2 h100]
  · intro h
    have hmem : "Age must be 12 or older" ∈ m.validate.errors := by
      simp [Member.validate, Validation.ofErrors, pushIf, h]
    exact ⟨hvalid _ hmem, _, hmem, by decide⟩
  · intro h
    have ha0 : m.age ≠ 0 := by omega
    have hmem : "Age must be 120 or younger" ∈ m.validate.errors := by
      simp [Member.validate, Validation.ofErrors, pushIf, h, ha0]
    exact ⟨hvalid _ hmem, _, hmem, by decide⟩
  · intro h
    have hne : m.name ≠ "" := (jsLength_pos_iff_ne_empty m.name).1 (by omega)
    have hmem : "Name must be 100 characters or less" ∈ m.validate.errors := by
      simp [Member.validate, Validation.ofErrors, pushIf, h, hne]
    exact ⟨hvalid _ hmem, _, hmem, by decide⟩

theorem validate_member_bounds_witness :
    (Member.mk (JsId.int 1) "Alice" 22 false).validate = { isValid := true, errors := [] } ∧
    ((Member.mk (JsId.int 1) "Alice" 10 false).validate.isValid = false ∧
      ∃ e ∈ (Member.mk (JsId.int 1) "Alice" 10 false).validate.errors, includes e "12") ∧
    ((Member.mk (JsId.int 1) "Alice" 150 false).validate.isValid = false ∧
      ∃ e ∈ (Member.mk (JsId.int 1) "Alice" 150 false).validate.errors, includes e "120") :=
  ⟨(validate_member_bounds (Member.mk (JsId.int 1) "Alice" 22 false)).1 (by decide) (by decide)
      (by decide) (by decide) ⟨'A', by decide, by decide⟩ (fun _ => rfl),
    (validate_member_bounds (Member.mk (JsId.int 1) "Alice" 10 false)).2.1 (by decide),
    (validate_member_bounds (Member.mk (JsId.int 1) "Alice" 150 false)).2.2.1 (by decide)⟩

/-! ## Claims on priority scores -/

/-- The member score as a sum, and its range. -/
theorem member_score_bounds (m : Member) :
    m.calculatePriorityScore =
      1 + (if m.age > 18 then 1 / 2 else 0) + (if m.age > 65 then 1 / 2 else 0) +
        (if m.has_borrowed = true then 1 else 0) ∧
    1 ≤ m.calculatePriorityScore ∧ m.calculatePriorityScore ≤ 3 := by
  unfold Member.calculatePriorityScore
  by_cases h18 : m.age > 18 <;> by_cases h65 : m.age > 65 <;> cases hb : m.has_borrowed <;>
    simp [h18, h65] <;> norm_num

/-- C12: `Member.calculatePriorityScore()` is 1 + (0.5 if age > 18) + (0.5 if age > 65) +
(1 if has_borrowed); it lies between 1 and 3, so the cap at 10 never changes it. -/
theorem member_priority_score (m : Member) :
    m.calculatePriorityScore =
      1 + (if m.age > 18 then 1 / 2 else 0) + (if m.age > 65 then 1 / 2 else 0) +
        (if m.has_borrowed = true then 1 else 0) ∧
    1 ≤ m.calculatePriorityScore ∧ m.calculatePriorityScore ≤ 3 :=
  member_score_bounds m

/-- A sum of doubles stays at least 1 when a number that is not negative is added. -/
theorem Float64.one_le_add {a b : ℚ} (ha : 1 ≤ a) (hb : 0 ≤ b) : 1 ≤ Float64.add a b := by
  have := Float64.natCast_le_round (x := a + b) 1 (by norm_num) (by push_cast; linarith)
  simpa [Float64.add] using this

/-- A product of doubles that are not negative is not negative. -/
theorem Float64.zero_le_mul {a b : ℚ} (ha : 0 ≤ a) (hb : 0 ≤ b) : 0 ≤ Float64.mul a b :=
  Float64.round_nonneg (mul_nonneg ha hb)

theorem typeScore_ge_one (t : String) : 1 ≤ Reservation.typeScore t := by
  unfold Reservation.typeScore
  repeat' split
  all_goals norm_num

/-- The priority score of a reservation with a fee that is not negative is at least 1. -/
theorem one_le_priority (r : Reservation) (m : Member) (hfee : 0 ≤ r.fee_paid) :
    1 ≤ (r.calculatePriorityScore (some m)).1 := by
  have ht := typeScore_ge_one r.reservation_type
  have hm : (0 : ℚ) ≤ m.calculatePriorityScore := le_trans (by norm_num) (member_score_bounds m).2.1
  have h03 : (0 : ℚ) ≤ Float64.round (3 / 10) := Float64.round_nonneg (by norm_num)
  have h01 : (0 : ℚ) ≤ Float64.round (1 / 10) := Float64.round_nonneg (by norm_num)
  have h02 : (0 : ℚ) ≤ Float64.round (1 / 5) := Float64.round_nonneg (by norm_num)
  have s1 : 1 ≤ Float64.add (Float64.add 0 (Reservation.typeScore r.reservation_type))
      (Float64.mul m.calculatePriorityScore (Float64.round (3 / 10))) :=
    Float64.one_le_add
      (by
        have := Float64.natCast_le_round
          (x := 0 + Reservation.typeScore r.reservation_type) 1 (by norm_num)
          (by push_cast; linarith)
        simpa [Float64.add] using this)
      (Float64.zero_le_mul hm h03)
  simp only [Reservation.calculatePriorityScore]
  apply le_min _ (by norm_num)
  have hfm := Float64.zero_le_mul hfee h01
  cases r.special_requests.academic_priority <;> cases r.special_requests.accessibility_needs <;>
    cases r.group_reservation.isSome <;>
    simp only [if_true, Bool.false_eq_true, if_false] <;>
    first
      | exact Float64.one_le_add s1 hfm
      | exact Float64.one_le_add (Float64.one_le_add s1 hfm) h02
      | exact Float64.one_le_add (Float64.one_le_add s1 (by norm_num)) hfm
      | exact Float64.one_le_add (Float64.one_le_add (Float64.one_le_add s1 (by norm_num)) hfm) h02
      | exact Float64.one_le_add
          (Float64.one_le_add (Float64.one_le_add s1 (by norm_num)) (by norm_num)) hfm
      | exact Float64.one_le_add (Float64.one_le_add
          (Float64.one_le_add (Float64.one_le_add s1 (by norm_num)) (by norm_num)) hfm) h02

theorem priority_pos (r : Reservation) (m : Member) (hfee : 0 ≤ r.fee_paid) :
    0 < (r.calculatePriorityScore (some m)).1 :=
  lt_of_lt_of_le (by norm_num) (one_le_priority r m hfee)

/-- C11 as stated fails: for a standard reservation with `fee_paid` 83.5 and a group
reservation, and a member aged 30 without a loan, the sum of the formula is exactly 10, but
the method adds doubles and returns 9.999999999999998, which is below 10. -/
theorem reservation_priority_score_below_ten :
    (({ reservation_id := "RES-20240101-007", member_id := JsId.int 1, book_id := JsId.int 2
        reservation_type := "standard", status := "pending", created_at := some 0
        expires_at := some 1209600000, preferred_pickup_date := none, max_wait_days := 14
        queue_position := 0, priority_score := 0, estimated_availability_date := none
        pickup_window_start := none, pickup_window_end := none, fee_paid := 167 / 2
        group_reservation := some (GroupReservation.mk (JsId.str "g1") (JsId.int 3) (JsId.int 1))
        special_requests := {} } : Reservation).calculatePriorityScore
      (some (Member.mk (JsId.int 1) "Jane Doe" 30 false))).1 =
        5629499534213119 / 562949953421312 ∧
    (5629499534213119 / 562949953421312 : ℚ) < 10 ∧
    (1 + 3 / 10 * (Member.mk (JsId.int 1) "Jane Doe" 30 false).calculatePriorityScore + 0 + 0 +
      1 / 10 * (167 / 2) + 1 / 5 : ℚ) = 10 := by
  decide!

/-- C11 amended: for a reservation of type standard, premium or group (weight `w` = 1, 2, 1.5)
and a member, `calculatePriorityScore(member)` returns, and stores in `priority_score` with
every other field unchanged, the minimum of 10 and the sum the method accumulates in doubles:
`w`, plus the double product of the member score and 0.3, plus 1 (if academic priority), plus
0.5 (if accessibility needs), plus the double product of `fee_paid` and 0.1, plus 0.2 (if a
group reservation is present), each sum rounded to the nearest double; so it is at most 10,
and it is 10 for a premium reservation with `fee_paid = 100`. -/
theorem reservation_priority_score (r : Reservation) (m : Member) (w : ℚ)
    (hw : (r.reservation_type = "standard" ∧ w = 1) ∨ (r.reservation_type = "premium" ∧ w = 2) ∨
      (r.reservation_type = "group" ∧ w = 3 / 2)) :
    (let s₁ := Float64.add w (Float64.mul m.calculatePriorityScore (Float64.round (3 / 10)))
     let s₂ := if r.special_requests.academic_priority = true then Float64.add s₁ 1 else s₁
     let s₃ := if r.special_requests.accessibility_needs = true then Float64.add s₂ (1 / 2) else s₂
     let s₄ := Float64.add s₃ (Float64.mul r.fee_paid (Float64.round (1 / 10)))
     let s₅ := if r.group_reservation.isSome = true then Float64.add s₄ (Float64.round (1 / 5))
       else s₄
     (r.calculatePriorityScore (some m)).1 = min 10 s₅) ∧
    (r.calculatePriorityScore (some m)).2 =
      { r with priority_score := (r.calculatePriorityScore (some m)).1 } ∧
    (r.calculatePriorityScore (some m)).1 ≤ 10 ∧
    (r.reservation_type = "premium" → r.fee_paid = 100 →
      (r.calculatePriorityScore (some m)).1 = 10) := by
  have hts : Float64.add 0 (Reservation.typeScore r.reservation_type) = w := by
    rcases hw with ⟨h, rfl⟩ | ⟨h, rfl⟩ | ⟨h, rfl⟩
    · rw [h]; decide!
    · rw [h]; decide!
    · rw [h]; decide!
  refine ⟨?_, rfl, ?_, ?_⟩
  · simp only [Reservation.calculatePriorityScore, hts]
    exact min_comm _ _
  · simp only [Reservation.calculatePriorityScore]
    exact min_le_right _ _
  · intro hp hf
    have hw2 : w = 2 := by
      rcases hw with ⟨h, _⟩ | ⟨_, h⟩ | ⟨h, _⟩
      · rw [hp] at h; exact absurd h (by decide)
      · exact h
      · rw [hp] at h; exact absurd h (by decide)
    have hms := (member_score_bounds m).1
    simp only [Reservation.calculatePriorityScore, hts, hw2, hf, hms]
    by_cases h18 : m.age > 18 <;> by_cases h65 : m.age > 65 <;> cases m.has_borrowed <;>
      cases r.special_requests.academic_priority <;>
      cases r.special_requests.accessibility_needs <;>
      cases r.group_reservation.isSome <;>
      simp only [h18, h65, if_true, if_false, Bool.false_eq_true] <;>
      decide!

theorem reservation_priority_score_witness :
    (({ reservation_id := "RES-20240101-007", member_id := JsId.int 1, book_id := JsId.int 2
        reservation_type := "premium", status := "pending", created_at := some 0
        expires_at := some 1209600000, preferred_pickup_date := none, max_wait_days := 14
        queue_position := 0, priority_score := 0, estimated_availability_date := none
        pickup_window_start := none, pickup_window_end := none, fee_paid := 100
        group_reservation := none, special_requests := {} } : Reservation).calculatePriorityScore
      (some (Member.mk (JsId.int 1) "Jane Doe" 30 false))).1 = 10 :=
  (reservation_priority_score _ (Member.mk (JsId.int 1) "Jane Doe" 30 false) 2
    (Or.inr (Or.inl ⟨rfl, rfl⟩))).2.2.2 rfl rfl

/-! ## Claims on the reservation queue -/

/-- C13: `getReservationQueue(b)` is a permutation of the stored reservations with
`book_id = b` and `status = 'queued'`, in an order in which `priority_score` never increases
from an entry to a later one.  The method only reads the store. -/
theorem reservation_queue_sorted_perm (s : ReservationService) (b : JsId) :
    (s.getReservationQueue b).Perm
      ((JsMap.values s.reservations).filter
        (fun r => decide (r.book_id = b) && decide (r.status = "queued"))) ∧
    (s.getReservationQueue b).Pairwise (fun a c => a.priority_score ≥ c.priority_score) := by
  constructor
  · unfold ReservationService.getReservationQueue ReservationService.getReservationsByBook
    rw [List.filter_filter]
    refine (List.perm_insertionSort _ _).trans ?_
    apply List.Perm.of_eq
    apply List.filter_congr
    intro r _
    exact Bool.and_comm _ _
  · haveI : IsTotal Reservation (fun a c : Reservation => a.priority_score ≥ c.priority_score) :=
      ⟨fun a c => le_total c.priority_score a.priority_score⟩
    haveI : IsTrans Reservation (fun a c : Reservation => a.priority_score ≥ c.priority_score) :=
      ⟨fun _ _ _ hab hbc => le_trans hbc hab⟩
    exact List.sorted_insertionSort _ _

/-! ## Claims on Reservation validation -/

theorem mem_pushIf (c : Bool) (msg e : String) : e ∈ pushIf c msg ↔ c = true ∧ e = msg := by
  unfold pushIf
  cases c <;> simp

theorem group_error_mem_iff (r : Reservation) :
    "Invalid group reservation data" ∈ r.validate.errors ↔
      (r.group_reservation.isSome && !r.validateGroupReservation) = true := by
  simp only [Reservation.validate, Validation.ofErrors, List.mem_append, mem_pushIf]
  constructor
  · rintro (((((((h | h) | h) | h) | h) | h) | h) | h)
    all_goals first
      | exact h.1
      | exact absurd h.2 (by decide)
  · intro h
    exact Or.inr ⟨h, trivial⟩

theorem validateGroupReservation_iff (r : Reservation) (g : GroupReservation)
    (hg : r.group_reservation = some g) :
    r.validateGroupReservation = true ↔
      (∃ s, g.group_id = JsId.str s ∧ s ≠ "") ∧
      (∃ n : Int, g.group_size = JsId.int n ∧ 2 ≤ n ∧ n ≤ 10) ∧
      (∃ n : Int, g.coordinator_member_id = JsId.int n ∧ n ≠ 0) := by
  unfold Reservation.validateGroupReservation
  rw [hg]
  obtain ⟨gid, gsize, coord⟩ := g
  cases gid <;> cases gsize <;> cases coord <;> simp [JsId.truthy, JsId.isInteger]
  omega

/-- C19: when `group_reservation` is present, `validate()` reports no "Invalid group
reservation data" error exactly when `group_id` is a non-empty string, `group_size` is an
integer from 2 to 10 and `coordinator_member_id` is a non-zero integer; without a
`group_reservation` the error is never reported. -/
theorem group_reservation_validation (r : Reservation) :
    (∀ g, r.group_reservation = some g →
      ("Invalid group reservation data" ∉ r.validate.errors ↔
        (∃ s, g.group_id = JsId.str s ∧ s ≠ "") ∧
        (∃ n : Int, g.group_size = JsId.int n ∧ 2 ≤ n ∧ n ≤ 10) ∧
        (∃ n : Int, g.coordinator_member_id = JsId.int n ∧ n ≠ 0))) ∧
    (r.group_reservation = none → "Invalid group reservation data" ∉ r.validate.errors) := by
  constructor
  · intro g hg
    rw [group_error_mem_iff, ← validateGroupReservation_iff r g hg, hg]
    cases r.validateGroupReservation <;> simp
  · intro hn
    rw [group_error_mem_iff, hn]
    simp

theorem group_reservation_validation_witness :
    "Invalid group reservation data" ∉
      ({ reservation_id := "RES-20240101-007", member_id := JsId.int 1, book_id := JsId.int 2
         reservation_type := "group", status := "pending", created_at := some 0
         expires_at := some 1209600000, preferred_pickup_date := none, max_wait_days := 14
         queue_position := 0, priority_score := 0, estimated_availability_date := none
         pickup_window_start := none, pickup_window_end := none, fee_paid := 0
         group_reservation := some (GroupReservation.mk (JsId.str "g1") (JsId.int 4) (JsId.int 1))
         special_requests := {} } : Reservation).validate.errors :=
  ((group_reservation_validation _).1
    (GroupReservation.mk (JsId.str "g1") (JsId.int 4) (JsId.int 1)) rfl).2
    ⟨⟨"g1", rfl, by decide⟩, ⟨4, rfl, by decide, by decide⟩, ⟨1, rfl, by decide⟩⟩

/-! ## Further lemmas on maps -/

namespace JsMap

variable {κ α : Type} [DecidableEq κ]

theorem get_isSome_eq_has (m : JsMap κ α) (k : κ) : (get m k).isSome = has m k := by
  induction m with
  | nil => rfl
  | cons e rest ih =>
    unfold get has at *
    by_cases h : e.1 = k
    · simp [List.find?_cons, h]
    · simpa [List.find?_cons, h] using ih

theorem has_of_get_eq_some (m : JsMap κ α) (k : κ) (v : α) (h : get m k = some v) :
    has m k = true := by
  rw [← get_isSome_eq_has, h]; rfl

theorem get_delete_self (m : JsMap κ α) (k : κ) : get (delete m k).2 k = none := by
  unfold get delete
  simp only [Option.map_eq_none']
  rw [List.find?_eq_none]
  intro e he
  simp only [List.mem_filter, Bool.not_eq_true', decide_eq_false_iff_not] at he
  simpa using he.2

theorem get_set_self (m : JsMap κ α) (k : κ) (v : α) : get (set m k v) k = some v := by
  induction m with
  | nil => simp [set, get]
  | cons e rest ih =>
    unfold set
    by_cases h : e.1 = k
    · simp [h, get]
    · simp only [h, if_false]
      unfold get at ih ⊢
      simpa [List.find?_cons, h] using ih

theorem get_set_ne (m : JsMap κ α) (k k' : κ) (v : α) (hne : k' ≠ k) :
    get (set m k v) k' = get m k' := by
  induction m with
  | nil => simp [set, get, Ne.symm hne]
  | cons e rest ih =>
    unfold set
    by_cases h : e.1 = k
    · have h' : ¬ e.1 = k' := by rw [h]; exact Ne.symm hne
      simp [h, get, List.find?_cons, h', Ne.symm hne]
    · simp only [h, if_false]
      unfold get at ih ⊢
      by_cases h' : e.1 = k'
      · simp [List.find?_cons, h']
      · simpa [List.find?_cons, h'] using ih

theorem has_set (m : JsMap κ α) (k k' : κ) (v : α) :
    has (set m k v) k' = (has m k' || decide (k' = k)) := by
  rw [← get_isSome_eq_has, ← get_isSome_eq_has]
  by_cases h : k' = k
  · subst h; simp [get_set_self]
  · simp [get_set_ne m k k' v h, h]

theorem set_set (m : JsMap κ α) (k : κ) (v v' : α) : set (set m k v) k v' = set m k v' := by
  induction m with
  | nil => simp [set]
  | cons e rest ih =>
    by_cases h : e.1 = k
    · simp [set, h]
    · simp [set, h, ih]

end JsMap

/-! ## Claims on the member routes and MemberService.updateMember -/

/-- C17: for a stored member `m`, the delete-member handler answers 400 with a message that
contains "active book borrowing" and changes nothing when `m.has_borrowed` is true, and
answers 200 and removes `m` (`getMember` then returns `null`) when it is false; for an id
that is not stored it answers 404 and changes nothing. -/
theorem delete_member_handler (s : Services) (memberId : Int) :
    (∀ m, s.memberService.getMember (JsId.int memberId) = some m → m.has_borrowed = true →
      (Routes.deleteMember s memberId).1.status = 400 ∧
      includes (Routes.deleteMember s memberId).1.message "active book borrowing" ∧
      (Routes.deleteMember s memberId).2 = s) ∧
    (∀ m, s.memberService.getMember (JsId.int memberId) = some m → m.has_borrowed = false →
      (Routes.deleteMember s memberId).1.status = 200 ∧
      (Routes.deleteMember s memberId).2.memberService.getMember (JsId.int memberId) = none) ∧
    (s.memberService.getMember (JsId.int memberId) = none →
      (Routes.deleteMember s memberId).1.status = 404 ∧ (Routes.deleteMember s memberId).2 = s) := by
  refine ⟨?_, ?_, ?_⟩
  · intro m hm hb
    simp only [Routes.deleteMember, hm, hb, if_true, true_and, and_true]
    apply includes_append_right
    decide
  · intro m hm hb
    have hhas : JsMap.has s.memberService.members (JsId.int memberId) = true :=
      JsMap.has_of_get_eq_some _ _ m hm
    have hdel : (s.memberService.deleteMember (JsId.int memberId)).1 = true := by
      simp only [MemberService.deleteMember, JsMap.delete, hhas]
    simp only [Routes.deleteMember, hm, hb, Bool.false_eq_true, if_false, hdel, if_true, true_and]
    simp only [MemberService.getMember, MemberService.deleteMember]
    exact JsMap.get_delete_self _ _
  · intro hm
    simp only [Routes.deleteMember, hm, and_self]

theorem delete_member_handler_witness :
    ((Routes.deleteMember
        { memberService := MemberService.mk [(JsId.int 1, Member.mk (JsId.int 1) "Al" 20 true)] 2
          bookService := BookService.empty
          transactionService := TransactionService.empty
          reservationService := ReservationService.empty } 1).1.status = 400) ∧
    ((Routes.deleteMember
        { memberService := MemberService.mk [(JsId.int 1, Member.mk (JsId.int 1) "Al" 20 false)] 2
          bookService := BookService.empty
          transactionService := TransactionService.empty
          reservationService := ReservationService.empty } 1).1.status = 200) ∧
    ((Routes.deleteMember Services.empty 1).1.status = 404) :=
  ⟨((delete_member_handler
      { memberService := MemberService.mk [(JsId.int 1, Member.mk (JsId.int 1) "Al" 20 true)] 2
        bookService := BookService.empty
        transactionService := TransactionService.empty
        reservationService := ReservationService.empty } 1).1 (Member.mk (JsId.int 1) "Al" 20 true) rfl rfl).1,
    ((delete_member_handler
      { memberService := MemberService.mk [(JsId.int 1, Member.mk (JsId.int 1) "Al" 20 false)] 2
        bookService := BookService.empty
        transactionService := TransactionService.empty
        reservationService := ReservationService.empty } 1).2.1 (Member.mk (JsId.int 1) "Al" 20 false) rfl rfl).1,
    ((delete_member_handler Services.empty 1).2.2 rfl).1⟩

/-- C18: a failed update is not rolled back.  With Alice (age 22) stored under id 1,
`updateMember(1, {name: "Alice Smith", age: 10})` throws the validation error and the stored
member then has the name "Alice Smith" and the age 10; and for an id that is not stored
`updateMember` returns `null` and changes nothing. -/
theorem updateMember_not_rolled_back :
    ((Member.mk (JsId.int 1) "Alice" 22 false).validate.isValid = true ∧
      ((MemberService.mk [(JsId.int 1, Member.mk (JsId.int 1) "Alice" 22 false)] 2).updateMember
          (JsId.int 1) { name := some "Alice Smith", age := some 10 }).1 =
        Except.error "Validation failed: Age must be 12 or older" ∧
      ((MemberService.mk [(JsId.int 1, Member.mk (JsId.int 1) "Alice" 22 false)] 2).updateMember
          (JsId.int 1) { name := some "Alice Smith", age := some 10 }).2.getMember (JsId.int 1) =
        some (Member.mk (JsId.int 1) "Alice Smith" 10 false)) ∧
    (∀ (s : MemberService) (memberId : JsId) (updateData : MemberData),
      s.getMember memberId = none → s.updateMember memberId updateData = (Except.ok none, s)) := by
  refine ⟨⟨by decide, rfl, by decide⟩, ?_⟩
  intro s memberId updateData h
  simp only [MemberService.getMember] at h
  simp only [MemberService.updateMember, h]

theorem updateMember_not_rolled_back_witness :
    MemberService.empty.updateMember (JsId.int 5) { age := some 10 } =
      (Except.ok none, MemberService.empty) :=
  updateMember_not_rolled_back.2 MemberService.empty (JsId.int 5) { age := some 10 } rfl

/-! ## Lemmas on the reservation handler -/

theorem createReservation_ok {s : ReservationService} {now : Int} {generated : String}
    {data : ReservationData} {r0 : Reservation}
    (h : (s.createReservation now generated data).1 = Except.ok r0) :
    Reservation.new now generated data = Except.ok r0 ∧ r0.validate.isValid = true ∧
    (s.createReservation now generated data).2 =
      { reservations := JsMap.set s.reservations r0.reservation_id r0 } := by
  unfold ReservationService.createReservation at h ⊢
  cases hn : Reservation.new now generated data with
  | error e => simp [hn] at h
  | ok r =>
    simp only [hn] at h ⊢
    by_cases hv : r.validate.isValid = true
    · simp only [hv, Bool.not_true, Bool.false_eq_true, if_false, Except.ok.injEq] at h ⊢
      subst h
      exact ⟨rfl, hv, rfl⟩
    · simp [hv] at h

theorem createReservation_error {s : ReservationService} {now : Int} {generated : String}
    {data : ReservationData} {e : String}
    (h : (s.createReservation now generated data).1 = Except.error e) :
    (s.createReservation now generated data).2 = s := by
  unfold ReservationService.createReservation at h ⊢
  cases hn : Reservation.new now generated data with
  | error e => rfl
  | ok r =>
    simp only [hn] at h ⊢
    by_cases hv : r.validate.isValid = true
    · simp [hv] at h
    · simp [hv]

/-- The fields of the reservation the handler's `createReservation` call returns. -/
theorem new_reservationData {now : Int} {generated : String} {body : Routes.ReservationBody}
    {r0 : Reservation}
    (h : Reservation.new now generated (Routes.reservationData body) = Except.ok r0) :
    r0.member_id = body.member_id.orNull ∧ r0.book_id = body.book_id.orNull ∧
    r0.status = "pending" ∧ r0.fee_paid = body.fee_paid.getD 0 := by
  simp only [Reservation.new, Routes.reservationData, Option.getD_none,
    Reservation.calculateExpirationDate, Except.ok.injEq] at h
  subst h
  exact ⟨rfl, rfl, rfl, rfl⟩

theorem validate_ids_of_isValid {r : Reservation} (h : r.validate.isValid = true) :
    r.member_id.truthy = true ∧ r.book_id.truthy = true := by
  simp only [Reservation.validate, Validation.ofErrors, beq_iff_eq, List.length_eq_zero,
    List.append_eq_nil] at h
  obtain ⟨⟨⟨⟨⟨⟨⟨h1, h2⟩, _⟩, _⟩, _⟩, _⟩, _⟩, _⟩ := h
  constructor
  · by_contra hc
    simp [pushIf, hc] at h1
  · by_contra hc
    simp [pushIf, hc] at h2

theorem find?_isSome_eq_false_iff {α : Type} (p : α → Bool) (l : List α) :
    (l.find? p).isSome = false ↔ ∀ x ∈ l, p x = false := by
  cases h : l.find? p with
  | none =>
    simp only [Option.isSome_none, true_iff]
    intro x hx
    have := List.find?_eq_none.1 h x hx
    simpa using this
  | some a =>
    simp only [Option.isSome_some, Bool.true_eq_false, false_iff]
    intro hall
    have hp := List.find?_some h
    have hm := List.mem_of_find?_eq_some h
    rw [hall a hm] at hp
    exact Bool.false_ne_true hp

/-- What the reservation handler does to the services: nothing, or one `set` of an active
reservation for the requested member and book, made after both guards have passed. -/
theorem postReservations_cases (s : Services) (now : Int) (generated : String)
    (body : Routes.ReservationBody) :
    (Routes.postReservations s now generated body).2 = s ∨
    ∃ (member : Member) (book : Book) (r0 rfin : Reservation),
      s.memberService.getMember body.member_id = some member ∧
      s.bookService.getBook body.book_id = some book ∧
      (∀ x ∈ JsMap.values s.reservationService.reservations,
        (decide (x.member_id = body.member_id) && (decide (x.book_id = body.book_id) &&
          ReservationService.isActiveStatus x.status)) = false) ∧
      Routes.activeCount s.reservationService body.member_id < 3 ∧
      (s.reservationService.createReservation now generated (Routes.reservationData body)).1 =
        Except.ok r0 ∧
      rfin.member_id = body.member_id ∧ rfin.book_id = body.book_id ∧
      ReservationService.isActiveStatus rfin.status = true ∧
      (Routes.postReservations s now generated body).2 =
        { s with reservationService :=
            { reservations :=
                JsMap.set s.reservationService.reservations r0.reservation_id rfin } } := by
  unfold Routes.postReservations
  cases hm : s.memberService.getMember body.member_id with
  | none => exact Or.inl rfl
  | some member =>
    cases hb : s.bookService.getBook body.book_id with
    | none => exact Or.inl rfl
    | some book =>
      simp only
      by_cases hex : ((s.reservationService.getReservationsByMember body.member_id).find?
          (fun r => decide (r.book_id = body.book_id) &&
            ReservationService.isActiveStatus r.status)).isSome = true
      · left; simp only [hex, if_true]
      · by_cases hcount : Routes.activeCount s.reservationService body.member_id ≥ 3
        · left; simp only [hex, hcount, if_true, Bool.false_eq_true, if_false]
        · cases hc : (s.reservationService.createReservation now generated
              (Routes.reservationData body)).1 with
          | error e =>
            left
            simp only [hex, hcount, Bool.false_eq_true, if_false, hc,
              createReservation_error hc]
          | ok r0 =>
            right
            obtain ⟨hnew, hvalid, hst⟩ := createReservation_ok hc
            obtain ⟨hmid, hbid, hstatus, _⟩ := new_reservationData hnew
            obtain ⟨htm, htb⟩ := validate_ids_of_isValid hvalid
            rw [hmid, JsId.orNull_truthy] at htm
            rw [hbid, JsId.orNull_truthy] at htb
            rw [JsId.orNull_of_truthy _ htm] at hmid
            rw [JsId.orNull_of_truthy _ htb] at hbid
            have hex0 := hex
            simp only [Bool.not_eq_true] at hex
            rw [find?_isSome_eq_false_iff] at hex
            refine ⟨member, book, r0,
              if book.is_available = true then (r0.calculatePriorityScore (some member)).2
              else (r0.calculatePriorityScore (some member)).2.queue
                ((ReservationService.getReservationQueue
                  { reservations := JsMap.set s.reservationService.reservations
                      r0.reservation_id
                      (r0.calculatePriorityScore (some member)).2 } body.book_id).length),
              rfl, rfl, ?_, by omega, rfl, ?_, ?_, ?_, ?_⟩
            · intro x hx
              by_cases hxm : x.member_id = body.member_id
              · have := hex x (by
                  simp only [ReservationService.getReservationsByMember, List.mem_filter]
                  exact ⟨hx, by simpa using hxm⟩)
                simpa [hxm] using this
              · simp [hxm]
            · split <;> simpa [Reservation.calculatePriorityScore, Reservation.queue] using hmid
            · split <;> simpa [Reservation.calculatePriorityScore, Reservation.queue] using hbid
            · split
              · simp only [Reservation.calculatePriorityScore, hstatus]
                decide
              · simp only [Reservation.queue]
                decide
            · simp only [hex0, hcount, Bool.false_eq_true, if_false, hc, hst, JsMap.set_set]
              cases book.is_available <;> cases body.special_requests <;>
                simp only [Bool.false_eq_true, if_false, if_true] <;> split <;> rfl

theorem JsMap.length_filter_values_set_le {κ α : Type} [DecidableEq κ] (p : α → Bool)
    (m : JsMap κ α) (k : κ) (t : α) :
    ((JsMap.values (JsMap.set m k t)).filter p).length ≤
      ((JsMap.values m).filter p).length + (if p t = true then 1 else 0) := by
  induction m with
  | nil =>
    simp only [JsMap.set, JsMap.values, List.map_cons, List.map_nil, List.filter_cons,
      List.filter_nil]
    split <;> simp
  | cons e rest ih =>
    unfold JsMap.set
    split
    · simp only [JsMap.values, List.map_cons, List.filter_cons]
      split <;> split <;> simp
    · simp only [JsMap.values, List.map_cons, List.filter_cons] at ih ⊢
      split
      · simp only [List.length_cons]; omega
      · exact ih

theorem createMember_has_mono (s : MemberService) (d : MemberData) (k : JsId)
    (h : JsMap.has s.members k = true) : JsMap.has (s.createMember d).2.members k = true := by
  unfold MemberService.createMember
  simp only
  repeat' split
  all_goals first
    | exact h
    | simp [JsMap.has_set, h]

theorem createBook_has_mono (s : BookService) (d : BookData) (k : JsId)
    (h : JsMap.has s.books k = true) : JsMap.has (s.createBook d).2.books k = true := by
  unfold BookService.createBook
  simp only
  repeat' split
  all_goals first
    | exact h
    | simp [JsMap.has_set, h]

theorem activeCount_eq (rs : ReservationService) (m : JsId) :
    Routes.activeCount rs m =
      ((JsMap.values rs.reservations).filter
        (fun r => ReservationService.isActiveStatus r.status && decide (r.member_id = m))).length := by
  simp only [Routes.activeCount, ReservationService.getActiveReservations, List.filter_filter]
  congr 1
  apply List.filter_congr
  intro r _
  exact Bool.and_comm _ _

theorem reservationInvariant_postMembers (s : Services) (body : MemberData)
    (h : Routes.ReservationInvariant s) : Routes.ReservationInvariant (Routes.postMembers s body).2 := by
  have hst : (Routes.postMembers s body).2 =
      { s with memberService := (s.memberService.createMember body).2 } := by
    unfold Routes.postMembers
    simp only
    repeat' split
    all_goals rfl
  rw [hst]
  refine ⟨h.1, h.2.1, ?_⟩
  intro r hr
  exact ⟨createMember_has_mono _ _ _ (h.2.2 r hr).1, (h.2.2 r hr).2⟩

theorem reservationInvariant_postBooks (s : Services) (body : BookData)
    (h : Routes.ReservationInvariant s) : Routes.ReservationInvariant (Routes.postBooks s body).2 := by
  have hst : (Routes.postBooks s body).2 =
      { s with bookService := (s.bookService.createBook body).2 } := by
    unfold Routes.postBooks
    simp only
    repeat' split
    all_goals rfl
  rw [hst]
  refine ⟨h.1, h.2.1, ?_⟩
  intro r hr
  exact ⟨(h.2.2 r hr).1, createBook_has_mono _ _ _ (h.2.2 r hr).2⟩

theorem reservationInvariant_postReservations (s : Services) (now : Int) (generated : String)
    (body : Routes.ReservationBody) (h : Routes.ReservationInvariant s) :
    Routes.ReservationInvariant (Routes.postReservations s now generated body).2 := by
  rcases postReservations_cases s now generated body with hs | ⟨member, book, r0, rfin, hm, hb,
    hex, hcount, _, hrm, hrb, hract, hst⟩
  · rw [hs]; exact h
  · rw [hst]
    refine ⟨?_, ?_, ?_⟩
    · simp only [ReservationService.getActiveReservations]
      apply JsMap.nodup_filter_values_set _ _ _ _ _ h.1
      intro x hx hact hpair
      have hx' := hex x hx
      simp only [Prod.mk.injEq, hrm, hrb] at hpair
      simp [hpair.1, hpair.2, hact] at hx'
    · intro m
      have hle := JsMap.length_filter_values_set_le
        (fun r : Reservation => ReservationService.isActiveStatus r.status && decide (r.member_id = m))
        s.reservationService.reservations r0.reservation_id rfin
      have hold := h.2.1 m
      rw [activeCount_eq] at hold ⊢
      rw [activeCount_eq] at hcount
      simp only at hle ⊢
      by_cases hmm : body.member_id = m
      · subst hmm
        split at hle <;> omega
      · have hne : rfin.member_id ≠ m := by rw [hrm]; exact hmm
        simp only [hne, decide_False, Bool.and_false, Bool.false_eq_true, if_false,
          Nat.add_zero] at hle
        omega
    · intro r hr
      rcases JsMap.mem_values_set _ _ _ _ hr with hrf | hold
      · subst hrf
        rw [hrm, hrb]
        exact ⟨JsMap.has_of_get_eq_some _ _ member hm, JsMap.has_of_get_eq_some _ _ book hb⟩
      · exact h.2.2 r hold

theorem reservationInvariant_createAll (requests : List Routes.CreationRequest) (s : Services)
    (h : Routes.ReservationInvariant s) : Routes.ReservationInvariant (Routes.createAll s requests) := by
  induction requests generalizing s with
  | nil => exact h
  | cons q rest ih =>
    apply ih
    cases q with
    | member body => exact reservationInvariant_postMembers s body h
    | book body => exact reservationInvariant_postBooks s body h
    | reservation now generated body =>
      exact reservationInvariant_postReservations s now generated body h

theorem reservationInvariant_empty : Routes.ReservationInvariant Services.empty := by
  refine ⟨?_, ?_, ?_⟩
  · simp [Services.empty, ReservationService.empty, ReservationService.getActiveReservations,
      JsMap.values]
  · intro m
    simp [Services.empty, ReservationService.empty, Routes.activeCount,
      ReservationService.getActiveReservations, JsMap.values]
  · intro r hr
    simp [Services.empty, ReservationService.empty, JsMap.values] at hr

/-! ## Claims on the reservation handler -/

theorem get_isSome_of_has {κ α : Type} [DecidableEq κ] (m : JsMap κ α) (k : κ)
    (h : JsMap.has m k = true) : ∃ v, JsMap.get m k = some v := by
  rw [← JsMap.get_isSome_eq_has] at h
  exact Option.isSome_iff_exists.1 h

/-- C14 as stated fails: after Jane (id 1) has reserved the books 1, 2 and 3, she has 3
active reservations, and her request for the book id 99, which is not stored, is answered
404, not 400. -/
theorem reservation_limit_unknown_book :
    Routes.activeCount
      (Routes.createAll Services.empty
        [Routes.CreationRequest.member { name := some "Jane Doe", age := some 30 },
          Routes.CreationRequest.book { title := some "A", author := some "Y" },
          Routes.CreationRequest.book { title := some "B", author := some "Y" },
          Routes.CreationRequest.book { title := some "C", author := some "Y" },
          Routes.CreationRequest.reservation 0 "RES-19700101-001"
            { member_id := JsId.int 1, book_id := JsId.int 1 },
          Routes.CreationRequest.reservation 0 "RES-19700101-002"
            { member_id := JsId.int 1, book_id := JsId.int 2 },
          Routes.CreationRequest.reservation 0 "RES-19700101-003"
            { member_id := JsId.int 1, book_id := JsId.int 3 }]).reservationService
      (JsId.int 1) = 3 ∧
    (Routes.postReservations
      (Routes.createAll Services.empty
        [Routes.CreationRequest.member { name := some "Jane Doe", age := some 30 },
          Routes.CreationRequest.book { title := some "A", author := some "Y" },
          Routes.CreationRequest.book { title := some "B", author := some "Y" },
          Routes.CreationRequest.book { title := some "C", author := some "Y" },
          Routes.CreationRequest.reservation 0 "RES-19700101-001"
            { member_id := JsId.int 1, book_id := JsId.int 1 },
          Routes.CreationRequest.reservation 0 "RES-19700101-002"
            { member_id := JsId.int 1, book_id := JsId.int 2 },
          Routes.CreationRequest.reservation 0 "RES-19700101-003"
            { member_id := JsId.int 1, book_id := JsId.int 3 }])
      0 "RES-19700101-004" { member_id := JsId.int 1, book_id := JsId.int 99 }).1.status = 404 := by
  constructor <;> rfl

/-- C14 amended: in every state reached from empty services by member, book and reservation
creation requests, with any generated reservation ids, no member has more than 3 reservations
whose status is pending, confirmed or queued; and a request by a member who already has 3 of
them is answered 400 when the requested book is stored and 404 when it is not, and leaves the
services unchanged. -/
theorem reservation_limit (requests : List Routes.CreationRequest) :
    (∀ m, Routes.activeCount (Routes.createAll Services.empty requests).reservationService m ≤ 3) ∧
    (∀ (now : Int) (generated : String) (body : Routes.ReservationBody),
      3 ≤ Routes.activeCount (Routes.createAll Services.empty requests).reservationService
        body.member_id →
      ((∃ book, (Routes.createAll Services.empty requests).bookService.getBook body.book_id
          = some book) →
        (Routes.postReservations (Routes.createAll Services.empty requests) now generated
          body).1.status = 400) ∧
      ((Routes.createAll Services.empty requests).bookService.getBook body.book_id = none →
        (Routes.postReservations (Routes.createAll Services.empty requests) now generated
          body).1.status = 404) ∧
      (Routes.postReservations (Routes.createAll Services.empty requests) now generated body).2 =
        Routes.createAll Services.empty requests) := by
  have hinv := reservationInvariant_createAll requests Services.empty reservationInvariant_empty
  generalize Routes.createAll Services.empty requests = S at hinv ⊢
  refine ⟨hinv.2.1, ?_⟩
  intro now generated body hcount
  have hexists : ∃ r ∈ JsMap.values S.reservationService.reservations,
      r.member_id = body.member_id := by
    rw [activeCount_eq] at hcount
    obtain ⟨r, hr⟩ := List.exists_mem_of_length_pos (Nat.lt_of_lt_of_le (by decide) hcount)
    rw [List.mem_filter] at hr
    have h2 := hr.2
    simp only [Bool.and_eq_true, decide_eq_true_eq] at h2
    exact ⟨r, hr.1, h2.2⟩
  obtain ⟨r, hr, hrm⟩ := hexists
  obtain ⟨member, hm⟩ := get_isSome_of_has _ _ (hrm ▸ (hinv.2.2 r hr).1)
  have hm' : S.memberService.getMember body.member_id = some member := hm
  refine ⟨?_, ?_, ?_⟩
  · rintro ⟨book, hb⟩
    simp only [Routes.postReservations, hm', hb]
    split
    · rfl
    · simp only [ge_iff_le, hcount, if_true]
      rfl
  · intro hb
    simp only [Routes.postReservations, hm', hb]
    rfl
  · simp only [Routes.postReservations, hm']
    cases hb : S.bookService.getBook body.book_id with
    | none => rfl
    | some book =>
      simp only
      split
      · rfl
      · simp only [ge_iff_le, hcount, if_true]

theorem reservation_limit_witness :
    (Routes.postReservations
      (Routes.createAll Services.empty
        [Routes.CreationRequest.member { name := some "Jane Doe", age := some 30 },
          Routes.CreationRequest.book { title := some "A", author := some "Y" },
          Routes.CreationRequest.book { title := some "B", author := some "Y" },
          Routes.CreationRequest.book { title := some "C", author := some "Y" },
          Routes.CreationRequest.reservation 0 "RES-19700101-001"
            { member_id := JsId.int 1, book_id := JsId.int 1 },
          Routes.CreationRequest.reservation 0 "RES-19700101-002"
            { member_id := JsId.int 1, book_id := JsId.int 2 },
          Routes.CreationRequest.reservation 0 "RES-19700101-003"
            { member_id := JsId.int 1, book_id := JsId.int 3 }])
      0 "RES-19700101-004" { member_id := JsId.int 1, book_id := JsId.int 2 }).1.status = 400 :=
  ((reservation_limit
      [Routes.CreationRequest.member { name := some "Jane Doe", age := some 30 },
        Routes.CreationRequest.book { title := some "A", author := some "Y" },
        Routes.CreationRequest.book { title := some "B", author := some "Y" },
        Routes.CreationRequest.book { title := some "C", author := some "Y" },
        Routes.CreationRequest.reservation 0 "RES-19700101-001"
          { member_id := JsId.int 1, book_id := JsId.int 1 },
        Routes.CreationRequest.reservation 0 "RES-19700101-002"
          { member_id := JsId.int 1, book_id := JsId.int 2 },
        Routes.CreationRequest.reservation 0 "RES-19700101-003"
          { member_id := JsId.int 1, book_id := JsId.int 3 }]).2 0 "RES-19700101-004" { member_id := JsId.int 1, book_id := JsId.int 2 }
    (by decide)).1 ⟨_, rfl⟩

/-- C15: in every state reached from empty services by member, book and reservation creation
requests, active (pending, confirmed or queued) reservations have pairwise different (member,
book) pairs; and a request for a pair that already has an active reservation is answered 400
with the message "Member already has an active reservation for this book" and changes
nothing. -/
theorem no_second_active_reservation (requests : List Routes.CreationRequest) :
    ((Routes.createAll Services.empty requests).reservationService.getActiveReservations.map
      (fun r => (r.member_id, r.book_id))).Nodup ∧
    (∀ (now : Int) (generated : String) (body : Routes.ReservationBody),
      (∃ r ∈ (Routes.createAll Services.empty requests).reservationService.getActiveReservations,
        r.member_id = body.member_id ∧ r.book_id = body.book_id) →
      Routes.postReservations (Routes.createAll Services.empty requests) now generated body =
        (Routes.reservationError 400 "Member already has an active reservation for this book",
          Routes.createAll Services.empty requests)) := by
  have hinv := reservationInvariant_createAll requests Services.empty reservationInvariant_empty
  generalize Routes.createAll Services.empty requests = S at hinv ⊢
  refine ⟨hinv.1, ?_⟩
  rintro now generated body ⟨r, hr, hrm, hrb⟩
  simp only [ReservationService.getActiveReservations, List.mem_filter] at hr
  obtain ⟨member, hm⟩ := get_isSome_of_has _ _ (hrm ▸ (hinv.2.2 r hr.1).1)
  obtain ⟨book, hb⟩ := get_isSome_of_has _ _ (hrb ▸ (hinv.2.2 r hr.1).2)
  have hm' : S.memberService.getMember body.member_id = some member := hm
  have hb' : S.bookService.getBook body.book_id = some book := hb
  have hfind : ((S.reservationService.getReservationsByMember body.member_id).find?
      (fun r => decide (r.book_id = body.book_id) &&
        ReservationService.isActiveStatus r.status)).isSome = true := by
    by_contra hc
    simp only [Bool.not_eq_true] at hc
    rw [find?_isSome_eq_false_iff] at hc
    have := hc r (by
      simp only [ReservationService.getReservationsByMember, List.mem_filter]
      exact ⟨hr.1, by simpa using hrm⟩)
    simp [hrb, hr.2] at this
  simp only [Routes.postReservations, hm', hb', hfind, if_true]

theorem no_second_active_reservation_witness :
    Routes.postReservations
      (Routes.createAll Services.empty
        [Routes.CreationRequest.member { name := some "Jane Doe", age := some 30 },
          Routes.CreationRequest.book { title := some "A", author := some "Y" },
          Routes.CreationRequest.reservation 0 "RES-19700101-001"
            { member_id := JsId.int 1, book_id := JsId.int 1 }])
      5 "RES-19700101-002" { member_id := JsId.int 1, book_id := JsId.int 1 } =
    (Routes.reservationError 400 "Member already has an active reservation for this book",
      Routes.createAll Services.empty
        [Routes.CreationRequest.member { name := some "Jane Doe", age := some 30 },
          Routes.CreationRequest.book { title := some "A", author := some "Y" },
          Routes.CreationRequest.reservation 0 "RES-19700101-001"
            { member_id := JsId.int 1, book_id := JsId.int 1 }]) :=
  (no_second_active_reservation
      [Routes.CreationRequest.member { name := some "Jane Doe", age := some 30 },
        Routes.CreationRequest.book { title := some "A", author := some "Y" },
        Routes.CreationRequest.reservation 0 "RES-19700101-001"
          { member_id := JsId.int 1, book_id := JsId.int 1 }]).2 5 "RES-19700101-002" { member_id := JsId.int 1, book_id := JsId.int 1 }
    (by decide)

theorem fee_nonneg_of_isValid {r : Reservation} (h : r.validate.isValid = true) :
    0 ≤ r.fee_paid := by
  simp only [Reservation.validate, Validation.ofErrors, beq_iff_eq, List.length_eq_zero,
    List.append_eq_nil] at h
  obtain ⟨⟨⟨_, h6⟩, _⟩, _⟩ := h
  by_contra hc
  have hlt : r.fee_paid < 0 := not_le.1 hc
  have hne : r.fee_paid ≠ 0 := ne_of_lt hlt
  simp [pushIf, hne, hlt] at h6

theorem createReservation_of_valid (s : ReservationService) (now : Int) (generated : String)
    (data : ReservationData) (r0 : Reservation)
    (hnew : Reservation.new now generated data = Except.ok r0)
    (hvalid : r0.validate.isValid = true) :
    s.createReservation now generated data =
      (Except.ok r0, { reservations := JsMap.set s.reservations r0.reservation_id r0 }) := by
  simp [ReservationService.createReservation, hnew, hvalid]

/-- C16 as stated fails: with Jane (id 1) and a book (id 1) stored and no reservation at all,
a request whose `group_reservation` has `group_size` 1 is answered 400 and stores nothing. -/
theorem reservation_invalid_group_rejected :
    (Routes.postReservations
      (Routes.createAll Services.empty
        [Routes.CreationRequest.member { name := some "Jane Doe", age := some 30 },
          Routes.CreationRequest.book { title := some "X", author := some "Y" }])
      0 "RES-19700101-001"
      { member_id := JsId.int 1, book_id := JsId.int 1
        group_reservation := some (GroupReservation.mk (JsId.str "g1") (JsId.int 1) (JsId.int 1)) }
      ).1.status = 400 ∧
    (Routes.postReservations
      (Routes.createAll Services.empty
        [Routes.CreationRequest.member { name := some "Jane Doe", age := some 30 },
          Routes.CreationRequest.book { title := some "X", author := some "Y" }])
      0 "RES-19700101-001"
      { member_id := JsId.int 1, book_id := JsId.int 1
        group_reservation := some (GroupReservation.mk (JsId.str "g1") (JsId.int 1) (JsId.int 1)) }
      ).2.reservationService.getAllReservations = [] ∧
    ((Routes.createAll Services.empty
        [Routes.CreationRequest.member { name := some "Jane Doe", age := some 30 },
          Routes.CreationRequest.book { title := some "X", author := some "Y" }]
      ).memberService.getMember (JsId.int 1)).isSome = true ∧
    ((Routes.createAll Services.empty
        [Routes.CreationRequest.member { name := some "Jane Doe", age := some 30 },
          Routes.CreationRequest.book { title := some "X", author := some "Y" }]
      ).bookService.getBook (JsId.int 1)).isSome = true := by
  refine ⟨rfl, rfl, rfl, rfl⟩

/-- The pickup date of the reservation the handler's `createReservation` call returns. -/
theorem new_reservationData_pickup {now : Int} {generated : String}
    {body : Routes.ReservationBody} {r0 : Reservation}
    (h : Reservation.new now generated (Routes.reservationData body) = Except.ok r0) :
    r0.preferred_pickup_date = body.preferred_pickup_date := by
  simp only [Reservation.new, Routes.reservationData, Option.getD_none,
    Reservation.calculateExpirationDate, Except.ok.injEq] at h
  subst h
  rfl

theorem pickup_valid_of_isValid {r : Reservation} (h : r.validate.isValid = true) :
    r.preferred_pickup_date ≠ some none := by
  simp only [Reservation.validate, Validation.ofErrors, beq_iff_eq, List.length_eq_zero,
    List.append_eq_nil] at h
  obtain ⟨⟨_, h7⟩, _⟩ := h
  intro hc
  simp [pushIf, hc, Reservation.isValidDate] at h7

/-- The field `pickup_window_end` can be formatted when the pickup date is absent, or valid
and two days before the end of the `Date` range. -/
theorem pickupWindowEnd_ok (d : Option DateString) (hd : d ≠ some none)
    (hpick : ∀ t, d = some (some t) →
      -maxTime ≤ t + 2 * msPerDay ∧ t + 2 * msPerDay ≤ maxTime) :
    ∃ e, Routes.pickupWindowEnd d = Except.ok e := by
  cases d with
  | none => exact ⟨none, rfl⟩
  | some v =>
    cases v with
    | none => exact absurd rfl hd
    | some t =>
      have h := hpick t rfl
      have h2 : (2 : Int) * 24 * 60 * 60 * 1000 = 2 * msPerDay := by rw [msPerDay]; norm_num
      refine ⟨some (some (t + 2 * msPerDay)), ?_⟩
      simp only [Routes.pickupWindowEnd, h2, timeClip, h, and_self, if_true, toISOString]

/-- The handler at a pickup date one day before the end of the `Date` range: the reservation
is stored, formatting `pickup_window_end` throws, and the answer is 400. -/
theorem reservation_late_pickup_rejected :
    (Routes.postReservations
      (Routes.createAll Services.empty
        [Routes.CreationRequest.member { name := some "Jane Doe", age := some 30 },
          Routes.CreationRequest.book { title := some "X", author := some "Y" }])
      0 "RES-19700101-001"
      { member_id := JsId.int 1, book_id := JsId.int 1
        preferred_pickup_date := some (some (maxTime - msPerDay)) }).1.status = 400 ∧
    ((Routes.postReservations
      (Routes.createAll Services.empty
        [Routes.CreationRequest.member { name := some "Jane Doe", age := some 30 },
          Routes.CreationRequest.book { title := some "X", author := some "Y" }])
      0 "RES-19700101-001"
      { member_id := JsId.int 1, book_id := JsId.int 1
        preferred_pickup_date := some (some (maxTime - msPerDay)) }
      ).2.reservationService.getAllReservations.map (fun r => (r.reservation_id, r.status))) =
      [("RES-19700101-001", "pending")] := by
  decide!

/-- C16 amended: for a stored member and a stored book with no active reservation for the
pair and fewer than 3 active reservations for the member, when the reservation built from the
payload passes `Reservation.validate()` (type, max_wait_days, fee_paid, pickup date and
group-reservation shape), `special_requests` is not `null` and the pickup date, when given,
is at least two days before the end of the `Date` range, the handler answers 200 with
`reservation_status` "confirmed" when the book's `is_available` flag is true and "queued"
otherwise, and with `priority_score > 0`. -/
theorem reservation_created (s : Services) (now : Int) (generated : String)
    (body : Routes.ReservationBody) (member : Member) (book : Book) (r0 : Reservation)
    (hm : s.memberService.getMember body.member_id = some member)
    (hb : s.bookService.getBook body.book_id = some book)
    (hpair : ∀ x ∈ s.reservationService.getActiveReservations,
      ¬ (x.member_id = body.member_id ∧ x.book_id = body.book_id))
    (hcount : Routes.activeCount s.reservationService body.member_id < 3)
    (hnew : Reservation.new now generated (Routes.reservationData body) = Except.ok r0)
    (hvalid : r0.validate.isValid = true)
    (hsr : body.special_requests ≠ JsField.null)
    (hpick : ∀ t, body.preferred_pickup_date = some (some t) →
      -maxTime ≤ t + 2 * msPerDay ∧ t + 2 * msPerDay ≤ maxTime) :
    (Routes.postReservations s now generated body).1.status = 200 ∧
    (Routes.postReservations s now generated body).1.reservation_status =
      (if book.is_available = true then "confirmed" else "queued") ∧
    0 < (Routes.postReservations s now generated body).1.priority_score := by
  have hfind : ((s.reservationService.getReservationsByMember body.member_id).find?
      (fun r => decide (r.book_id = body.book_id) &&
        ReservationService.isActiveStatus r.status)).isSome = false := by
    rw [find?_isSome_eq_false_iff]
    intro x hx
    simp only [ReservationService.getReservationsByMember, List.mem_filter,
      decide_eq_true_eq] at hx
    by_contra hc
    simp only [Bool.not_eq_false, Bool.and_eq_true, decide_eq_true_eq] at hc
    exact hpair x (by
      simp only [ReservationService.getActiveReservations, List.mem_filter]
      exact ⟨hx.1, hc.2⟩) ⟨hx.2, hc.1⟩
  have hc : ¬ Routes.activeCount s.reservationService body.member_id ≥ 3 := by omega
  have hcreate := createReservation_of_valid s.reservationService now generated
    (Routes.reservationData body) r0 hnew hvalid
  have hpos := priority_pos r0 member (fee_nonneg_of_isValid hvalid)
  have hpd := new_reservationData_pickup hnew
  obtain ⟨e, he⟩ := pickupWindowEnd_ok r0.preferred_pickup_date (pickup_valid_of_isValid hvalid)
    (by rw [hpd]; exact hpick)
  have he1 : Routes.pickupWindowEnd
      (r0.calculatePriorityScore (some member)).2.preferred_pickup_date = Except.ok e := he
  have he2 : ∀ n, Routes.pickupWindowEnd
      ((r0.calculatePriorityScore (some member)).2.queue n).preferred_pickup_date =
        Except.ok e := fun _ => he
  cases hs : body.special_requests with
  | null => exact absurd hs hsr
  | undefined =>
    cases hav : book.is_available <;>
      simp only [Routes.postReservations, hm, hb, hfind, Bool.false_eq_true, if_false, if_true,
        hc, hcreate, hs, hav, he1, he2, true_and] <;>
      exact hpos
  | val v =>
    cases hav : book.is_available <;>
      simp only [Routes.postReservations, hm, hb, hfind, Bool.false_eq_true, if_false, if_true,
        hc, hcreate, hs, hav, he1, he2, true_and] <;>
      exact hpos

theorem reservation_created_witness :
    (Routes.postReservations
      (Routes.createAll Services.empty
        [Routes.CreationRequest.member { name := some "Jane Doe", age := some 30 },
          Routes.CreationRequest.book { title := some "X", author := some "Y" }])
      0 "RES-19700101-001"
      { member_id := JsId.int 1, book_id := JsId.int 1, reservation_type := some "premium"
        fee_paid := some 5, preferred_pickup_date := some (some 86400000) }).1.status = 200 ∧
    (Routes.postReservations
      (Routes.createAll Services.empty
        [Routes.CreationRequest.member { name := some "Jane Doe", age := some 30 },
          Routes.CreationRequest.book { title := some "X", author := some "Y" }])
      0 "RES-19700101-001"
      { member_id := JsId.int 1, book_id := JsId.int 1, reservation_type := some "premium"
        fee_paid := some 5, preferred_pickup_date := some (some 86400000) }).1.reservation_status = "confirmed" ∧
    0 < (Routes.postReservations
      (Routes.createAll Services.empty
        [Routes.CreationRequest.member { name := some "Jane Doe", age := some 30 },
          Routes.CreationRequest.book { title := some "X", author := some "Y" }])
      0 "RES-19700101-001"
      { member_id := JsId.int 1, book_id := JsId.int 1, reservation_type := some "premium"
        fee_paid := some 5, preferred_pickup_date := some (some 86400000) }).1.priority_score :=
  reservation_created
    (Routes.createAll Services.empty
      [Routes.CreationRequest.member { name := some "Jane Doe", age := some 30 },
        Routes.CreationRequest.book { title := some "X", author := some "Y" }])
    0 "RES-19700101-001"
    { member_id := JsId.int 1, book_id := JsId.int 1, reservation_type := some "premium"
      fee_paid := some 5, preferred_pickup_date := some (some 86400000) }
    (Member.mk (JsId.int 1) "Jane Doe" 30 false)
    (Book.new { book_id := JsId.int 1, title := some "X", author := some "Y" })
    _ rfl rfl (by decide) (by decide) rfl (by decide) (by decide)
    (fun t ht => by
      have h : t = 86400000 := by injection ht with h1; injection h1 with h2; exact h2.symm
      subst h
      decide)

/-! ## Claims on the borrow and return handlers -/

theorem updateMember_has_borrowed (s : MemberService) (id : JsId) (member : Member) (flag : Bool)
    (h : s.getMember id = some member) (hv : member.validate.isValid = true) :
    s.updateMember id { has_borrowed := some flag } =
      (Except.ok (some { member with has_borrowed := flag }),
        { s with members := JsMap.set s.members id { member with has_borrowed := flag } }) := by
  have hv' : ({ member with has_borrowed := flag } : Member).validate.isValid = true := hv
  simp only [MemberService.getMember] at h
  simp only [MemberService.updateMember, h, Member.update, Option.getD_none, Option.getD_some]
  rw [hv']
  rfl

theorem updateBook_is_available (s : BookService) (id : JsId) (book : Book) (flag : Bool)
    (h : s.getBook id = some book) (hv : book.validate.isValid = true) :
    s.updateBook id { is_available := some flag } =
      (Except.ok (some { book with is_available := flag }),
        { s with books := JsMap.set s.books id { book with is_available := flag } }) := by
  have hv' : ({ book with is_available := flag } : Book).validate.isValid = true := hv
  simp only [BookService.getBook] at h
  simp only [BookService.updateBook, h, Book.update, Option.getD_none, Option.getD_some]
  rw [hv']
  rfl

theorem borrowBook_of_free (s : TransactionService) (now : Int) (m b : JsId)
    (hm : s.hasActiveBorrow m = false) (hb : s.isBookCurrentlyBorrowed b = false)
    (hid : TransactionService.validIds m b = true) :
    s.borrowBook now m b =
      (Except.ok (s.borrowedRecord now m b),
        { transactions := JsMap.set s.transactions s.nextTransactionId (s.borrowedRecord now m b)
          nextTransactionId := s.nextTransactionId + 1 }) := by
  simp only [TransactionService.borrowBook, hm, hb, Bool.false_eq_true, if_false,
    TransactionService.createTransaction_borrow, hid, if_true]

theorem returnBook_ok_status {s : TransactionService} {now : Int} {m b : JsId} {t : Transaction}
    (h : (s.returnBook now m b).1 = Except.ok t) : t.status = "returned" := by
  unfold TransactionService.returnBook at h
  simp only at h
  split at h
  · simp at h
  · simp only [Except.ok.injEq] at h
    rw [← h]
    rfl

theorem JsMap.filter_values_set_singleton {κ α : Type} [DecidableEq κ] (p : α → Bool)
    (m : JsMap κ α) (k : κ) (t : α) (hold : ∀ x ∈ JsMap.values m, p x = false)
    (ht : p t = true) : (JsMap.values (JsMap.set m k t)).filter p = [t] := by
  induction m with
  | nil => simp [JsMap.set, JsMap.values, ht]
  | cons e rest ih =>
    have he : p e.2 = false := hold e.2 (by simp [JsMap.values])
    have hrest : ∀ x ∈ JsMap.values rest, p x = false := fun x hx =>
      hold x (by simp only [JsMap.values, List.map_cons, List.mem_cons]; exact Or.inr hx)
    have hnone : (JsMap.values rest).filter p = [] := by
      rw [List.filter_eq_nil_iff]
      intro x hx
      simp [hrest x hx]
    unfold JsMap.set
    split
    · simp only [JsMap.values, List.map_cons, List.filter_cons, ht, if_true]
      simp only [JsMap.values] at hnone
      rw [hnone]
    · simp only [JsMap.values, List.map_cons, List.filter_cons, he, Bool.false_eq_true, if_false]
      exact ih hrest

/-- The state and answer of the borrow handler when every step succeeds. -/
theorem postBorrow_success (s : Services) (now : Int) (m b : JsId) (member : Member) (book : Book)
    (hid : TransactionService.validIds m b = true)
    (hm : s.memberService.getMember m = some member) (hmv : member.validate.isValid = true)
    (hma : s.transactionService.hasActiveBorrow m = false)
    (hb : s.bookService.getBook b = some book) (hbv : book.validate.isValid = true)
    (hbb : s.transactionService.isBookCurrentlyBorrowed b = false) :
    Routes.postBorrow s now m b =
      ({ status := 200, message := ""
         transaction := some (s.transactionService.borrowedRecord now m b) },
        { memberService :=
            { s.memberService with
              members := JsMap.set s.memberService.members m { member with has_borrowed := true } }
          bookService :=
            { s.bookService with
              books := JsMap.set s.bookService.books b { book with is_available := false } }
          transactionService := (s.transactionService.borrowBook now m b).2
          reservationService := s.reservationService }) := by
  have h1 := borrowBook_of_free s.transactionService now m b hma hbb hid
  have h2 := updateMember_has_borrowed s.memberService m member true hm hmv
  have h3 := updateBook_is_available s.bookService b book false hb hbv
  simp only [Routes.postBorrow, hm, hb, h1, h2, h3]

/-- C20: with a valid member stored under the non-zero integer id `m` (has_borrowed false, no
active borrow) and a valid book stored under the non-zero integer id `b` (is_available true,
not borrowed), the borrow handler answers 200, the active transactions for (m, b) are then
exactly the one new transaction, the member's `has_borrowed` is true and the book's
`is_available` is false; a following return handler call for (m, b) answers 200 with a
transaction of status "returned" and leaves `has_borrowed` false and `is_available` true. -/
theorem borrow_then_return_handlers (s : Services) (now₁ now₂ : Int) (m b : Int)
    (member : Member) (book : Book) (hm0 : m ≠ 0) (hb0 : b ≠ 0)
    (hm : s.memberService.getMember (JsId.int m) = some member)
    (hmv : member.validate.isValid = true) (hmf : member.has_borrowed = false)
    (hma : s.transactionService.hasActiveBorrow (JsId.int m) = false)
    (hb : s.bookService.getBook (JsId.int b) = some book)
    (hbv : book.validate.isValid = true) (hbf : book.is_available = true)
    (hbb : s.transactionService.isBookCurrentlyBorrowed (JsId.int b) = false) :
    (Routes.postBorrow s now₁ (JsId.int m) (JsId.int b)).1.status = 200 ∧
    (∃ t, (Routes.postBorrow s now₁ (JsId.int m) (JsId.int b)).1.transaction = some t ∧
      t.status = "active" ∧
      (Routes.postBorrow s now₁ (JsId.int m) (JsId.int b)).2.transactionService.getActiveTransactions.filter
        (fun x => decide (x.member_id = JsId.int m) && decide (x.book_id = JsId.int b)) = [t]) ∧
    (Routes.postBorrow s now₁ (JsId.int m) (JsId.int b)).2.memberService.getMember (JsId.int m) =
      some { member with has_borrowed := true } ∧
    (Routes.postBorrow s now₁ (JsId.int m) (JsId.int b)).2.bookService.getBook (JsId.int b) =
      some { book with is_available := false } ∧
    (Routes.postReturn (Routes.postBorrow s now₁ (JsId.int m) (JsId.int b)).2 now₂
      (JsId.int m) (JsId.int b)).1.status = 200 ∧
    (∃ t, (Routes.postReturn (Routes.postBorrow s now₁ (JsId.int m) (JsId.int b)).2 now₂
        (JsId.int m) (JsId.int b)).1.transaction = some t ∧ t.status = "returned") ∧
    (Routes.postReturn (Routes.postBorrow s now₁ (JsId.int m) (JsId.int b)).2 now₂
      (JsId.int m) (JsId.int b)).2.memberService.getMember (JsId.int m) = some member ∧
    (Routes.postReturn (Routes.postBorrow s now₁ (JsId.int m) (JsId.int b)).2 now₂
      (JsId.int m) (JsId.int b)).2.bookService.getBook (JsId.int b) = some book := by
  have hid : TransactionService.validIds (JsId.int m) (JsId.int b) = true := by
    simp [TransactionService.validIds, JsId.truthy, JsId.isInteger, hm0, hb0]
  have hpost := postBorrow_success s now₁ (JsId.int m) (JsId.int b) member book hid hm hmv hma
    hb hbv hbb
  have hborrow := borrowBook_of_free s.transactionService now₁ (JsId.int m) (JsId.int b) hma hbb hid
  have hok : (s.transactionService.borrowBook now₁ (JsId.int m) (JsId.int b)).1 =
      Except.ok (s.transactionService.borrowedRecord now₁ (JsId.int m) (JsId.int b)) := by
    rw [hborrow]
  obtain ⟨⟨t', ht'⟩, _, _⟩ := TransactionService.borrow_then_return_restores s.transactionService
    now₁ now₂ (JsId.int m) (JsId.int b) _ hok
  have hst' := returnBook_ok_status ht'
  -- the member and the book as the borrow handler leaves them
  have hm1 : (Routes.postBorrow s now₁ (JsId.int m) (JsId.int b)).2.memberService.getMember
      (JsId.int m) = some { member with has_borrowed := true } := by
    rw [hpost]; exact JsMap.get_set_self _ _ _
  have hb1 : (Routes.postBorrow s now₁ (JsId.int m) (JsId.int b)).2.bookService.getBook
      (JsId.int b) = some { book with is_available := false } := by
    rw [hpost]; exact JsMap.get_set_self _ _ _
  have hts : (Routes.postBorrow s now₁ (JsId.int m) (JsId.int b)).2.transactionService =
      (s.transactionService.borrowBook now₁ (JsId.int m) (JsId.int b)).2 := by
    rw [hpost]
  have h2 := updateMember_has_borrowed
    (Routes.postBorrow s now₁ (JsId.int m) (JsId.int b)).2.memberService (JsId.int m)
    { member with has_borrowed := true } false hm1 hmv
  have h3 := updateBook_is_available
    (Routes.postBorrow s now₁ (JsId.int m) (JsId.int b)).2.bookService (JsId.int b)
    { book with is_available := false } true hb1 hbv
  have hmback : ({ ({ member with has_borrowed := true } : Member) with has_borrowed := false }
      : Member) = member := by
    cases member; simp only at hmf; subst hmf; rfl
  have hbback : ({ ({ book with is_available := false } : Book) with is_available := true }
      : Book) = book := by
    cases book; simp only at hbf; subst hbf; rfl
  rw [hmback] at h2
  rw [hbback] at h3
  have hret : Routes.postReturn (Routes.postBorrow s now₁ (JsId.int m) (JsId.int b)).2 now₂
      (JsId.int m) (JsId.int b) =
      ({ status := 200, message := "", transaction := some t' },
        { memberService :=
            { (Routes.postBorrow s now₁ (JsId.int m) (JsId.int b)).2.memberService with
              members := JsMap.set
                (Routes.postBorrow s now₁ (JsId.int m) (JsId.int b)).2.memberService.members
                (JsId.int m) member }
          bookService :=
            { (Routes.postBorrow s now₁ (JsId.int m) (JsId.int b)).2.bookService with
              books := JsMap.set
                (Routes.postBorrow s now₁ (JsId.int m) (JsId.int b)).2.bookService.books
                (JsId.int b) book }
          transactionService :=
            ((Routes.postBorrow s now₁ (JsId.int m) (JsId.int b)).2.transactionService.returnBook
              now₂ (JsId.int m) (JsId.int b)).2
          reservationService :=
            (Routes.postBorrow s now₁ (JsId.int m) (JsId.int b)).2.reservationService }) := by
    rw [← hts] at ht'
    simp only [Routes.postReturn, ht', h2, h3]
  refine ⟨by rw [hpost], ?_, hm1, hb1, by rw [hret], ⟨t', by rw [hret], hst'⟩,
    by rw [hret]; exact JsMap.get_set_self _ _ _, by rw [hret]; exact JsMap.get_set_self _ _ _⟩
  refine ⟨s.transactionService.borrowedRecord now₁ (JsId.int m) (JsId.int b), by rw [hpost], rfl, ?_⟩
  rw [hts, hborrow]
  simp only [TransactionService.getActiveTransactions, List.filter_filter]
  apply JsMap.filter_values_set_singleton
  · intro x hx
    have := (TransactionService.hasActiveBorrow_eq_false_iff s.transactionService (JsId.int m)).1
      hma x hx
    by_cases h1 : x.member_id = JsId.int m
    · simp only [h1, decide_True, Bool.and_true] at this
      simp [this]
    · simp [h1]
  · simp [TransactionService.borrowedRecord]

theorem borrow_then_return_handlers_witness :
    (Routes.postBorrow
      (Routes.createAll Services.empty
        [Routes.CreationRequest.member { name := some "John Doe", age := some 25 },
          Routes.CreationRequest.book { title := some "The Great Gatsby", author := some "F. Scott Fitzgerald" }])
      0 (JsId.int 1) (JsId.int 1)).1.status = 200 ∧
    (Routes.postReturn (Routes.postBorrow
      (Routes.createAll Services.empty
        [Routes.CreationRequest.member { name := some "John Doe", age := some 25 },
          Routes.CreationRequest.book { title := some "The Great Gatsby", author := some "F. Scott Fitzgerald" }])
      0 (JsId.int 1) (JsId.int 1)).2 1000 (JsId.int 1) (JsId.int 1)).1.status = 200 :=
  have h := borrow_then_return_handlers
    (Routes.createAll Services.empty
        [Routes.CreationRequest.member { name := some "John Doe", age := some 25 },
          Routes.CreationRequest.book { title := some "The Great Gatsby", author := some "F. Scott Fitzgerald" }])
    0 1000 1 1 (Member.mk (JsId.int 1) "John Doe" 25 false)
    (Book.new { book_id := JsId.int 1, title := some "The Great Gatsby"
                author := some "F. Scott Fitzgerald" })
    (by decide) (by decide) rfl (by decide) rfl (by decide) rfl (by decide) rfl (by decide)
  ⟨h.1, h.2.2.2.2.1⟩

/-! ## Claims on unavailable books and overdue listing -/

/-- C21 as stated fails: a book created with `is_available: false` and never borrowed is
stored with the flag false, and the borrow handler answers 200 for it and stores an active
transaction. -/
theorem borrow_ignores_is_available :
    ((Routes.createAll Services.empty
        [Routes.CreationRequest.member { name := some "John Doe", age := some 25 },
          Routes.CreationRequest.book
            { title := some "Book 1", author := some "Author 1", is_available := some false }]
      ).bookService.getBook (JsId.int 1)).map (fun book => book.is_available) = some false ∧
    (Routes.postBorrow
      (Routes.createAll Services.empty
        [Routes.CreationRequest.member { name := some "John Doe", age := some 25 },
          Routes.CreationRequest.book
            { title := some "Book 1", author := some "Author 1", is_available := some false }])
      0 (JsId.int 1) (JsId.int 1)).1.status = 200 ∧
    ((Routes.postBorrow
      (Routes.createAll Services.empty
        [Routes.CreationRequest.member { name := some "John Doe", age := some 25 },
          Routes.CreationRequest.book
            { title := some "Book 1", author := some "Author 1", is_available := some false }])
      0 (JsId.int 1) (JsId.int 1)).2.transactionService.getActiveTransactions.map
        (fun t => (t.member_id, t.book_id))) = [(JsId.int 1, JsId.int 1)] := by
  refine ⟨rfl, rfl, rfl⟩

/-- C21 amended: when the requested member and book are stored and the book has an active
transaction (`isBookCurrentlyBorrowed(book_id)` is true), the borrow handler answers 400 and
creates no transaction: the services are unchanged. -/
theorem borrow_refused_when_book_borrowed (s : Services) (now : Int) (m b : JsId)
    (member : Member) (book : Book)
    (hm : s.memberService.getMember m = some member)
    (hb : s.bookService.getBook b = some book)
    (hbb : s.transactionService.isBookCurrentlyBorrowed b = true) :
    (Routes.postBorrow s now m b).1.status = 400 ∧ (Routes.postBorrow s now m b).2 = s := by
  have hborrow : ∃ e, s.transactionService.borrowBook now m b = (Except.error e, s.transactionService) := by
    by_cases hma : s.transactionService.hasActiveBorrow m = true
    · exact ⟨"member with id: " ++ m.toStr ++ " has already borrowed a book",
        by simp [TransactionService.borrowBook, hma]⟩
    · exact ⟨"book with id: " ++ b.toStr ++ " is currently borrowed",
        by simp [TransactionService.borrowBook, hma, hbb]⟩
  obtain ⟨e, he⟩ := hborrow
  simp only [Routes.postBorrow, hm, hb, he, true_and]

theorem borrow_refused_when_book_borrowed_witness :
    (Routes.postBorrow
      (Routes.postBorrow
        (Routes.createAll Services.empty
          [Routes.CreationRequest.member { name := some "John Doe", age := some 25 },
            Routes.CreationRequest.member { name := some "Jane Doe", age := some 30 },
            Routes.CreationRequest.book { title := some "Book 1", author := some "Author 1" }])
        0 (JsId.int 1) (JsId.int 1)).2
      5 (JsId.int 2) (JsId.int 1)).1.status = 400 :=
  (borrow_refused_when_book_borrowed
    (Routes.postBorrow
      (Routes.createAll Services.empty
        [Routes.CreationRequest.member { name := some "John Doe", age := some 25 },
          Routes.CreationRequest.member { name := some "Jane Doe", age := some 30 },
          Routes.CreationRequest.book { title := some "Book 1", author := some "Author 1" }])
      0 (JsId.int 1) (JsId.int 1)).2
    5 (JsId.int 2) (JsId.int 1) (Member.mk (JsId.int 2) "Jane Doe" 30 false)
    (Book.update (Book.new { book_id := JsId.int 1, title := some "Book 1"
                             author := some "Author 1" }) { is_available := some false })
    rfl rfl (by decide)).1

/-- The outcome of a `borrowBook` call in the zone `tz` that returns: member and book were
free, the due date is the one `setDate` gives, and the record is stored under the counter. -/
theorem LocalTime.borrowBook_returns {tz : TimeZone} {s : TransactionService} {now : Int}
    {m b : JsId} {t : Transaction}
    (h : (LocalTime.TransactionService.borrowBook tz s now m b).1 = Except.ok t) :
    s.hasActiveBorrow m = false ∧ s.isBookCurrentlyBorrowed b = false ∧
    (∃ due, tz.setDatePlus now 14 = some due) ∧
    t = { transaction_id := some s.nextTransactionId
          member_id := m.orNull
          book_id := b.orNull
          status := "active"
          borrowed_at := some now
          returned_at := none
          due_date := tz.setDatePlus now 14
          fine_amount := 0
          notes := "" } ∧
    (LocalTime.TransactionService.borrowBook tz s now m b).2.transactions =
      JsMap.set s.transactions s.nextTransactionId t := by
  unfold LocalTime.TransactionService.borrowBook at h ⊢
  cases hm : s.hasActiveBorrow m with
  | true => simp [hm] at h
  | false =>
    cases hb : s.isBookCurrentlyBorrowed b with
    | true => simp [hm, hb] at h
    | false =>
      simp only [hm, hb, Bool.false_eq_true, if_false] at h ⊢
      cases hd : tz.setDatePlus now 14 with
      | none =>
        simp [LocalTime.TransactionService.createTransaction, LocalTime.Transaction.new,
          LocalTime.Transaction.calculateDueDate, toISOString, hd] at h
      | some due =>
        have hs : (if ("active" : String) = "" then "active" else "active") = "active" :=
          if_neg (by decide)
        simp only [LocalTime.TransactionService.createTransaction, LocalTime.Transaction.new,
          LocalTime.Transaction.calculateDueDate, toISOString, hd, Option.getD_none, hs] at h ⊢
        cases hv : (Transaction.mk (some s.nextTransactionId) m.orNull b.orNull "active"
            (some now) none (some due) 0 "").validate.isValid with
        | false => simp [hv] at h
        | true =>
          simp only [hv, Bool.not_true, Bool.false_eq_true, if_false, Except.ok.injEq] at h ⊢
          subst h
          exact ⟨trivial, trivial, ⟨due, rfl⟩, rfl, rfl⟩

/-- In a zone with a constant UTC offset, and more than 14 days before the end of the `Date`
range, `borrowBook` is the base `borrowBook`. -/
theorem LocalTime.borrowBook_constant_offset (tz : TimeZone) (c : Int)
    (hu : ∀ t, tz.offsetAtUtc t = c) (hl : ∀ t, tz.offsetAtLocal t = c)
    (s : TransactionService) (now : Int) (m b : JsId)
    (hnow : -maxTime ≤ now + 14 * msPerDay ∧ now + 14 * msPerDay ≤ maxTime) :
    LocalTime.TransactionService.borrowBook tz s now m b = s.borrowBook now m b := by
  have hd : tz.setDatePlus now 14 = some (now + 14 * msPerDay) := by
    simp only [TimeZone.setDatePlus, hu, hl, timeClip]
    rw [show now + c + 14 * msPerDay - c = now + 14 * msPerDay by ring]
    simp only [hnow, and_self, if_true]
  simp only [LocalTime.TransactionService.borrowBook, LibraryApi.TransactionService.borrowBook,
    LocalTime.TransactionService.createTransaction,
    LibraryApi.TransactionService.createTransaction, LocalTime.Transaction.new,
    LibraryApi.Transaction.new, LocalTime.Transaction.calculateDueDate,
    LibraryApi.Transaction.calculateDueDate, toISOString, hd, Option.getD_none]

/-- C24 as stated fails: in a process running in the zone of New York, a book borrowed on
2024-03-03 at 12:00 UTC, a week before the clocks go forward, is due 14 days less one hour
later, and `getOverdueBooks()` lists the loan at the time `borrowed_at + 14 days`. -/
theorem overdue_before_fourteen_days :
    ((LocalTime.TransactionService.borrowBook TimeZone.newYork2024 TransactionService.empty
        1709467200000 (JsId.int 1) (JsId.int 7)).2.getAllTransactions.map
      (fun t => (t.borrowed_at, t.due_date))) =
      [(some 1709467200000, some (1709467200000 + 14 * msPerDay - 3600000))] ∧
    ((LocalTime.TransactionService.borrowBook TimeZone.newYork2024 TransactionService.empty
        1709467200000 (JsId.int 1) (JsId.int 7)).2.getOverdueBooks
      (1709467200000 + 14 * msPerDay)).map (fun t => (t.member_id, t.book_id, t.status)) =
      [(JsId.int 1, JsId.int 7, "active")] := by
  decide!

/-- C24 amended: a transaction `t` that `borrowBook` creates at time `now₀` in a process with
the time zone `tz` has `borrowed_at = now₀` and the due date `setDate(getDate() + 14)` gives:
the same local wall-clock time 14 calendar days later, which is `now₀ + 14 days` when the
zone's UTC offset is the same at both times (as in UTC) and otherwise differs from it by the
change of the offset; `isOverdue()` is true exactly when the status is active and `now` is
after the due date; so no `getOverdueBooks()` call made at a time up to the due date lists
`t` (in particular a call made at the time of the borrow, when the offset changes by at most
14 days), and every call made later lists it as long as it is stored and active (as it is right
after the borrow). -/
theorem overdue_only_after_due_date (tz : TimeZone) (s : TransactionService) (now₀ : Int)
    (m b : JsId) (t : Transaction)
    (h : (LocalTime.TransactionService.borrowBook tz s now₀ m b).1 = Except.ok t) :
    t.borrowed_at = some now₀ ∧
    ∃ due : Int, t.due_date = some due ∧
      due = now₀ + tz.offsetAtUtc now₀ + 14 * msPerDay -
        tz.offsetAtLocal (now₀ + tz.offsetAtUtc now₀ + 14 * msPerDay) ∧
      (tz.offsetAtLocal (now₀ + tz.offsetAtUtc now₀ + 14 * msPerDay) = tz.offsetAtUtc now₀ →
        due = now₀ + 14 * msPerDay) ∧
      (tz.offsetAtLocal (now₀ + tz.offsetAtUtc now₀ + 14 * msPerDay) - tz.offsetAtUtc now₀ ≤
          14 * msPerDay →
        ∀ s' : TransactionService, t ∉ s'.getOverdueBooks now₀) ∧
      (∀ now : Int, t.isOverdue now = true ↔ t.status = "active" ∧ now > due) ∧
      (∀ (s' : TransactionService) (now : Int), now ≤ due → t ∉ s'.getOverdueBooks now) ∧
      (∀ (s' : TransactionService) (now : Int), now > due →
        t ∈ s'.getActiveTransactions → t ∈ s'.getOverdueBooks now) ∧
      t ∈ (LocalTime.TransactionService.borrowBook tz s now₀ m b).2.getActiveTransactions := by
  obtain ⟨_, _, ⟨due, hd⟩, ht, htr⟩ := LocalTime.borrowBook_returns h
  have hdue : t.due_date = some due := by rw [ht]; exact hd
  have hact : t.status = "active" := by rw [ht]
  have hval : due = now₀ + tz.offsetAtUtc now₀ + 14 * msPerDay -
      tz.offsetAtLocal (now₀ + tz.offsetAtUtc now₀ + 14 * msPerDay) := by
    have h2 := hd
    simp only [TimeZone.setDatePlus, timeClip] at h2
    split at h2
    · simp only [Option.some.injEq] at h2
      exact h2.symm
    · cases h2
  have hover : ∀ now : Int, t.isOverdue now = true ↔ t.status = "active" ∧ now > due := by
    intro now
    rw [isOverdue_iff, hdue]
    constructor
    · rintro ⟨hs, due', hd', hlt⟩
      simp only [Option.some.injEq] at hd'
      exact ⟨hs, by omega⟩
    · rintro ⟨hs, hlt⟩
      exact ⟨hs, _, rfl, hlt⟩
  have hnot : ∀ (s' : TransactionService) (now : Int), now ≤ due →
      t ∉ s'.getOverdueBooks now := by
    intro s' now hle hmem
    simp only [TransactionService.getOverdueBooks, List.mem_filter] at hmem
    have := ((hover now).1 hmem.2).2
    omega
  refine ⟨by rw [ht], due, hdue, hval, ?_, ?_, hover, ?_, ?_, ?_⟩
  · intro heq
    rw [hval, heq]; ring
  · intro hle s'
    exact hnot s' now₀ (by rw [hval]; omega)
  · intro s' now hle hmem
    simp only [TransactionService.getOverdueBooks, List.mem_filter] at hmem
    have := ((hover now).1 hmem.2).2
    omega
  · intro s' now hgt hmem
    simp only [TransactionService.getOverdueBooks, List.mem_filter]
    exact ⟨hmem, (hover now).2 ⟨hact, hgt⟩⟩
  · unfold TransactionService.getActiveTransactions
    rw [htr, List.mem_filter]
    exact ⟨JsMap.self_mem_values_set _ _ _, by simp [hact]⟩

theorem overdue_only_after_due_date_witness :
    (LocalTime.TransactionService.borrowBook TimeZone.newYork2024 TransactionService.empty
        1709467200000 (JsId.int 1) (JsId.int 7)).1 =
      Except.ok (Transaction.mk (some 1) (JsId.int 1) (JsId.int 7) "active"
        (some 1709467200000) none (some 1710673200000) 0 "") ∧
    ∃ due : Int, due = 1710673200000 ∧
      (Transaction.mk (some 1) (JsId.int 1) (JsId.int 7) "active" (some 1709467200000) none
        (some 1710673200000) 0 "") ∈
        (LocalTime.TransactionService.borrowBook TimeZone.newYork2024 TransactionService.empty
          1709467200000 (JsId.int 1) (JsId.int 7)).2.getOverdueBooks (due + 1) :=
  have h := overdue_only_after_due_date TimeZone.newYork2024 TransactionService.empty
    1709467200000 (JsId.int 1) (JsId.int 7)
    (Transaction.mk (some 1) (JsId.int 1) (JsId.int 7) "active" (some 1709467200000) none
      (some 1710673200000) 0 "") rfl
  ⟨rfl, by
    obtain ⟨_, due, hdue, _, _, _, _, _, hin, hact⟩ := h
    have hd : due = 1710673200000 := by
      simp only [Option.some.injEq] at hdue
      exact hdue.symm
    exact ⟨due, hd, hin _ (due + 1) (by omega) hact⟩⟩

/-! ## Claims on stored reservations -/

/-- C29, the code at the failing input: with Jane (id 1) and an available book (id 1) stored,
the reservation request is answered 200 with `reservation_status` "confirmed", and the
reservation stored under the returned id has the status "pending". -/
theorem confirmed_reservation_stored_pending :
    (Routes.postReservations
      (Routes.createAll Services.empty
        [Routes.CreationRequest.member { name := some "Jane Doe", age := some 30 },
          Routes.CreationRequest.book { title := some "Reserved Book", author := some "Test Author" }])
      0 "RES-19700101-001"
      { member_id := JsId.int 1, book_id := JsId.int 1 }).1.status = 200 ∧
    (Routes.postReservations
      (Routes.createAll Services.empty
        [Routes.CreationRequest.member { name := some "Jane Doe", age := some 30 },
          Routes.CreationRequest.book { title := some "Reserved Book", author := some "Test Author" }])
      0 "RES-19700101-001"
      { member_id := JsId.int 1, book_id := JsId.int 1 }).1.reservation_status = "confirmed" ∧
    (Routes.postReservations
      (Routes.createAll Services.empty
        [Routes.CreationRequest.member { name := some "Jane Doe", age := some 30 },
          Routes.CreationRequest.book { title := some "Reserved Book", author := some "Test Author" }])
      0 "RES-19700101-001"
      { member_id := JsId.int 1, book_id := JsId.int 1 }).1.reservation_id = "RES-19700101-001" ∧
    ((Routes.postReservations
      (Routes.createAll Services.empty
        [Routes.CreationRequest.member { name := some "Jane Doe", age := some 30 },
          Routes.CreationRequest.book { title := some "Reserved Book", author := some "Test Author" }])
      0 "RES-19700101-001"
      { member_id := JsId.int 1, book_id := JsId.int 1 }).2.reservationService.getReservation
        "RES-19700101-001").map (fun r => r.status) = some "pending" := by
  refine ⟨rfl, rfl, rfl, rfl⟩

/-- C23, the code at the failing input: with a reservation of member 1 for book 1 stored under
"RES-19700101-001", `createReservation` with the same explicit `reservation_id` for member 2
and book 3 returns without an error, and the reservation stored under that id is then the new
one. -/
theorem createReservation_replaces_existing_id :
    ((ReservationService.empty.createReservation 0 "RES-19700101-001"
        { member_id := JsId.int 1, book_id := JsId.int 1 }).2.getReservation
      "RES-19700101-001").map (fun r => (r.member_id, r.book_id)) =
      some (JsId.int 1, JsId.int 1) ∧
    (((ReservationService.empty.createReservation 0 "RES-19700101-001"
        { member_id := JsId.int 1, book_id := JsId.int 1 }).2.createReservation 5
        "RES-19700101-002"
        { reservation_id := "RES-19700101-001", member_id := JsId.int 2, book_id := JsId.int 3 }
      ).1.toOption.map (fun r => (r.reservation_id, r.member_id, r.book_id))) =
      some ("RES-19700101-001", JsId.int 2, JsId.int 3) ∧
    (((ReservationService.empty.createReservation 0 "RES-19700101-001"
        { member_id := JsId.int 1, book_id := JsId.int 1 }).2.createReservation 5
        "RES-19700101-002"
        { reservation_id := "RES-19700101-001", member_id := JsId.int 2, book_id := JsId.int 3 }
      ).2.getAllReservations.map (fun r => (r.reservation_id, r.member_id, r.book_id))) =
      [("RES-19700101-001", JsId.int 2, JsId.int 3)] := by
  refine ⟨rfl, rfl, rfl⟩

/-- C25 as stated fails: with a book (id 1) that is not available, member 1 makes a standard
reservation (score 1.45, as a double) and then member 2 a premium one (score 2.45).  `getReservationQueue(1)`
then lists member 2 before member 1, and the stored `queue_position`s along the queue are 1
and 0: they are the arrival order, under no base the index in the queue. -/
theorem queue_position_is_arrival_order :
    ((Routes.createAll Services.empty
        [Routes.CreationRequest.member { name := some "Ann Lee", age := some 30 },
          Routes.CreationRequest.member { name := some "Bob Ray", age := some 30 },
          Routes.CreationRequest.book
            { title := some "Book 1", author := some "Author 1", is_available := some false },
          Routes.CreationRequest.reservation 0 "RES-19700101-001"
            { member_id := JsId.int 1, book_id := JsId.int 1 },
          Routes.CreationRequest.reservation 0 "RES-19700101-002"
            { member_id := JsId.int 2, book_id := JsId.int 1, reservation_type := some "premium" }]
      ).reservationService.getReservationQueue (JsId.int 1)).map
        (fun r => (r.member_id, r.status, r.priority_score, r.queue_position)) =
      [(JsId.int 2, "queued", Float64.round (49 / 20), 1),
        (JsId.int 1, "queued", Float64.round (29 / 20), 0)] := by
  decide!

theorem JsMap.length_filter_values_set_swap {κ α : Type} [DecidableEq κ] (p : α → Bool)
    (m : JsMap κ α) (k : κ) (t t' : α) (ht : p t = true) (ht' : p t' = false) :
    ((JsMap.values (JsMap.set m k t)).filter p).length =
      ((JsMap.values (JsMap.set m k t')).filter p).length + 1 := by
  induction m with
  | nil => simp [JsMap.set, JsMap.values, ht, ht']
  | cons e rest ih =>
    unfold JsMap.set
    split
    · simp [JsMap.values, ht, ht']
    · simp only [JsMap.values, List.map_cons, List.filter_cons] at ih ⊢
      split
      · simp only [List.length_cons]; omega
      · exact ih

/-- The answer and the services after a request that the reservation handler accepts. -/
theorem postReservations_of_status_200 (s : Services) (now : Int) (generated : String)
    (body : Routes.ReservationBody)
    (h : (Routes.postReservations s now generated body).1.status = 200) :
    ∃ (member : Member) (book : Book) (r0 : Reservation),
      s.memberService.getMember body.member_id = some member ∧
      s.bookService.getBook body.book_id = some book ∧
      (s.reservationService.createReservation now generated (Routes.reservationData body)).1 =
        Except.ok r0 ∧
      (Routes.postReservations s now generated body).1.reservation_id = r0.reservation_id ∧
      (Routes.postReservations s now generated body).1.reservation_status =
        (if book.is_available = true then "confirmed" else "queued") ∧
      (Routes.postReservations s now generated body).1.queue_position =
        (if book.is_available = true then 0
         else (ReservationService.getReservationQueue
           { reservations := JsMap.set s.reservationService.reservations r0.reservation_id
               (r0.calculatePriorityScore (some member)).2 } body.book_id).length) ∧
      (Routes.postReservations s now generated body).2.reservationService.reservations =
        JsMap.set s.reservationService.reservations r0.reservation_id
          (if book.is_available = true then (r0.calculatePriorityScore (some member)).2
           else (r0.calculatePriorityScore (some member)).2.queue
             (ReservationService.getReservationQueue
               { reservations := JsMap.set s.reservationService.reservations r0.reservation_id
                   (r0.calculatePriorityScore (some member)).2 } body.book_id).length) := by
  unfold Routes.postReservations at h ⊢
  cases hm : s.memberService.getMember body.member_id with
  | none => simp [hm, Routes.reservationError] at h
  | some member =>
    cases hb : s.bookService.getBook body.book_id with
    | none => simp [hm, hb, Routes.reservationError] at h
    | some book =>
      simp only [hm, hb] at h ⊢
      by_cases hex : ((s.reservationService.getReservationsByMember body.member_id).find?
          (fun r => decide (r.book_id = body.book_id) &&
            ReservationService.isActiveStatus r.status)).isSome = true
      · simp [hex, Routes.reservationError] at h
      · by_cases hcount : Routes.activeCount s.reservationService body.member_id ≥ 3
        · simp [hex, hcount, Routes.reservationError] at h
        · cases hc : (s.reservationService.createReservation now generated
              (Routes.reservationData body)).1 with
          | error e => simp [hex, hcount, hc, Routes.reservationError] at h
          | ok r0 =>
            obtain ⟨_, _, hst⟩ := createReservation_ok hc
            refine ⟨member, book, r0, rfl, rfl, rfl, ?_⟩
            simp only [hex, hcount, Bool.false_eq_true, if_false, hc, hst, JsMap.set_set] at h ⊢
            cases hav : book.is_available <;>
              simp only [hav, Bool.false_eq_true, if_false, if_true] at h ⊢ <;>
              generalize Routes.pickupWindowEnd _ = pw at h ⊢ <;>
              cases pw <;> cases hsr : body.special_requests <;>
              first
                | exact ⟨rfl, rfl, rfl, rfl⟩
                | exact absurd h (by simp [hsr, Routes.reservationError])

/-- C25 amended: when the reservation handler answers 200 for a book whose `is_available` flag
is false, the reservation stored under the returned id has the status "queued" and the
`queue_position` reported in the answer, which is the number of reservations queued for the
book before it (its place in arrival order, counted from 0, whatever the priority scores):
`getReservationQueue(book)` then has `queue_position + 1` entries.  The position is not the
rank by descending `priority_score`. -/
theorem queued_position_is_queue_length (s : Services) (now : Int) (generated : String)
    (body : Routes.ReservationBody) (book : Book)
    (h200 : (Routes.postReservations s now generated body).1.status = 200)
    (hb : s.bookService.getBook body.book_id = some book) (hav : book.is_available = false) :
    ∃ r, (Routes.postReservations s now generated body).2.reservationService.getReservation
        (Routes.postReservations s now generated body).1.reservation_id = some r ∧
      r.status = "queued" ∧
      r.queue_position = (Routes.postReservations s now generated body).1.queue_position ∧
      ((Routes.postReservations s now generated body).2.reservationService.getReservationQueue
        body.book_id).length = r.queue_position + 1 := by
  obtain ⟨member, book', r0, hm, hb', hc, hid, _, hpos, hst⟩ :=
    postReservations_of_status_200 s now generated body h200
  rw [hb] at hb'
  simp only [Option.some.injEq] at hb'
  subst hb'
  simp only [hav, Bool.false_eq_true, if_false] at hpos hst
  obtain ⟨hnew, hvalid, _⟩ := createReservation_ok hc
  obtain ⟨_, hbid, hstatus, _⟩ := new_reservationData hnew
  obtain ⟨_, htb⟩ := validate_ids_of_isValid hvalid
  rw [hbid, JsId.orNull_truthy] at htb
  rw [JsId.orNull_of_truthy _ htb] at hbid
  refine ⟨(r0.calculatePriorityScore (some member)).2.queue
    (ReservationService.getReservationQueue
      { reservations := JsMap.set s.reservationService.reservations r0.reservation_id
          (r0.calculatePriorityScore (some member)).2 } body.book_id).length, ?_, ?_, ?_, ?_⟩
  · simp only [ReservationService.getReservation]
    rw [hst, hid]
    exact JsMap.get_set_self _ _ _
  · rfl
  · rw [hpos]; rfl
  · simp only [ReservationService.getReservationQueue, ReservationService.getReservationsByBook,
      List.length_insertionSort, List.filter_filter]
    rw [hst]
    simp only [Reservation.queue]
    exact JsMap.length_filter_values_set_swap _ _ _ _ _
      (by simp [hbid, Reservation.calculatePriorityScore])
      (by simp [hstatus, Reservation.calculatePriorityScore])

theorem queued_position_is_queue_length_witness :
    ∃ r, (Routes.postReservations
        (Routes.createAll Services.empty
          [Routes.CreationRequest.member { name := some "Ann Lee", age := some 30 },
            Routes.CreationRequest.book
              { title := some "Book 1", author := some "Author 1", is_available := some false }])
        0 "RES-19700101-001"
        { member_id := JsId.int 1, book_id := JsId.int 1 }).2.reservationService.getReservation
        (Routes.postReservations
          (Routes.createAll Services.empty
            [Routes.CreationRequest.member { name := some "Ann Lee", age := some 30 },
              Routes.CreationRequest.book
                { title := some "Book 1", author := some "Author 1", is_available := some false }])
          0 "RES-19700101-001"
          { member_id := JsId.int 1, book_id := JsId.int 1 }).1.reservation_id = some r ∧
      r.status = "queued" ∧
      r.queue_position = (Routes.postReservations
        (Routes.createAll Services.empty
          [Routes.CreationRequest.member { name := some "Ann Lee", age := some 30 },
            Routes.CreationRequest.book
              { title := some "Book 1", author := some "Author 1", is_available := some false }])
        0 "RES-19700101-001"
        { member_id := JsId.int 1, book_id := JsId.int 1 }).1.queue_position ∧
      ((Routes.postReservations
        (Routes.createAll Services.empty
          [Routes.CreationRequest.member { name := some "Ann Lee", age := some 30 },
            Routes.CreationRequest.book
              { title := some "Book 1", author := some "Author 1", is_available := some false }])
        0 "RES-19700101-001"
        { member_id := JsId.int 1, book_id := JsId.int 1 }).2.reservationService.getReservationQueue
          (JsId.int 1)).length = r.queue_position + 1 :=
  queued_position_is_queue_length
    (Routes.createAll Services.empty
      [Routes.CreationRequest.member { name := some "Ann Lee", age := some 30 },
        Routes.CreationRequest.book
          { title := some "Book 1", author := some "Author 1", is_available := some false }])
    0 "RES-19700101-001" { member_id := JsId.int 1, book_id := JsId.int 1 }
    (Book.new { book_id := JsId.int 1, title := some "Book 1", author := some "Author 1"
                is_available := some false })
    rfl rfl rfl

/-! ## Claims on transaction ids -/

/-- Setting a key that is larger than every stored key appends the entry. -/
theorem JsMap.set_fresh {α : Type} (m : JsMap Nat α) (k : Nat) (v : α)
    (h : ∀ e ∈ m, e.1 < k) : JsMap.set m k v = m ++ [(k, v)] := by
  induction m with
  | nil => rfl
  | cons e rest ih =>
    have he : e.1 ≠ k := Nat.ne_of_lt (h e (List.mem_cons_self _ _))
    simp only [JsMap.set, he, if_false, List.cons_append]
    rw [ih (fun x hx => h x (List.mem_cons_of_mem _ hx))]

/-- In-place mutation keeps the keys. -/
theorem JsMap.map_fst_mutateFirst {κ α : Type} (p : α → Bool) (f : α → α) (m : JsMap κ α) :
    (JsMap.mutateFirst p f m).map Prod.fst = m.map Prod.fst := by
  induction m with
  | nil => rfl
  | cons e rest ih =>
    simp only [JsMap.mutateFirst]
    split
    · rfl
    · simp only [List.map_cons, ih]

/-- An entry after in-place mutation is an old entry or the image of one. -/
theorem JsMap.mem_mutateFirst {κ α : Type} (p : α → Bool) (f : α → α) (m : JsMap κ α)
    (e : κ × α) (h : e ∈ JsMap.mutateFirst p f m) :
    e ∈ m ∨ ∃ e0 ∈ m, e = (e0.1, f e0.2) := by
  induction m with
  | nil => exact absurd h (List.not_mem_nil _)
  | cons x rest ih =>
    simp only [JsMap.mutateFirst] at h
    split at h
    · rcases List.mem_cons.1 h with h1 | h1
      · exact Or.inr ⟨x, List.mem_cons_self _ _, h1⟩
      · exact Or.inl (List.mem_cons_of_mem _ h1)
    · rcases List.mem_cons.1 h with h1 | h1
      · exact Or.inl (h1 ▸ List.mem_cons_self _ _)
      · rcases ih h1 with h2 | ⟨e0, h2, h3⟩
        · exact Or.inl (List.mem_cons_of_mem _ h2)
        · exact Or.inr ⟨e0, List.mem_cons_of_mem _ h2, h3⟩

/-- The outcomes of `createTransaction`: an early throw of the constructor, a validation
failure that only advances the counter, or a stored transaction under the counter value. -/
theorem TransactionService.createTransaction_cases (s : TransactionService) (now : Int)
    (data : TransactionData) :
    (∃ msg, s.createTransaction now data = (Except.error msg, s)) ∨
    (∃ msg, s.createTransaction now data =
      (Except.error msg, { s with nextTransactionId := s.nextTransactionId + 1 })) ∨
    (∃ t, t.transaction_id = some s.nextTransactionId ∧ s.createTransaction now data =
      (Except.ok t, { transactions := JsMap.set s.transactions s.nextTransactionId t
                      nextTransactionId := s.nextTransactionId + 1 })) := by
  unfold TransactionService.createTransaction
  cases hnew : Transaction.new now data with
  | error e => exact Or.inl ⟨e, rfl⟩
  | ok t0 =>
    simp only []
    split
    · exact Or.inr (Or.inl ⟨_, rfl⟩)
    · exact Or.inr (Or.inr ⟨_, rfl, rfl⟩)

/-- The id invariant survives `createTransaction`. -/
theorem TransactionService.idsSequenced_createTransaction (s : TransactionService) (now : Int)
    (data : TransactionData) (h : s.IdsSequenced) :
    (s.createTransaction now data).2.IdsSequenced := by
  obtain ⟨hpos, hmem, hsorted⟩ := h
  rcases s.createTransaction_cases now data with ⟨msg, hc⟩ | ⟨msg, hc⟩ | ⟨t, ht, hc⟩
  · rw [hc]; exact ⟨hpos, hmem, hsorted⟩
  · rw [hc]
    exact ⟨Nat.succ_pos _,
      fun e he => ⟨(hmem e he).1, (hmem e he).2.1, Nat.lt_succ_of_lt (hmem e he).2.2⟩, hsorted⟩
  · rw [hc]
    have hfresh : ∀ e ∈ s.transactions, e.1 < s.nextTransactionId := fun e he => (hmem e he).2.2
    refine ⟨Nat.succ_pos _, ?_, ?_⟩
    · intro e he
      simp only [JsMap.set_fresh _ _ _ hfresh, List.mem_append, List.mem_singleton] at he
      rcases he with he | he
      · exact ⟨(hmem e he).1, (hmem e he).2.1, Nat.lt_succ_of_lt (hmem e he).2.2⟩
      · subst he
        exact ⟨ht, hpos, Nat.lt_succ_self _⟩
    · simp only [JsMap.set_fresh _ _ _ hfresh, List.map_append, List.map_cons, List.map_nil]
      rw [List.pairwise_append]
      refine ⟨hsorted, List.pairwise_singleton _ _, ?_⟩
      intro a ha b hb
      rw [List.mem_singleton] at hb
      subst hb
      obtain ⟨e, he, rfl⟩ := List.mem_map.1 ha
      exact hfresh e he

/-- The id invariant survives `borrowBook`. -/
theorem TransactionService.idsSequenced_borrowBook (s : TransactionService) (now : Int)
    (m b : JsId) (h : s.IdsSequenced) : (s.borrowBook now m b).2.IdsSequenced := by
  unfold TransactionService.borrowBook
  split
  · exact h
  · split
    · exact h
    · exact s.idsSequenced_createTransaction now _ h

/-- The id invariant survives `returnBook`. -/
theorem TransactionService.idsSequenced_returnBook (s : TransactionService) (now : Int)
    (m b : JsId) (h : s.IdsSequenced) : (s.returnBook now m b).2.IdsSequenced := by
  obtain ⟨hpos, hmem, hsorted⟩ := h
  unfold TransactionService.returnBook
  simp only []
  split
  · exact ⟨hpos, hmem, hsorted⟩
  · refine ⟨hpos, ?_, ?_⟩
    · intro e he
      rcases JsMap.mem_mutateFirst _ _ _ e he with h1 | ⟨e0, h1, h2⟩
      · exact hmem e h1
      · subst h2
        exact hmem e0 h1
    · simp only [JsMap.map_fst_mutateFirst]
      exact hsorted

/-- The id invariant holds in every state the calls reach from a state that has it. -/
theorem TransactionService.idsSequenced_runCalls (calls : List TransactionService.ServiceCall)
    (s : TransactionService) (h : s.IdsSequenced) :
    (TransactionService.runCalls s calls).IdsSequenced := by
  induction calls generalizing s with
  | nil => exact h
  | cons c rest ih =>
    apply ih
    cases c with
    | create now data => exact s.idsSequenced_createTransaction now data h
    | borrow now m b => exact s.idsSequenced_borrowBook now m b h
    | giveBack now m b => exact s.idsSequenced_returnBook now m b h

/-- An explicit `transaction_id` in the input of `createTransaction` is overwritten. -/
theorem TransactionService.createTransaction_ignores_id (s : TransactionService) (now : Int)
    (data : TransactionData) :
    s.createTransaction now data = s.createTransaction now { data with transaction_id := none } := by
  unfold TransactionService.createTransaction Transaction.new
  simp only []
  cases hd : data.due_date with
  | some d => rfl
  | none =>
    cases hb : Transaction.calculateDueDate (data.borrowed_at.getD (some now)) with
    | error e => rfl
    | ok d => rfl

/-- C28: in every state reached from the empty service by `createTransaction`, `borrowBook`
and `returnBook` calls, each stored transaction sits under its own `transaction_id`, a
positive integer below `nextTransactionId`; the keys strictly increase along the insertion
order, hence are pairwise distinct; and a further `createTransaction` ignores an explicit
`transaction_id` of its input, leaves the map as it is when it throws, and appends the new
transaction under the id `nextTransactionId` when it returns. -/
theorem transaction_ids_sequenced (calls : List TransactionService.ServiceCall) :
    (∀ e ∈ (TransactionService.runCalls TransactionService.empty calls).transactions,
      e.2.transaction_id = some e.1 ∧ 0 < e.1 ∧
        e.1 < (TransactionService.runCalls TransactionService.empty calls).nextTransactionId) ∧
    ((TransactionService.runCalls TransactionService.empty calls).transactions.map
      Prod.fst).Pairwise (fun a b => a < b) ∧
    ((TransactionService.runCalls TransactionService.empty calls).transactions.map
      Prod.fst).Nodup ∧
    ∀ (now : Int) (data : TransactionData),
      (TransactionService.runCalls TransactionService.empty calls).createTransaction now data =
        (TransactionService.runCalls TransactionService.empty calls).createTransaction now
          { data with transaction_id := none } ∧
      (∀ msg, ((TransactionService.runCalls TransactionService.empty calls).createTransaction
          now data).1 = Except.error msg →
        ((TransactionService.runCalls TransactionService.empty calls).createTransaction
          now data).2.transactions =
          (TransactionService.runCalls TransactionService.empty calls).transactions) ∧
      (∀ t, ((TransactionService.runCalls TransactionService.empty calls).createTransaction
          now data).1 = Except.ok t →
        t.transaction_id =
          some (TransactionService.runCalls TransactionService.empty calls).nextTransactionId ∧
        ((TransactionService.runCalls TransactionService.empty calls).createTransaction
          now data).2.transactions =
          (TransactionService.runCalls TransactionService.empty calls).transactions ++
            [((TransactionService.runCalls TransactionService.empty calls).nextTransactionId,
              t)]) := by
  have hinv : (TransactionService.runCalls TransactionService.empty calls).IdsSequenced :=
    TransactionService.idsSequenced_runCalls calls TransactionService.empty
      ⟨Nat.one_pos, fun e he => absurd he (List.not_mem_nil _), List.Pairwise.nil⟩
  generalize TransactionService.runCalls TransactionService.empty calls = s at hinv ⊢
  obtain ⟨hpos, hmem, hsorted⟩ := hinv
  refine ⟨hmem, hsorted, ?_, ?_⟩
  · exact (hsorted.imp (fun h => Nat.ne_of_lt h))
  · intro now data
    refine ⟨s.createTransaction_ignores_id now data, ?_, ?_⟩
    · intro msg h
      rcases s.createTransaction_cases now data with ⟨m, hc⟩ | ⟨m, hc⟩ | ⟨t, _, hc⟩
      · rw [hc]
      · rw [hc]
      · rw [hc] at h; cases h
    · intro t h
      rcases s.createTransaction_cases now data with ⟨m, hc⟩ | ⟨m, hc⟩ | ⟨t0, ht0, hc⟩
      · rw [hc] at h; cases h
      · rw [hc] at h; cases h
      · rw [hc] at h ⊢
        cases h
        exact ⟨ht0, JsMap.set_fresh _ _ _ (fun e he => (hmem e he).2.2)⟩

/-- C28 at a concrete run: a creation with the explicit id 7, a creation that fails
validation, and a borrow leave the transactions 1 and 3 stored, in that order. -/
theorem transaction_ids_sequenced_witness :
    (TransactionService.runCalls TransactionService.empty
      [TransactionService.ServiceCall.create 0
        { transaction_id := some 7, member_id := JsId.int 1, book_id := JsId.int 1 },
       TransactionService.ServiceCall.create 0 { member_id := JsId.int 2 },
       TransactionService.ServiceCall.borrow 5 (JsId.int 2) (JsId.int 2)]).transactions.map
      (fun e => (e.1, e.2.transaction_id)) = [(1, some 1), (3, some 3)] ∧
    ((TransactionService.runCalls TransactionService.empty
      [TransactionService.ServiceCall.create 0
        { transaction_id := some 7, member_id := JsId.int 1, book_id := JsId.int 1 },
       TransactionService.ServiceCall.create 0 { member_id := JsId.int 2 },
       TransactionService.ServiceCall.borrow 5 (JsId.int 2) (JsId.int 2)]).transactions.map
      Prod.fst).Pairwise (fun a b => a < b) :=
  ⟨by decide, (transaction_ids_sequenced _).2.1⟩

/-! ## Claims on search and pagination -/

/-- C22: a `max_rating` of 0 is not applied.  On a store holding one book rated 4.5,
`searchBooks(undefined, { max_rating: 0 })` returns that book, whose rating is above the
bound; with the bound 1 the same book is filtered out. -/
theorem searchBooks_ignores_zero_max_rating :
    ((BookService.empty.createBook
        { title := some "Dune", author := some "Frank Herbert", rating := some (9 / 2) }).2.searchBooks
      none { max_rating := some 0 }).map (fun book => (book.book_id, book.title, book.rating)) =
      [(JsId.int 1, "Dune", 9 / 2)] ∧
    ¬ ((9 / 2 : ℚ) ≤ 0) ∧
    (BookService.empty.createBook
        { title := some "Dune", author := some "Frank Herbert", rating := some (9 / 2) }).2.searchBooks
      none { max_rating := some 1 } = [] := by
  decide!

/-- C30: with `page` and `limit` as query strings, `startIndex + limit` is a string
concatenation.  On 25 results, page "2" with limit "10" gives the 15 results from index 10
on, not the 10 results the numeric values 2 and 10 give; `total_pages` is 3 in both cases. -/
theorem paginate_string_limit_exceeds_limit :
    (Routes.paginate (List.range 25) (QueryValue.str "2") (QueryValue.str "10")).books =
      [10, 11, 12, 13, 14, 15, 16, 17, 18, 19, 20, 21, 22, 23, 24] ∧
    (Routes.paginate (List.range 25) (QueryValue.str "2") (QueryValue.str "10")).total_pages =
      some 3 ∧
    jsAdd (some 10) (QueryValue.str "10") = NumberOrString.str "1010" ∧
    (Routes.paginate (List.range 25) (QueryValue.num 2) (QueryValue.num 10)).books =
      [10, 11, 12, 13, 14, 15, 16, 17, 18, 19] := by
  decide!

/-! ## Claims on compound operations -/

/-- C26: a state reached through the member and book handlers in which a borrow request is
answered 400 after its transaction has been stored.  A member and a book are created, a
`PUT` with age 10 is answered 400 but leaves the age stored; the borrow request for member 1
and book 1 then stores an active transaction, fails in the member update and is answered
400, with the book still flagged available. -/
theorem borrow_rejected_after_transaction_stored :
    ∃ (requests : List Routes.Request) (now : Int) (member_id book_id : JsId),
      (Routes.postBorrow (Routes.handleAll Services.empty requests) now member_id book_id).1.status
        = 400 ∧
      (Routes.handleAll Services.empty requests).transactionService.transactions = [] ∧
      (∃ t ∈ (Routes.postBorrow (Routes.handleAll Services.empty requests) now member_id
          book_id).2.transactionService.getActiveTransactions,
        t.member_id = member_id ∧ t.book_id = book_id) ∧
      ((Routes.postBorrow (Routes.handleAll Services.empty requests) now member_id
          book_id).2.bookService.getBook book_id).map (fun book => book.is_available) =
        some true :=
  ⟨[Routes.Request.postMember { name := some "John Doe", age := some 25 },
    Routes.Request.postBook { title := some "Dune", author := some "Frank Herbert" },
    Routes.Request.putMember 1 { age := some 10 }],
   0, JsId.int 1, JsId.int 1, by decide!⟩

/-! ## Claims on flag consistency -/

/-- The first active entry that `q` selects is the one in-place mutation takes out of the
active entries. -/
theorem JsMap.filter_values_mutateFirst_split {κ α : Type} (act q : α → Bool) (f : α → α)
    (hf : ∀ x, act (f x) = false) (m : JsMap κ α) (t : α)
    (ht : ((JsMap.values m).filter act).find? q = some t) :
    ∃ l1 l2, (JsMap.values m).filter act = l1 ++ t :: l2 ∧
      (JsMap.values (JsMap.mutateFirst (fun x => act x && q x) f m)).filter act = l1 ++ l2 ∧
      q t = true := by
  induction m with
  | nil => simp [JsMap.values] at ht
  | cons e rest ih =>
    simp only [JsMap.values, List.map_cons] at ht ih ⊢
    cases hact : act e.2 with
    | false =>
      simp only [List.filter_cons, hact, Bool.false_eq_true, if_false] at ht
      obtain ⟨l1, l2, h1, h2, h3⟩ := ih ht
      refine ⟨l1, l2, ?_, ?_, h3⟩
      · simp only [List.filter_cons, hact, Bool.false_eq_true, if_false]
        exact h1
      · simp only [JsMap.mutateFirst, hact, Bool.false_and, Bool.false_eq_true, if_false,
          List.map_cons, List.filter_cons]
        exact h2
    | true =>
      simp only [List.filter_cons, hact, if_true] at ht
      cases hq : q e.2 with
      | true =>
        simp only [List.find?_cons, hq, Option.some.injEq] at ht
        subst ht
        refine ⟨[], (rest.map Prod.snd).filter act, ?_, ?_, hq⟩
        · simp only [List.filter_cons, hact, if_true, List.nil_append]
        · simp only [JsMap.mutateFirst, hact, hq, Bool.and_self, if_true, List.map_cons,
            List.filter_cons, hf, Bool.false_eq_true, if_false, List.nil_append]
      | false =>
        simp only [List.find?_cons, hq] at ht
        obtain ⟨l1, l2, h1, h2, h3⟩ := ih ht
        refine ⟨e.2 :: l1, l2, ?_, ?_, h3⟩
        · simp only [List.filter_cons, hact, if_true, List.cons_append, h1]
        · simp only [JsMap.mutateFirst, hact, hq, Bool.and_false, Bool.false_eq_true, if_false,
            List.map_cons, List.filter_cons, if_true, List.cons_append, h2]

/-- The outcomes of `borrowBook`: a throw that leaves the service as it is, a validation
failure that only advances the counter, or a stored record for a free member and book. -/
theorem TransactionService.borrowBook_cases (s : TransactionService) (now : Int) (m b : JsId) :
    (∃ msg, s.borrowBook now m b = (Except.error msg, s)) ∨
    (∃ msg, s.borrowBook now m b =
      (Except.error msg,
        { transactions := s.transactions, nextTransactionId := s.nextTransactionId + 1 })) ∨
    (s.hasActiveBorrow m = false ∧ s.isBookCurrentlyBorrowed b = false ∧
      TransactionService.validIds m b = true) := by
  cases hm : s.hasActiveBorrow m with
  | true =>
    exact Or.inl ⟨"member with id: " ++ m.toStr ++ " has already borrowed a book", by
      simp only [TransactionService.borrowBook, hm, if_true]⟩
  | false =>
    cases hb : s.isBookCurrentlyBorrowed b with
    | true =>
      exact Or.inl ⟨"book with id: " ++ b.toStr ++ " is currently borrowed", by
        simp only [TransactionService.borrowBook, hm, hb, if_true, Bool.false_eq_true, if_false]⟩
    | false =>
      cases hid : TransactionService.validIds m b with
      | true => exact Or.inr (Or.inr ⟨rfl, rfl, rfl⟩)
      | false =>
        exact Or.inr (Or.inl ⟨"Validation failed: " ++
            joinErrors (s.borrowedRecord now m.orNull b.orNull).validate.errors, by
          simp only [TransactionService.borrowBook, hm, hb, Bool.false_eq_true, if_false,
            TransactionService.createTransaction_borrow, hid]⟩)

/-- The outcomes of `returnBook`: a throw that leaves the service as it is, or one active
transaction of the member and book taken out of the active ones, keys and counter kept. -/
theorem TransactionService.returnBook_cases (s : TransactionService) (now : Int) (m b : JsId) :
    (∃ msg, s.returnBook now m b = (Except.error msg, s)) ∨
    (∃ t t0 l1 l2, (s.returnBook now m b).1 = Except.ok t ∧
      (s.returnBook now m b).2.nextTransactionId = s.nextTransactionId ∧
      (s.returnBook now m b).2.transactions.map Prod.fst = s.transactions.map Prod.fst ∧
      t0.member_id = m ∧ t0.book_id = b ∧
      s.getActiveTransactions = l1 ++ t0 :: l2 ∧
      (s.returnBook now m b).2.getActiveTransactions = l1 ++ l2) := by
  cases hfind : s.getActiveTransactions.find?
      (fun t => decide (t.member_id = m) && decide (t.book_id = b)) with
  | none =>
    exact Or.inl ⟨"member with id: " ++ m.toStr ++ " has not borrowed book with id: " ++ b.toStr,
      by simp only [TransactionService.returnBook, hfind]⟩
  | some t0 =>
    have hsplit := JsMap.filter_values_mutateFirst_split
      (fun t : Transaction => decide (t.status = "active"))
      (fun t => decide (t.member_id = m) && decide (t.book_id = b))
      (fun t => Transaction.«return» t now) (fun x => by simp [Transaction.«return»])
      s.transactions t0 hfind
    obtain ⟨l1, l2, h1, h2, h3⟩ := hsplit
    simp only [Bool.and_eq_true, decide_eq_true_eq] at h3
    refine Or.inr ⟨Transaction.«return» t0 now, t0, l1, l2, ?_, ?_, ?_, h3.1, h3.2, h1, ?_⟩
    · simp only [TransactionService.returnBook, hfind]
    · simp only [TransactionService.returnBook, hfind]
    · simp only [TransactionService.returnBook, hfind, JsMap.map_fst_mutateFirst]
    · have hfind0 := hfind
      simp only [TransactionService.getActiveTransactions] at hfind0
      simp only [TransactionService.returnBook, TransactionService.getActiveTransactions, hfind0]
      exact h2

/-- Taking one entry out of a list does not raise a count. -/
theorem length_filter_remove_le {α : Type} (p : α → Bool) (l1 l2 : List α) (t : α) :
    ((l1 ++ l2).filter p).length ≤ ((l1 ++ t :: l2).filter p).length := by
  simp only [List.filter_append, List.filter_cons, List.length_append]
  split
  · simp only [List.length_cons]; omega
  · exact Nat.le_refl _

/-- Taking out the only entry that satisfies `p` leaves none. -/
theorem any_remove_of_length_le_one {α : Type} (p : α → Bool) (l1 l2 : List α) (t : α)
    (hp : p t = true) (h : ((l1 ++ t :: l2).filter p).length ≤ 1) :
    (l1 ++ l2).any p = false := by
  simp only [List.filter_append, List.filter_cons, hp, if_true, List.length_append,
    List.length_cons] at h
  have h1 : (l1.filter p).length = 0 := by omega
  have h2 : (l2.filter p).length = 0 := by omega
  rw [List.length_eq_zero, List.filter_eq_nil_iff] at h1 h2
  rw [List.any_eq_false]
  intro x hx
  rcases List.mem_append.1 hx with hx | hx
  · exact h1 x hx
  · exact h2 x hx

/-- Taking out an entry that does not satisfy `p` keeps `any p`. -/
theorem any_remove_of_not {α : Type} (p : α → Bool) (l1 l2 : List α) (t : α)
    (hp : p t = false) : (l1 ++ l2).any p = (l1 ++ t :: l2).any p := by
  simp only [List.any_append, List.any_cons, hp, Bool.false_or]

/-- The lookups after `updateMember(id, { has_borrowed })` on a store of valid members: the
call returns, and only the flag of the member under `id` is changed. -/
theorem updateMember_flag_lookup (s : MemberService) (id : JsId) (flag : Bool)
    (hv : ∀ k member, s.getMember k = some member → member.validate.isValid = true) :
    (∃ r, (s.updateMember id { has_borrowed := some flag }).1 = Except.ok r) ∧
    ∀ k, (s.updateMember id { has_borrowed := some flag }).2.getMember k =
      (s.getMember k).map (fun mb => if k = id then { mb with has_borrowed := flag } else mb) := by
  cases h : s.getMember id with
  | none =>
    have hu : s.updateMember id { has_borrowed := some flag } = (Except.ok none, s) := by
      simp only [MemberService.getMember] at h
      simp only [MemberService.updateMember, h]
    rw [hu]
    refine ⟨⟨none, rfl⟩, fun k => ?_⟩
    by_cases hk : k = id
    · subst hk; simp only [h, Option.map_none']
    · simp only [hk, if_false, Option.map_id']
  | some member =>
    rw [updateMember_has_borrowed s id member flag h (hv id member h)]
    refine ⟨⟨_, rfl⟩, fun k => ?_⟩
    by_cases hk : k = id
    · subst hk
      simp only [MemberService.getMember, JsMap.get_set_self, if_true]
      simp only [MemberService.getMember] at h
      simp only [h, Option.map_some']
    · simp only [MemberService.getMember, JsMap.get_set_ne _ _ _ _ hk, hk, if_false,
        Option.map_id']

/-- The lookups after `updateBook(id, { is_available })` on a store of valid books: the call
returns, and only the flag of the book under `id` is changed. -/
theorem updateBook_flag_lookup (s : BookService) (id : JsId) (flag : Bool)
    (hv : ∀ k book, s.getBook k = some book → book.validate.isValid = true) :
    (∃ r, (s.updateBook id { is_available := some flag }).1 = Except.ok r) ∧
    ∀ k, (s.updateBook id { is_available := some flag }).2.getBook k =
      (s.getBook k).map (fun bk => if k = id then { bk with is_available := flag } else bk) := by
  cases h : s.getBook id with
  | none =>
    have hu : s.updateBook id { is_available := some flag } = (Except.ok none, s) := by
      simp only [BookService.getBook] at h
      simp only [BookService.updateBook, h]
    rw [hu]
    refine ⟨⟨none, rfl⟩, fun k => ?_⟩
    by_cases hk : k = id
    · subst hk; simp only [h, Option.map_none']
    · simp only [hk, if_false, Option.map_id']
  | some book =>
    rw [updateBook_is_available s id book flag h (hv id book h)]
    refine ⟨⟨_, rfl⟩, fun k => ?_⟩
    by_cases hk : k = id
    · subst hk
      simp only [BookService.getBook, JsMap.get_set_self, if_true]
      simp only [BookService.getBook] at h
      simp only [h, Option.map_some']
    · simp only [BookService.getBook, JsMap.get_set_ne _ _ _ _ hk, hk, if_false,
        Option.map_id']

/-- The two properties carry over to a state in which one member flag and one book flag were
set and the active transactions changed in step with them. -/
theorem flags_frame (s s' : Services) (m b : JsId) (fm fb : Bool)
    (hw : Routes.WellKeyed s) (h : Routes.FlagsConsistent s)
    (hmem : ∀ k, s'.memberService.getMember k =
      (s.memberService.getMember k).map
        (fun mb => if k = m then { mb with has_borrowed := fm } else mb))
    (hbook : ∀ k, s'.bookService.getBook k =
      (s.bookService.getBook k).map
        (fun bk => if k = b then { bk with is_available := fb } else bk))
    (hkeys : ∀ e ∈ s'.transactionService.transactions,
      e.1 < s'.transactionService.nextTransactionId)
    (hcm : ∀ x, (s.transactionService.getActiveTransactions.filter
        (fun t => decide (t.member_id = x))).length ≤ 1 →
      (s'.transactionService.getActiveTransactions.filter
        (fun t => decide (t.member_id = x))).length ≤ 1)
    (hcb : ∀ x, (s.transactionService.getActiveTransactions.filter
        (fun t => decide (t.book_id = x))).length ≤ 1 →
      (s'.transactionService.getActiveTransactions.filter
        (fun t => decide (t.book_id = x))).length ≤ 1)
    (ham : ∀ x, x ≠ m →
      s'.transactionService.hasActiveBorrow x = s.transactionService.hasActiveBorrow x)
    (ham' : (s.transactionService.getActiveTransactions.filter
        (fun t => decide (t.member_id = m))).length ≤ 1 →
      s'.transactionService.hasActiveBorrow m = fm)
    (hab : ∀ x, x ≠ b →
      s'.transactionService.isBookCurrentlyBorrowed x =
        s.transactionService.isBookCurrentlyBorrowed x)
    (hab' : (s.transactionService.getActiveTransactions.filter
        (fun t => decide (t.book_id = b))).length ≤ 1 →
      s'.transactionService.isBookCurrentlyBorrowed b = !fb) :
    Routes.WellKeyed s' ∧ Routes.FlagsConsistent s' := by
  obtain ⟨hwm, hwb, _⟩ := hw
  obtain ⟨hfm, hfb⟩ := h
  have memberOf : ∀ k member, s'.memberService.getMember k = some member →
      ∃ mb, s.memberService.getMember k = some mb ∧
        member = (if k = m then { mb with has_borrowed := fm } else mb) := by
    intro k member hk
    rw [hmem k] at hk
    cases hg : s.memberService.getMember k with
    | none => rw [hg] at hk; cases hk
    | some mb =>
      rw [hg] at hk
      simp only [Option.map_some', Option.some.injEq] at hk
      exact ⟨mb, rfl, hk.symm⟩
  have bookOf : ∀ k book, s'.bookService.getBook k = some book →
      ∃ bk, s.bookService.getBook k = some bk ∧
        book = (if k = b then { bk with is_available := fb } else bk) := by
    intro k book hk
    rw [hbook k] at hk
    cases hg : s.bookService.getBook k with
    | none => rw [hg] at hk; cases hk
    | some bk =>
      rw [hg] at hk
      simp only [Option.map_some', Option.some.injEq] at hk
      exact ⟨bk, rfl, hk.symm⟩
  refine ⟨⟨?_, ?_, hkeys⟩, ?_, ?_⟩
  · intro k member hk
    obtain ⟨mb, hg, rfl⟩ := memberOf k member hk
    have := hwm k mb hg
    split <;> exact this
  · intro k book hk
    obtain ⟨bk, hg, rfl⟩ := bookOf k book hk
    have := hwb k bk hg
    split <;> exact this
  · intro k member hk
    obtain ⟨mb, hg, rfl⟩ := memberOf k member hk
    obtain ⟨hvalid, hcount, hflag⟩ := hfm k mb hg
    have hid := hwm k mb hg
    by_cases hkm : k = m
    · simp only [hkm, if_true]
      rw [hid, hkm] at hcount
      rw [hid, hkm] at hflag
      refine ⟨hvalid, ?_, ?_⟩
      · show (List.filter (fun t : Transaction => decide (t.member_id = mb.member_id)) _).length ≤ 1
        rw [hid, hkm]; exact hcm m hcount
      · show fm = s'.transactionService.hasActiveBorrow mb.member_id
        rw [hid, hkm]; exact (ham' hcount).symm
    · simp only [hkm, if_false]
      refine ⟨hvalid, hcm _ hcount, ?_⟩
      rw [hflag, ham]
      rw [hid]; exact hkm
  · intro k book hk
    obtain ⟨bk, hg, rfl⟩ := bookOf k book hk
    obtain ⟨hvalid, hcount, hflag⟩ := hfb k bk hg
    have hid := hwb k bk hg
    by_cases hkb : k = b
    · simp only [hkb, if_true]
      rw [hid, hkb] at hcount
      rw [hid, hkb] at hflag
      refine ⟨hvalid, ?_, ?_⟩
      · show (List.filter (fun t : Transaction => decide (t.book_id = bk.book_id)) _).length ≤ 1
        rw [hid, hkb]; exact hcb b hcount
      · show fb = !s'.transactionService.isBookCurrentlyBorrowed bk.book_id
        rw [hid, hkb, hab' hcount, Bool.not_not]
    · simp only [hkb, if_false]
      refine ⟨hvalid, hcb _ hcount, ?_⟩
      rw [hflag, hab]
      rw [hid]; exact hkb

/-- The active transactions after an active record was appended to the map. -/
theorem getActiveTransactions_append (s : TransactionService) (k n : Nat) (t : Transaction)
    (ht : t.status = "active") :
    (TransactionService.mk (s.transactions ++ [(k, t)]) n).getActiveTransactions =
      s.getActiveTransactions ++ [t] := by
  simp [TransactionService.getActiveTransactions, JsMap.values, List.filter_append, ht]

/-- The borrow handler keeps the stores well keyed and the flags consistent. -/
theorem postBorrow_flags (s : Services) (now : Int) (m b : JsId)
    (hw : Routes.WellKeyed s) (h : Routes.FlagsConsistent s) :
    Routes.WellKeyed (Routes.postBorrow s now m b).2 ∧
      Routes.FlagsConsistent (Routes.postBorrow s now m b).2 := by
  cases hgm : s.memberService.getMember m with
  | none =>
    have hst : (Routes.postBorrow s now m b).2 = s := by simp only [Routes.postBorrow, hgm]
    rw [hst]; exact ⟨hw, h⟩
  | some member =>
    cases hgb : s.bookService.getBook b with
    | none =>
      have hst : (Routes.postBorrow s now m b).2 = s := by
        simp only [Routes.postBorrow, hgm, hgb]
      rw [hst]; exact ⟨hw, h⟩
    | some book =>
      rcases s.transactionService.borrowBook_cases now m b with
        ⟨msg, hc⟩ | ⟨msg, hc⟩ | ⟨hma, hbb, hid⟩
      · have hst : (Routes.postBorrow s now m b).2 = s := by
          simp only [Routes.postBorrow, hgm, hgb, hc]
        rw [hst]; exact ⟨hw, h⟩
      · have hst : (Routes.postBorrow s now m b).2 =
            { s with transactionService :=
                { transactions := s.transactionService.transactions
                  nextTransactionId := s.transactionService.nextTransactionId + 1 } } := by
          simp only [Routes.postBorrow, hgm, hgb, hc]
        rw [hst]
        exact ⟨⟨hw.1, hw.2.1, fun e he => Nat.lt_succ_of_lt (hw.2.2 e he)⟩, h⟩
      · have hvm := (h.1 m member hgm).1
        have hvb := (h.2 b book hgb).1
        have hT := borrowBook_of_free s.transactionService now m b hma hbb hid
        have hset := JsMap.set_fresh s.transactionService.transactions
          s.transactionService.nextTransactionId (s.transactionService.borrowedRecord now m b)
          hw.2.2
        have hst : (Routes.postBorrow s now m b).2 =
            { memberService := (s.memberService.updateMember m { has_borrowed := some true }).2
              bookService := (s.bookService.updateBook b { is_available := some false }).2
              transactionService :=
                { transactions := s.transactionService.transactions ++
                    [(s.transactionService.nextTransactionId,
                      s.transactionService.borrowedRecord now m b)]
                  nextTransactionId := s.transactionService.nextTransactionId + 1 }
              reservationService := s.reservationService } := by
          rw [postBorrow_success s now m b member book hid hgm hvm hma hgb hvb hbb,
            updateMember_has_borrowed s.memberService m member true hgm hvm,
            updateBook_is_available s.bookService b book false hgb hvb, hT, hset]
        rw [hst]
        have hact := getActiveTransactions_append s.transactionService
          s.transactionService.nextTransactionId (s.transactionService.nextTransactionId + 1)
          (s.transactionService.borrowedRecord now m b) rfl
        have hnoM : ∀ x ∈ s.transactionService.getActiveTransactions, ¬ x.member_id = m := by
          intro x hx hxm
          have := hma
          simp only [TransactionService.hasActiveBorrow, List.any_eq_false,
            decide_eq_true_eq] at this
          exact this x hx hxm
        have hnoB : ∀ x ∈ s.transactionService.getActiveTransactions, ¬ x.book_id = b := by
          intro x hx hxb
          have := hbb
          simp only [TransactionService.isBookCurrentlyBorrowed, List.any_eq_false,
            decide_eq_true_eq] at this
          exact this x hx hxb
        have hrm : (s.transactionService.borrowedRecord now m b).member_id = m := rfl
        have hrb : (s.transactionService.borrowedRecord now m b).book_id = b := rfl
        refine flags_frame s _ m b true false hw h
          (updateMember_flag_lookup s.memberService m true (fun k mb hk => (h.1 k mb hk).1)).2
          (updateBook_flag_lookup s.bookService b false (fun k bk hk => (h.2 k bk hk).1)).2
          ?_ ?_ ?_ ?_ ?_ ?_ ?_
        · intro e he
          simp only [List.mem_append, List.mem_singleton] at he
          rcases he with he | he
          · exact Nat.lt_succ_of_lt (hw.2.2 e he)
          · subst he; exact Nat.lt_succ_self _
        · intro x hx
          simp only [hact, List.filter_append, List.length_append]
          by_cases hxm : m = x
          · subst hxm
            have h0 : s.transactionService.getActiveTransactions.filter
                (fun t => decide (t.member_id = m)) = [] := by
              rw [List.filter_eq_nil_iff]
              intro y hy
              simpa using hnoM y hy
            rw [h0]
            simp [hrm]
          · have h1 : [s.transactionService.borrowedRecord now m b].filter
                (fun t => decide (t.member_id = x)) = [] := by
              simp [hrm, hxm]
            rw [h1]
            simpa using hx
        · intro x hx
          simp only [hact, List.filter_append, List.length_append]
          by_cases hxb : b = x
          · subst hxb
            have h0 : s.transactionService.getActiveTransactions.filter
                (fun t => decide (t.book_id = b)) = [] := by
              rw [List.filter_eq_nil_iff]
              intro y hy
              simpa using hnoB y hy
            rw [h0]
            simp [hrb]
          · have h1 : [s.transactionService.borrowedRecord now m b].filter
                (fun t => decide (t.book_id = x)) = [] := by
              simp [hrb, hxb]
            rw [h1]
            simpa using hx
        · intro x hxm
          simp only [TransactionService.hasActiveBorrow, hact, List.any_append, List.any_cons,
            List.any_nil, hrm, Bool.or_false]
          have : decide (m = x) = false := decide_eq_false (fun hc => hxm hc.symm)
          rw [this, Bool.or_false]
        · intro _
          simp only [TransactionService.hasActiveBorrow, hact, List.any_append, List.any_cons,
            List.any_nil, hrm, decide_True, Bool.or_false, Bool.or_true]
        · intro x hxb
          simp only [TransactionService.isBookCurrentlyBorrowed, hact, List.any_append,
            List.any_cons, List.any_nil, hrb, Bool.or_false]
          have : decide (b = x) = false := decide_eq_false (fun hc => hxb hc.symm)
          rw [this, Bool.or_false]
        · intro _
          simp only [TransactionService.isBookCurrentlyBorrowed, hact, List.any_append,
            List.any_cons, List.any_nil, hrb, decide_True, Bool.or_false, Bool.or_true,
            Bool.not_false]

/-- The return handler keeps the stores well keyed and the flags consistent. -/
theorem postReturn_flags (s : Services) (now : Int) (m b : JsId)
    (hw : Routes.WellKeyed s) (h : Routes.FlagsConsistent s) :
    Routes.WellKeyed (Routes.postReturn s now m b).2 ∧
      Routes.FlagsConsistent (Routes.postReturn s now m b).2 := by
  rcases s.transactionService.returnBook_cases now m b with
    ⟨msg, hc⟩ | ⟨t, t0, l1, l2, hr1, hnext, hkeys, ht0m, ht0b, hA, hA'⟩
  · have hst : (Routes.postReturn s now m b).2 = s := by
      simp only [Routes.postReturn, hc]
    rw [hst]; exact ⟨hw, h⟩
  · have hum := updateMember_flag_lookup s.memberService m false
      (fun k mb hk => (h.1 k mb hk).1)
    have hub := updateBook_flag_lookup s.bookService b true (fun k bk hk => (h.2 k bk hk).1)
    obtain ⟨⟨r2, hr2⟩, hmem⟩ := hum
    obtain ⟨⟨r3, hr3⟩, hbook⟩ := hub
    have hst : (Routes.postReturn s now m b).2 =
        { memberService := (s.memberService.updateMember m { has_borrowed := some false }).2
          bookService := (s.bookService.updateBook b { is_available := some true }).2
          transactionService := (s.transactionService.returnBook now m b).2
          reservationService := s.reservationService } := by
      simp only [Routes.postReturn, hr1, hr2, hr3]
    rw [hst]
    refine flags_frame s _ m b false true hw h hmem hbook ?_ ?_ ?_ ?_ ?_ ?_ ?_
    · intro e he
      show e.1 < (s.transactionService.returnBook now m b).2.nextTransactionId
      rw [hnext]
      have he1 : e.1 ∈ (s.transactionService.returnBook now m b).2.transactions.map Prod.fst :=
        List.mem_map_of_mem _ he
      rw [hkeys] at he1
      obtain ⟨e0, he0, h0⟩ := List.mem_map.1 he1
      rw [← h0]; exact hw.2.2 e0 he0
    · intro x hx
      show (List.filter _ (s.transactionService.returnBook now m b).2.getActiveTransactions).length
        ≤ 1
      rw [hA']
      rw [hA] at hx
      exact le_trans (length_filter_remove_le _ l1 l2 t0) hx
    · intro x hx
      show (List.filter _ (s.transactionService.returnBook now m b).2.getActiveTransactions).length
        ≤ 1
      rw [hA']
      rw [hA] at hx
      exact le_trans (length_filter_remove_le _ l1 l2 t0) hx
    · intro x hxm
      show (s.transactionService.returnBook now m b).2.getActiveTransactions.any _ =
        s.transactionService.getActiveTransactions.any _
      rw [hA, hA']
      exact any_remove_of_not _ l1 l2 t0 (decide_eq_false (fun hc => hxm (hc.symm.trans ht0m)))
    · intro hcount
      show (s.transactionService.returnBook now m b).2.getActiveTransactions.any _ = false
      rw [hA']
      rw [hA] at hcount
      exact any_remove_of_length_le_one _ l1 l2 t0 (decide_eq_true ht0m) hcount
    · intro x hxb
      show (s.transactionService.returnBook now m b).2.getActiveTransactions.any _ =
        s.transactionService.getActiveTransactions.any _
      rw [hA, hA']
      exact any_remove_of_not _ l1 l2 t0 (decide_eq_false (fun hc => hxb (hc.symm.trans ht0b)))
    · intro hcount
      show (s.transactionService.returnBook now m b).2.getActiveTransactions.any _ = !true
      rw [hA']
      rw [hA] at hcount
      exact any_remove_of_length_le_one _ l1 l2 t0 (decide_eq_true ht0b) hcount

/-- Storing an entry under its own id keeps every entry under its own id. -/
theorem JsMap.own_key_set {α : Type} (m : JsMap JsId α) (id : α → JsId) (v : α)
    (h : ∀ k x, JsMap.get m k = some x → id x = k) :
    ∀ k x, JsMap.get (JsMap.set m (id v) v) k = some x → id x = k := by
  intro k x hk
  by_cases hkv : k = id v
  · subst hkv
    rw [JsMap.get_set_self] at hk
    cases hk; rfl
  · rw [JsMap.get_set_ne _ _ _ _ hkv] at hk
    exact h k x hk

/-- The service `createMember` keeps every member under its own id. -/
theorem createMember_own_key (s : MemberService) (d : MemberData)
    (h : ∀ k member, s.getMember k = some member → member.member_id = k) :
    ∀ k member, (s.createMember d).2.getMember k = some member → member.member_id = k := by
  unfold MemberService.createMember
  simp only
  repeat' split
  all_goals first
    | exact h
    | exact JsMap.own_key_set s.members (fun x : Member => x.member_id) _ h

/-- The service `createBook` keeps every book under its own id. -/
theorem createBook_own_key (s : BookService) (d : BookData)
    (h : ∀ k book, s.getBook k = some book → book.book_id = k) :
    ∀ k book, (s.createBook d).2.getBook k = some book → book.book_id = k := by
  unfold BookService.createBook
  simp only
  repeat' split
  all_goals first
    | exact h
    | exact JsMap.own_key_set s.books (fun x : Book => x.book_id) _ h

/-- The service `updateMember` keeps every member under its own id. -/
theorem updateMember_own_key (s : MemberService) (id : JsId) (d : MemberData)
    (h : ∀ k member, s.getMember k = some member → member.member_id = k) :
    ∀ k member, (s.updateMember id d).2.getMember k = some member → member.member_id = k := by
  cases hg : s.getMember id with
  | none =>
    have hu : (s.updateMember id d).2 = s := by
      simp only [MemberService.getMember] at hg
      simp only [MemberService.updateMember, hg]
    rw [hu]; exact h
  | some member0 =>
    have hid : (member0.update d).member_id = id := h id member0 hg
    have hu : (s.updateMember id d).2.members =
        JsMap.set s.members ((member0.update d).member_id) (member0.update d) := by
      simp only [MemberService.getMember] at hg
      rw [hid]
      simp only [MemberService.updateMember, hg]
      split <;> rfl
    intro k member hk
    simp only [MemberService.getMember, hu] at hk
    exact JsMap.own_key_set s.members (fun x : Member => x.member_id) _ h k member hk

/-- The service `updateBook` keeps every book under its own id. -/
theorem updateBook_own_key (s : BookService) (id : JsId) (d : BookData)
    (h : ∀ k book, s.getBook k = some book → book.book_id = k) :
    ∀ k book, (s.updateBook id d).2.getBook k = some book → book.book_id = k := by
  cases hg : s.getBook id with
  | none =>
    have hu : (s.updateBook id d).2 = s := by
      simp only [BookService.getBook] at hg
      simp only [BookService.updateBook, hg]
    rw [hu]; exact h
  | some book0 =>
    have hid : (book0.update d).book_id = id := h id book0 hg
    have hu : (s.updateBook id d).2.books =
        JsMap.set s.books ((book0.update d).book_id) (book0.update d) := by
      simp only [BookService.getBook] at hg
      rw [hid]
      simp only [BookService.updateBook, hg]
      split <;> rfl
    intro k book hk
    simp only [BookService.getBook, hu] at hk
    exact JsMap.own_key_set s.books (fun x : Book => x.book_id) _ h k book hk

/-- The services a borrow request can leave: each is the old one or the one its service
call returns. -/
theorem postBorrow_components (s : Services) (now : Int) (m b : JsId) :
    ((Routes.postBorrow s now m b).2.memberService = s.memberService ∨
      (Routes.postBorrow s now m b).2.memberService =
        (s.memberService.updateMember m { has_borrowed := some true }).2) ∧
    ((Routes.postBorrow s now m b).2.bookService = s.bookService ∨
      (Routes.postBorrow s now m b).2.bookService =
        (s.bookService.updateBook b { is_available := some false }).2) ∧
    ((Routes.postBorrow s now m b).2.transactionService = s.transactionService ∨
      (Routes.postBorrow s now m b).2.transactionService =
        (s.transactionService.borrowBook now m b).2) := by
  unfold Routes.postBorrow
  simp only
  repeat' split
  all_goals simp

/-- The services a return request can leave: each is the old one or the one its service
call returns. -/
theorem postReturn_components (s : Services) (now : Int) (m b : JsId) :
    ((Routes.postReturn s now m b).2.memberService = s.memberService ∨
      (Routes.postReturn s now m b).2.memberService =
        (s.memberService.updateMember m { has_borrowed := some false }).2) ∧
    ((Routes.postReturn s now m b).2.bookService = s.bookService ∨
      (Routes.postReturn s now m b).2.bookService =
        (s.bookService.updateBook b { is_available := some true }).2) ∧
    ((Routes.postReturn s now m b).2.transactionService = s.transactionService ∨
      (Routes.postReturn s now m b).2.transactionService =
        (s.transactionService.returnBook now m b).2) := by
  unfold Routes.postReturn
  simp only
  repeat' split
  all_goals simp

/-- Every state the member, book, borrow and return handlers reach from the empty services
is keyed as the services key it, with the transaction ids in sequence. -/
theorem wellKeyed_handleAll (requests : List Routes.Request) (s : Services)
    (hw : Routes.WellKeyed s) (hs : s.transactionService.IdsSequenced) :
    Routes.WellKeyed (Routes.handleAll s requests) ∧
      (Routes.handleAll s requests).transactionService.IdsSequenced := by
  induction requests generalizing s with
  | nil => exact ⟨hw, hs⟩
  | cons r rest ih =>
    obtain ⟨hm, hb, ht⟩ := hw
    have key : Routes.WellKeyed (Routes.handle s r) ∧
        (Routes.handle s r).transactionService.IdsSequenced := by
      cases r with
      | postMember body =>
        have hst : Routes.handle s (Routes.Request.postMember body) =
            { s with memberService := (s.memberService.createMember body).2 } := by
          simp only [Routes.handle, Routes.postMembers]
          repeat' split
          all_goals rfl
        rw [hst]
        exact ⟨⟨createMember_own_key _ body hm, hb, ht⟩, hs⟩
      | putMember memberId body =>
        have hst : Routes.handle s (Routes.Request.putMember memberId body) =
            { s with memberService :=
                (s.memberService.updateMember (JsId.int memberId) body).2 } := by
          simp only [Routes.handle, Routes.putMember]
          repeat' split
          all_goals rfl
        rw [hst]
        exact ⟨⟨updateMember_own_key _ _ body hm, hb, ht⟩, hs⟩
      | postBook body =>
        have hst : Routes.handle s (Routes.Request.postBook body) =
            { s with bookService := (s.bookService.createBook body).2 } := by
          simp only [Routes.handle, Routes.postBooks]
          repeat' split
          all_goals rfl
        rw [hst]
        exact ⟨⟨hm, createBook_own_key _ body hb, ht⟩, hs⟩
      | borrow now m b =>
        obtain ⟨h1, h2, h3⟩ := postBorrow_components s now m b
        have hs' : (Routes.postBorrow s now m b).2.transactionService.IdsSequenced := by
          rcases h3 with h3 | h3 <;> rw [h3]
          · exact hs
          · exact s.transactionService.idsSequenced_borrowBook now m b hs
        refine ⟨⟨?_, ?_, fun e he => (hs'.2.1 e he).2.2⟩, hs'⟩
        · show ∀ k member, (Routes.postBorrow s now m b).2.memberService.getMember k =
            some member → member.member_id = k
          rcases h1 with h1 | h1 <;> rw [h1]
          · exact hm
          · exact updateMember_own_key _ _ _ hm
        · show ∀ k book, (Routes.postBorrow s now m b).2.bookService.getBook k =
            some book → book.book_id = k
          rcases h2 with h2 | h2 <;> rw [h2]
          · exact hb
          · exact updateBook_own_key _ _ _ hb
      | giveBack now m b =>
        obtain ⟨h1, h2, h3⟩ := postReturn_components s now m b
        have hs' : (Routes.postReturn s now m b).2.transactionService.IdsSequenced := by
          rcases h3 with h3 | h3 <;> rw [h3]
          · exact hs
          · exact s.transactionService.idsSequenced_returnBook now m b hs
        refine ⟨⟨?_, ?_, fun e he => (hs'.2.1 e he).2.2⟩, hs'⟩
        · show ∀ k member, (Routes.postReturn s now m b).2.memberService.getMember k =
            some member → member.member_id = k
          rcases h1 with h1 | h1 <;> rw [h1]
          · exact hm
          · exact updateMember_own_key _ _ _ hm
        · show ∀ k book, (Routes.postReturn s now m b).2.bookService.getBook k =
            some book → book.book_id = k
          rcases h2 with h2 | h2 <;> rw [h2]
          · exact hb
          · exact updateBook_own_key _ _ _ hb
    exact ih (Routes.handle s r) key.1 key.2

/-- The empty services are well keyed, hence so is every state the handlers reach. -/
theorem wellKeyed_reachable (requests : List Routes.Request) :
    Routes.WellKeyed (Routes.handleAll Services.empty requests) :=
  (wellKeyed_handleAll requests Services.empty
    ⟨fun _ _ hk => (by cases hk), fun _ _ hk => (by cases hk),
      fun _ he => absurd he (List.not_mem_nil _)⟩
    ⟨Nat.one_pos, fun _ he => absurd he (List.not_mem_nil _), List.Pairwise.nil⟩).1

/-- C27: from every state whose stores are keyed as the services key them (each member and
book under its own id, transaction keys below `nextTransactionId`) and in which every stored
member and book passes `validate()`, has at most one active transaction, and has
`has_borrowed = hasActiveBorrow(id)`, respectively `is_available = !isBookCurrentlyBorrowed(id)`,
every borrow-handler step and every return-handler step, for any ids and whatever the answer,
leads to a state with the same properties. -/
theorem flags_consistent_preserved (s : Services) (now : Int) (m b : JsId)
    (hw : Routes.WellKeyed s) (h : Routes.FlagsConsistent s) :
    (Routes.WellKeyed (Routes.postBorrow s now m b).2 ∧
      Routes.FlagsConsistent (Routes.postBorrow s now m b).2) ∧
    (Routes.WellKeyed (Routes.postReturn s now m b).2 ∧
      Routes.FlagsConsistent (Routes.postReturn s now m b).2) :=
  ⟨postBorrow_flags s now m b hw h, postReturn_flags s now m b hw h⟩

/-- C27 at the state reached by creating a member and a book and lending the book to the
member: the state has the properties, and so have the states after a return and after a
second borrow request. -/
theorem flags_consistent_preserved_witness :
    (Routes.WellKeyed (Routes.handleAll Services.empty
        [Routes.Request.postMember { name := some "John Doe", age := some 25 },
         Routes.Request.postBook { title := some "Dune", author := some "Frank Herbert" },
         Routes.Request.borrow 0 (JsId.int 1) (JsId.int 1)]) ∧
      Routes.FlagsConsistent (Routes.handleAll Services.empty
        [Routes.Request.postMember { name := some "John Doe", age := some 25 },
         Routes.Request.postBook { title := some "Dune", author := some "Frank Herbert" },
         Routes.Request.borrow 0 (JsId.int 1) (JsId.int 1)])) ∧
    (Routes.WellKeyed (Routes.postBorrow (Routes.handleAll Services.empty
        [Routes.Request.postMember { name := some "John Doe", age := some 25 },
         Routes.Request.postBook { title := some "Dune", author := some "Frank Herbert" },
         Routes.Request.borrow 0 (JsId.int 1) (JsId.int 1)]) 5 (JsId.int 1) (JsId.int 1)).2 ∧
      Routes.FlagsConsistent (Routes.postBorrow (Routes.handleAll Services.empty
        [Routes.Request.postMember { name := some "John Doe", age := some 25 },
         Routes.Request.postBook { title := some "Dune", author := some "Frank Herbert" },
         Routes.Request.borrow 0 (JsId.int 1) (JsId.int 1)]) 5 (JsId.int 1) (JsId.int 1)).2) ∧
    (Routes.WellKeyed (Routes.postReturn (Routes.handleAll Services.empty
        [Routes.Request.postMember { name := some "John Doe", age := some 25 },
         Routes.Request.postBook { title := some "Dune", author := some "Frank Herbert" },
         Routes.Request.borrow 0 (JsId.int 1) (JsId.int 1)]) 5 (JsId.int 1) (JsId.int 1)).2 ∧
      Routes.FlagsConsistent (Routes.postReturn (Routes.handleAll Services.empty
        [Routes.Request.postMember { name := some "John Doe", age := some 25 },
         Routes.Request.postBook { title := some "Dune", author := some "Frank Herbert" },
         Routes.Request.borrow 0 (JsId.int 1) (JsId.int 1)]) 5 (JsId.int 1) (JsId.int 1)).2) := by
  have hm : ∀ k, (Routes.handleAll Services.empty
        [Routes.Request.postMember { name := some "John Doe", age := some 25 },
         Routes.Request.postBook { title := some "Dune", author := some "Frank Herbert" },
         Routes.Request.borrow 0 (JsId.int 1) (JsId.int 1)]).memberService.getMember k =
      if JsId.int 1 = k then some ⟨JsId.int 1, "John Doe", 25, true⟩ else none := by
    intro k; split <;> rename_i hk
    · subst hk; decide!
    · show ((List.find? _ [(JsId.int 1, _)]).map Prod.snd) = none
      simp [List.find?, hk]
  have hb : ∀ k, ∃ book : Book, book.book_id = JsId.int 1 ∧ book.validate.isValid = true ∧
      book.is_available = false ∧
      (Routes.handleAll Services.empty
        [Routes.Request.postMember { name := some "John Doe", age := some 25 },
         Routes.Request.postBook { title := some "Dune", author := some "Frank Herbert" },
         Routes.Request.borrow 0 (JsId.int 1) (JsId.int 1)]).bookService.getBook k =
      if JsId.int 1 = k then some book else none := by
    intro k
    refine ⟨Book.new
      { title := some "Dune", author := some "Frank Herbert", book_id := JsId.int 1, is_available := some false },
      by decide!, by decide!, by decide!, ?_⟩
    split <;> rename_i hk
    · subst hk; decide!
    · show ((List.find? _ [(JsId.int 1, _)]).map Prod.snd) = none
      simp [List.find?, hk]
  have hw : Routes.WellKeyed (Routes.handleAll Services.empty
        [Routes.Request.postMember { name := some "John Doe", age := some 25 },
         Routes.Request.postBook { title := some "Dune", author := some "Frank Herbert" },
         Routes.Request.borrow 0 (JsId.int 1) (JsId.int 1)]) := by
    refine ⟨?_, ?_, by decide!⟩
    · intro k member hk
      rw [hm k] at hk
      split at hk
      · rename_i h1; cases hk; exact h1
      · cases hk
    · intro k book hk
      obtain ⟨bk, h1, _, _, h4⟩ := hb k
      rw [h4] at hk
      split at hk
      · rename_i h5; cases hk; rw [h1]; exact h5
      · cases hk
  have hf : Routes.FlagsConsistent (Routes.handleAll Services.empty
        [Routes.Request.postMember { name := some "John Doe", age := some 25 },
         Routes.Request.postBook { title := some "Dune", author := some "Frank Herbert" },
         Routes.Request.borrow 0 (JsId.int 1) (JsId.int 1)]) := by
    refine ⟨?_, ?_⟩
    · intro k member hk
      rw [hm k] at hk
      split at hk
      · cases hk; decide!
      · cases hk
    · intro k book hk
      obtain ⟨bk, h1, h2, h3, h4⟩ := hb k
      rw [h4] at hk
      split at hk
      · cases hk
        rw [h1, h3]
        exact ⟨h2, by decide!, by decide!⟩
      · cases hk
  exact ⟨⟨hw, hf⟩, flags_consistent_preserved _ 5 (JsId.int 1) (JsId.int 1) hw hf⟩

end LibraryApi
